import Mathlib

/-!
# Wavefront path-tracing scheduler (`PathTraceWorkGPU`)

A shallow embedding of `intern/cycles/integrator/path_trace_work_gpu.cpp`.

* C++ `int` values are mathematical integers (`Int`); signed overflow is undefined behaviour in
  the source and is not modelled.
* The two `float` threshold comparisons are evaluated with an explicit model of IEEE-754 binary32
  round-to-nearest-even arithmetic (`Float32`).
* The numeric values of `enum DeviceKernel` live in `kernel/kernel_types.h`, which is not part of
  the sources at hand; they are a parameter (`DeviceKernelEnum`).
* The work-tile scheduler, the device queue and the cancel flag are external collaborators.  They
  are a parameter as well (`Environment`), acting on an abstract world state.
* Every call that leaves the scheduler is recorded in a trace of `Event`s.
-/

namespace Cycles

/-! ## Single-precision arithmetic -/

/-- A finite binary floating-point value `mant * 2 ^ exp`. -/
structure Float32 where
  mant : Int
  exp : Int
  deriving DecidableEq, Repr

namespace Float32

/-- Number of low-order bits that have to be dropped from `a` to fit a 24-bit significand. -/
def excess : Nat → Nat → Nat
  | 0, _ => 0
  | fuel + 1, a => if a < 2 ^ 24 then 0 else excess fuel (a / 2) + 1

/-- The integer nearest to `a / 2 ^ k`, ties to even. -/
def nearest (a k : Nat) : Nat :=
  let q := a / 2 ^ k
  let r := a % 2 ^ k
  if 2 * r < 2 ^ k then q else if 2 ^ k < 2 * r then q + 1 else q + q % 2

/-- Round `m * 2 ^ e` to the nearest value with a 24-bit significand, ties to even.
The exponent range of binary32 is not modelled (no overflow to infinity, no subnormals). -/
def round (m e : Int) : Float32 :=
  let a := m.natAbs
  let k := excess a a
  ⟨m.sign * nearest a k, e + k⟩

/-- Conversion `int -> float`. -/
def ofInt (n : Int) : Float32 := round n 0

/-- Product `float * float`. -/
def mul (a b : Float32) : Float32 := round (a.mant * b.mant) (a.exp + b.exp)

/-- Comparison `float < float`. -/
def lt (a b : Float32) : Bool :=
  let e := min a.exp b.exp
  decide (a.mant * 2 ^ (a.exp - e).toNat < b.mant * 2 ^ (b.exp - e).toNat)

end Float32

/-- The literal `0.1f`: the binary32 value nearest to one tenth, `13421773 * 2 ^ (-27)`. -/
def megakernel_threshold : Float32 := ⟨13421773, -27⟩

/-- The literal `0.5f`. -/
def regenerate_threshold : Float32 := ⟨1, -1⟩

/-- The test `num_paths < threshold * max_num_paths` of the source: both `int` operands are
converted to `float`, the product and the comparison are single precision. -/
def below_threshold (threshold : Float32) (num_paths max_num_paths : Int) : Bool :=
  Float32.lt (Float32.ofInt num_paths) (Float32.mul threshold (Float32.ofInt max_num_paths))

/-! ## Data model -/

/-- The enumerators of `enum DeviceKernel` that the scheduler names (the cases of the `switch` in
`enqueue_path_iteration(DeviceKernel)`), with the common prefix `DEVICE_KERNEL_` dropped.  Their
numeric values are declared in `kernel/kernel_types.h` and are a parameter here.  A value of type
`DeviceKernel` is a natural number throughout. -/
structure DeviceKernelEnum where
  INTEGRATOR_INIT_FROM_CAMERA : Nat
  INTEGRATOR_INTERSECT_CLOSEST : Nat
  INTEGRATOR_INTERSECT_SHADOW : Nat
  INTEGRATOR_INTERSECT_SUBSURFACE : Nat
  INTEGRATOR_SHADE_BACKGROUND : Nat
  INTEGRATOR_SHADE_LIGHT : Nat
  INTEGRATOR_SHADE_SHADOW : Nat
  INTEGRATOR_SHADE_SURFACE : Nat
  INTEGRATOR_SHADE_VOLUME : Nat
  INTEGRATOR_MEGAKERNEL : Nat
  INTEGRATOR_QUEUED_PATHS_ARRAY : Nat
  INTEGRATOR_QUEUED_SHADOW_PATHS_ARRAY : Nat
  INTEGRATOR_TERMINATED_PATHS_ARRAY : Nat
  CONVERT_TO_HALF_FLOAT : Nat
  ADAPTIVE_SAMPLING_CONVERGENCE_CHECK : Nat
  ADAPTIVE_SAMPLING_CONVERGENCE_FILTER_X : Nat
  ADAPTIVE_SAMPLING_CONVERGENCE_FILTER_Y : Nat
  /-- The number of per-kernel counters of `IntegratorPathQueue::num_queued`. -/
  INTEGRATOR_NUM : Nat

namespace DeviceKernelEnum

/-- The path kernels that index a queue counter: the eight phases that
`enqueue_path_iteration(DeviceKernel)` dispatches with their own counter. -/
def phases (K : DeviceKernelEnum) : List Nat :=
  [K.INTEGRATOR_INTERSECT_CLOSEST, K.INTEGRATOR_INTERSECT_SHADOW,
   K.INTEGRATOR_INTERSECT_SUBSURFACE, K.INTEGRATOR_SHADE_BACKGROUND, K.INTEGRATOR_SHADE_LIGHT,
   K.INTEGRATOR_SHADE_SHADOW, K.INTEGRATOR_SHADE_SURFACE, K.INTEGRATOR_SHADE_VOLUME]

/-- What the source takes for granted about the enumeration: the phases and the megakernel have
pairwise different values, and every phase indexes a counter of `num_queued`. -/
def WellFormed (K : DeviceKernelEnum) : Prop :=
  (K.INTEGRATOR_MEGAKERNEL :: K.phases).Nodup ∧ ∀ k ∈ K.phases, k < K.INTEGRATOR_NUM

instance (K : DeviceKernelEnum) : Decidable K.WellFormed := by
  unfold WellFormed; infer_instance

end DeviceKernelEnum

/-- Modelled from the spec: `struct KernelWorkTile` is declared in `kernel/kernel_types.h`, which
is missing; "a rectangular pixel region plus a sample-count and sample-offset".  The scheduler
itself only reads `w`, `h` and `num_samples`. -/
structure KernelWorkTile where
  x : Int
  y : Int
  w : Int
  h : Int
  start_sample : Int
  num_samples : Int
  deriving DecidableEq, Repr, Inhabited

/-- The expression `work_tile.w * work_tile.h * work_tile.num_samples`. -/
def KernelWorkTile.volume (t : KernelWorkTile) : Int := t.w * t.h * t.num_samples

/-- The device buffers owned by the scheduler. -/
inductive Buffer
  | integrator_path_queue_
  | queued_paths_
  | num_queued_paths_
  | work_tiles_
  | gpu_display_rgba_half_
  /-- One array of `integrator_state_soa_`, by the name it is allocated under. -/
  | integrator_state (name : String)
  deriving DecidableEq, Repr

/-- Where the film-conversion kernel writes: the value of its argument `d_rgba_half`. -/
inductive DisplayDestination
  /-- The pointer `gpu_display_rgba_half_.device_pointer`. -/
  | display_buffer
  /-- The pointer returned by `device_graphics_interop_->map()`. -/
  | graphics_interop
  deriving DecidableEq, Repr

/-- The argument list handed to `queue_->enqueue`. A device pointer into `queued_paths_` or
`work_tiles_` is the element offset from the start of the buffer; `none` is `NULL`. -/
inductive KernelArgs
  /-- Arguments `{&d_path_index, &work_size}`: the ray intersection kernels. -/
  | intersect (d_path_index : Option Int) (work_size : Int)
  /-- Arguments `{&d_path_index, &d_render_buffer, &work_size}`: the shading kernels and the megakernel. -/
  | shade (d_path_index : Option Int) (work_size : Int)
  /-- Arguments `{&work_size, &d_queued_paths, &d_num_queued_paths, &queued_kernel}`: compaction. -/
  | queued_paths (work_size : Int) (queued_kernel : Int)
  /-- Arguments `{&d_path_index, &d_work_tile, &d_render_buffer, &tile_work_size, &num_paths}`:
  camera-path initialization; `work_tile` is the tile that `d_work_tile` points to. -/
  | init_from_camera (d_path_index : Option Int) (d_work_tile : Nat) (work_tile : KernelWorkTile)
      (tile_work_size : Int) (num_paths : Int)
  /-- Arguments `{&d_rgba_half, &buffer, &sample_scale, &full_x, &full_y, &width, &height,
  &offset, &stride}`: film conversion. -/
  | film_convert (d_rgba_half : DisplayDestination) (sample_scale : Float32)
      (full_x full_y width height offset stride : Int)
  /-- Arguments `{&buffer, &full_x, &full_y, &width, &height, &sample, &offset, &stride}`: the
  convergence check of adaptive sampling. -/
  | convergence_check (full_x full_y width height sample offset stride : Int)
  /-- Arguments `{&buffer, &full_x, &full_y, &width, &height, &offset, &stride}`: the two
  convergence filters of adaptive sampling. -/
  | convergence_filter (full_x full_y width height offset stride : Int)
  deriving DecidableEq, Repr

/-- The calls that leave the scheduler, in program order. -/
inductive Event
  /-- The call `work_tile_scheduler_.reset(effective_buffer_params_, start_sample, samples_num)`. -/
  | scheduler_reset (start_sample samples_num : Int)
  /-- The call `work_tile_scheduler_.get_work(&work_tile, max_work_size)` and what it returned. -/
  | get_work (max_work_size : Int) (result : Option KernelWorkTile)
  /-- The call `queue_->enqueue(kernel, work_size, args)`. -/
  | enqueue (kernel : Nat) (work_size : Int) (args : KernelArgs)
  /-- The call `queue_->synchronize()` and what it returned. -/
  | synchronize (ok : Bool)
  | alloc (buffer : Buffer) (size : Int)
  | zero_to_device (buffer : Buffer)
  | copy_to_device (buffer : Buffer)
  | copy_from_device (buffer : Buffer)
  /-- The assertion `DCHECK_LE(a, b)`: a no-op in release builds, fatal in debug builds when `a > b`. -/
  | dcheck_le (a b : Int)
  /-- The statement `LOG(FATAL) << "Unhandled kernel " << kernel`: the process is aborted. -/
  | log_fatal (kernel : Nat)
  /-- The call `queue_->init_execution()`. -/
  | queue_init_execution
  /-- The call `array->alloc_to_device(max_num_paths)` of a `device_only_memory`. -/
  | alloc_to_device (buffer : Buffer) (size : Int)
  /-- The call `device_->const_copy_to(name, host, size)`, with the number of pointers copied. -/
  | const_copy_to (name : String) (count : Nat)
  /-- The call `gpu_display_rgba_half_.alloc(width, height)`. -/
  | alloc_2d (buffer : Buffer) (width height : Int)
  /-- The call `device->should_use_graphics_interop()` and what it returned. -/
  | should_use_graphics_interop (result : Bool)
  /-- The call `device->graphics_interop_create()`. -/
  | graphics_interop_create
  /-- The call `gpu_display->graphics_interop_get()`. -/
  | graphics_interop_get
  /-- The call `device_graphics_interop_->set_destination(graphics_interop_dst)`. -/
  | graphics_interop_set_destination
  /-- The call `device_graphics_interop_->map()` and whether the pointer returned is non-null. -/
  | graphics_interop_map (mapped : Bool)
  /-- The call `device_graphics_interop_->unmap()`. -/
  | graphics_interop_unmap
  /-- The call `gpu_display->copy_pixels_to_texture(gpu_display_rgba_half_.data())`. -/
  | copy_pixels_to_texture
  deriving DecidableEq, Repr

/-- The external collaborators, acting on a world state `W`. -/
structure Environment (W : Type) where
  /-- Method `WorkTileScheduler::reset`. -/
  reset : W → Int → Int → W
  /-- Method `WorkTileScheduler::get_work(&work_tile, max_work_size)`: `none` when it returns false. -/
  get_work : W → Int → Option KernelWorkTile × W
  /-- Method `DeviceQueue::enqueue`. -/
  enqueue : W → Nat → Int → KernelArgs → W
  /-- Method `DeviceQueue::synchronize`: false on a device error. -/
  synchronize : W → Bool × W
  /-- The counters `num_queued` held by the device, as read by
  `integrator_path_queue_.copy_from_device()`. -/
  copy_from_device : W → Nat → Int
  /-- The value of `*cancel_requested_flag`. -/
  is_cancel_requested : W → Bool

namespace Environment

variable {W : Type}

/-- The scheduler never hands out a tile of negative volume. -/
def NonnegTiles (E : Environment W) : Prop :=
  ∀ w max_work_size work_tile w',
    E.get_work w max_work_size = (some work_tile, w') → 0 ≤ work_tile.volume

/-- The contract of `get_work(max_work_size)`: the tile returned has a non-negative volume of
at most `max_work_size`. -/
def TilesFit (E : Environment W) : Prop :=
  ∀ w max_work_size work_tile w',
    E.get_work w max_work_size = (some work_tile, w') →
      0 ≤ work_tile.volume ∧ work_tile.volume ≤ max_work_size

/-- Forward progress of the scheduler: it never hands out a tile of volume zero or less. -/
def Progress (E : Environment W) : Prop :=
  ∀ w max_work_size work_tile w',
    E.get_work w max_work_size = (some work_tile, w') → 1 ≤ work_tile.volume

end Environment

/-- The collaborators of the display update: the device's interop support, acting on the same
world state as `Environment`. -/
structure DisplayEnvironment (W : Type) where
  /-- Method `Device::should_use_graphics_interop`. -/
  should_use_graphics_interop : W → Bool
  /-- Method `DeviceGraphicsInterop::map`: whether the device pointer returned is non-null. -/
  graphics_interop_map : W → Bool × W

/-- Modelled from the spec: `class BufferParams` is declared in `render/buffers.h`, which is
missing; "a render-buffer object owning pixel storage and offset/stride metadata". These are the
fields the display update and the adaptive filter read; `offset` and `stride` are the values
that `get_offset_stride(offset, stride)` yields. -/
structure BufferParams where
  full_x : Int
  full_y : Int
  width : Int
  height : Int
  offset : Int
  stride : Int
  deriving DecidableEq, Repr, Inhabited

/-- One `KERNEL_STRUCT_BEGIN ... KERNEL_STRUCT_END` (or `..._END_ARRAY`) block of
`kernel/integrator/integrator_state_template.h`, which is missing and hence a parameter: the
names given to `KERNEL_STRUCT_MEMBER`, in order, and the number of passes through the block's
loop (1 for `KERNEL_STRUCT_END`, `array_size` for `KERNEL_STRUCT_END_ARRAY`, taken to be at
least 1). -/
structure KernelStruct where
  members : List String
  array_size : Nat
  deriving DecidableEq, Repr

/-- The arrays allocated by the expansion of one block, in allocation order: each pass
allocates one array per member, under the name `"integrator_state_" #name`. -/
def KernelStruct.arrays (s : KernelStruct) : List String :=
  (List.range s.array_size).flatMap (fun _ => s.members.map (fun m => "integrator_state_" ++ m))

/-- The arrays allocated by the expansion of the whole template. -/
def template_arrays (template : List KernelStruct) : List String :=
  template.flatMap KernelStruct.arrays

/-- The members of `PathTraceWorkGPU` that the scheduling loop reads or writes. -/
structure PathTraceWorkGPU (W : Type) where
  world : W
  /-- Host copy of the counters: `integrator_path_queue_.data()->num_queued`. -/
  num_queued : Nat → Int
  max_active_path_index_ : Int
  /-- The size `queued_paths_.size()`. -/
  queued_paths_size : Int
  /-- The size `num_queued_paths_.size()`. -/
  num_queued_paths_size : Int
  /-- The size `work_tiles_.size()`. -/
  work_tiles_size : Int
  /-- The host data `work_tiles_.data()`. -/
  work_tiles_data : Nat → KernelWorkTile
  /-- Set once `LOG(FATAL)` has been reached. -/
  aborted : Bool
  trace : List Event

namespace PathTraceWorkGPU

variable {W : Type}

/-- The constructor: `max_active_path_index_(0)`, empty device vectors, zeroed counters. Its
call `work_tile_scheduler_.set_max_num_path_states(get_max_num_paths())` only configures the
external scheduler and is not recorded. -/
def init (world : W) : PathTraceWorkGPU W :=
  { world := world, num_queued := fun _ => 0, max_active_path_index_ := 0,
    queued_paths_size := 0, num_queued_paths_size := 0, work_tiles_size := 0,
    work_tiles_data := fun _ => default, aborted := false, trace := [] }

/-- Record a call that has no modelled effect on the world. -/
def emit (st : PathTraceWorkGPU W) (e : Event) : PathTraceWorkGPU W :=
  { st with trace := st.trace ++ [e] }

/-- The call `queue_->enqueue(kernel, work_size, args)`. -/
def queue_enqueue (E : Environment W) (st : PathTraceWorkGPU W) (kernel : Nat)
    (work_size : Int) (args : KernelArgs) : PathTraceWorkGPU W :=
  { st with world := E.enqueue st.world kernel work_size args,
            trace := st.trace ++ [Event.enqueue kernel work_size args] }

/-- Method `PathTraceWorkGPU::get_max_num_paths`. The operations below take the capacity as the
parameter `max_num_paths`; the source is their instance at this value. -/
def get_max_num_paths : Int := 1048576

/-- Method `PathTraceWorkGPU::get_num_active_paths` -/
def get_num_active_paths (K : DeviceKernelEnum) (st : PathTraceWorkGPU W) : Int :=
  (List.range K.INTEGRATOR_NUM).foldl (fun num_paths i => num_paths + st.num_queued i) 0

/-- Method `PathTraceWorkGPU::compute_queued_paths` -/
def compute_queued_paths (K : DeviceKernelEnum) (E : Environment W) (max_num_paths : Int)
    (st : PathTraceWorkGPU W) (kernel : Nat) (queued_kernel : Int) :
    PathTraceWorkGPU W :=
  let work_size :=
    if kernel = K.INTEGRATOR_TERMINATED_PATHS_ARRAY then max_num_paths
    else st.max_active_path_index_
  let st :=
    if st.num_queued_paths_size < 1 then
      { st.emit (Event.alloc Buffer.num_queued_paths_ 1) with num_queued_paths_size := 1 }
    else st
  let st :=
    if st.queued_paths_size < work_size then
      ({ st.emit (Event.alloc Buffer.queued_paths_ work_size) with
          queued_paths_size := work_size }).emit (Event.zero_to_device Buffer.queued_paths_)
    else st
  let st := st.emit (Event.zero_to_device Buffer.num_queued_paths_)
  queue_enqueue E st kernel work_size (KernelArgs.queued_paths work_size queued_kernel)

/-- Method `PathTraceWorkGPU::enqueue_path_iteration(DeviceKernel kernel)` -/
def enqueue_path_iteration_kernel (K : DeviceKernelEnum) (E : Environment W)
    (max_num_paths : Int) (st : PathTraceWorkGPU W) (kernel : Nat) :
    PathTraceWorkGPU W :=
  let queue_kernel :=
    if kernel = K.INTEGRATOR_MEGAKERNEL then K.INTEGRATOR_INTERSECT_CLOSEST else kernel
  let num_queued := st.num_queued queue_kernel
  let compact := decide (num_queued < st.max_active_path_index_)
  let work_size := if compact then num_queued else st.max_active_path_index_
  let st :=
    if compact then
      compute_queued_paths K E max_num_paths st
        (if kernel = K.INTEGRATOR_INTERSECT_SHADOW ∨ kernel = K.INTEGRATOR_SHADE_SHADOW then
          K.INTEGRATOR_QUEUED_SHADOW_PATHS_ARRAY
        else K.INTEGRATOR_QUEUED_PATHS_ARRAY)
        queue_kernel
    else st
  let d_path_index : Option Int := if compact then some 0 else none
  let st := st.emit (Event.dcheck_le work_size max_num_paths)
  if kernel = K.INTEGRATOR_INTERSECT_CLOSEST ∨ kernel = K.INTEGRATOR_INTERSECT_SHADOW ∨
      kernel = K.INTEGRATOR_INTERSECT_SUBSURFACE then
    queue_enqueue E st kernel work_size (KernelArgs.intersect d_path_index work_size)
  else if kernel = K.INTEGRATOR_SHADE_BACKGROUND ∨ kernel = K.INTEGRATOR_SHADE_LIGHT ∨
      kernel = K.INTEGRATOR_SHADE_SHADOW ∨ kernel = K.INTEGRATOR_SHADE_SURFACE ∨
      kernel = K.INTEGRATOR_SHADE_VOLUME ∨ kernel = K.INTEGRATOR_MEGAKERNEL then
    queue_enqueue E st kernel work_size (KernelArgs.shade d_path_index work_size)
  else
    { st.emit (Event.log_fatal kernel) with aborted := true }

/-- The locals of the search loop of `enqueue_path_iteration()`. -/
structure FindKernel where
  num_paths : Int
  max_num_queued : Int
  kernel : Nat
  deriving DecidableEq, Repr

/-- One iteration of `for (int i = 0; i < DEVICE_KERNEL_INTEGRATOR_NUM; i++)`. -/
def find_kernel_step (num_queued : Nat → Int) (s : FindKernel) (i : Nat) : FindKernel :=
  if num_queued i > s.max_num_queued then
    { num_paths := s.num_paths + num_queued i, max_num_queued := num_queued i, kernel := i }
  else
    { s with num_paths := s.num_paths + num_queued i }

/-- The search loop of `enqueue_path_iteration()`. -/
def find_kernel (K : DeviceKernelEnum) (num_queued : Nat → Int) : FindKernel :=
  (List.range K.INTEGRATOR_NUM).foldl (find_kernel_step num_queued)
    { num_paths := 0, max_num_queued := 0, kernel := K.INTEGRATOR_NUM }

/-- Method `PathTraceWorkGPU::enqueue_path_iteration()`: the returned flag and the state after it. -/
def enqueue_path_iteration (K : DeviceKernelEnum) (E : Environment W) (max_num_paths : Int)
    (st : PathTraceWorkGPU W) : Bool × PathTraceWorkGPU W :=
  let f := find_kernel K st.num_queued
  if f.max_num_queued = 0 then (false, st)
  else
    let use_megakernel := below_threshold megakernel_threshold f.num_paths max_num_paths
    if use_megakernel ∧ (f.kernel = K.INTEGRATOR_INTERSECT_CLOSEST ∧
        f.num_paths = st.num_queued f.kernel) then
      (true, enqueue_path_iteration_kernel K E max_num_paths st K.INTEGRATOR_MEGAKERNEL)
    else if use_megakernel ∨ f.kernel = K.INTEGRATOR_SHADE_SURFACE ∨
        f.kernel = K.INTEGRATOR_SHADE_VOLUME then
      if st.num_queued K.INTEGRATOR_INTERSECT_SHADOW ≠ 0 then
        (true, enqueue_path_iteration_kernel K E max_num_paths st K.INTEGRATOR_INTERSECT_SHADOW)
      else if st.num_queued K.INTEGRATOR_SHADE_SHADOW ≠ 0 then
        (true, enqueue_path_iteration_kernel K E max_num_paths st K.INTEGRATOR_SHADE_SHADOW)
      else
        (true, enqueue_path_iteration_kernel K E max_num_paths st f.kernel)
    else
      (true, enqueue_path_iteration_kernel K E max_num_paths st f.kernel)

/-- The locals of the launch loop of `enqueue_work_tiles(DeviceKernel, ...)`. -/
structure TileLaunch (W : Type) where
  st : PathTraceWorkGPU W
  num_paths : Int
  d_work_tile : Nat
  d_path_index : Option Int

/-- One iteration of the launch loop of `enqueue_work_tiles(DeviceKernel, ...)`. -/
def launch_tile (E : Environment W) (max_num_paths : Int) (kernel : Nat)
    (s : TileLaunch W) (i : Nat) : TileLaunch W :=
  let work_tile := s.st.work_tiles_data i
  let tile_work_size := work_tile.w * work_tile.h * work_tile.num_samples
  let st := queue_enqueue E s.st kernel tile_work_size
    (KernelArgs.init_from_camera s.d_path_index s.d_work_tile
      (s.st.work_tiles_data s.d_work_tile) tile_work_size s.num_paths)
  let num_paths := s.num_paths + tile_work_size
  let st := st.emit (Event.dcheck_le num_paths max_num_paths)
  { st := st, num_paths := num_paths, d_work_tile := s.d_work_tile + 1,
    d_path_index := s.d_path_index.map (fun p => p + tile_work_size) }

/-- The start of `enqueue_work_tiles(DeviceKernel, ...)`, "Copy work tiles to device": the host
side of `work_tiles_` is re-allocated when it is too small, filled and copied to the device. -/
def copy_work_tiles (st : PathTraceWorkGPU W) (work_tiles : List KernelWorkTile)
    (num_work_tiles : Nat) : PathTraceWorkGPU W :=
  let st :=
    if st.work_tiles_size < num_work_tiles then
      { st.emit (Event.alloc Buffer.work_tiles_ num_work_tiles) with
          work_tiles_size := num_work_tiles, work_tiles_data := fun _ => default }
    else st
  let st := { st with
    work_tiles_data := (List.range num_work_tiles).foldl
      (fun data i => Function.update data i (work_tiles.getD i default)) st.work_tiles_data }
  st.emit (Event.copy_to_device Buffer.work_tiles_)

/-- Method `PathTraceWorkGPU::enqueue_work_tiles(DeviceKernel kernel, const KernelWorkTile work_tiles[],
const int num_work_tiles)` -/
def enqueue_work_tiles_kernel (K : DeviceKernelEnum) (E : Environment W) (max_num_paths : Int)
    (st : PathTraceWorkGPU W) (kernel : Nat) (work_tiles : List KernelWorkTile)
    (num_work_tiles : Nat) : PathTraceWorkGPU W :=
  let st := copy_work_tiles st work_tiles num_work_tiles
  let compact := decide (st.max_active_path_index_ ≠ 0)
  let st :=
    if compact then
      compute_queued_paths K E max_num_paths st K.INTEGRATOR_TERMINATED_PATHS_ARRAY 0
    else st
  let s := (List.range num_work_tiles).foldl (launch_tile E max_num_paths kernel)
    { st := st, num_paths := 0, d_work_tile := 0,
      d_path_index := if compact then some 0 else none }
  { s.st with
    max_active_path_index_ := min (s.st.max_active_path_index_ + s.num_paths) max_num_paths }

/-- The locals of the gathering loop of `enqueue_work_tiles(bool &finished)`. -/
structure GatherTiles (W : Type) where
  st : PathTraceWorkGPU W
  num_paths : Int
  work_tiles : List KernelWorkTile

/-- The loop `while (num_paths < max_num_paths)` of `enqueue_work_tiles(bool &finished)`;
`none` when the fuel runs out before the loop ends. -/
def gather_work_tiles (E : Environment W) (max_num_paths : Int) :
    Nat → GatherTiles W → Option (GatherTiles W)
  | 0, g => if g.num_paths < max_num_paths then none else some g
  | fuel + 1, g =>
    if g.num_paths < max_num_paths then
      match E.get_work g.st.world (max_num_paths - g.num_paths) with
      | (some work_tile, world) =>
        gather_work_tiles E max_num_paths fuel
          { st := { g.st with
              world := world,
              trace := g.st.trace ++
                [Event.get_work (max_num_paths - g.num_paths) (some work_tile)] },
            num_paths := g.num_paths + work_tile.w * work_tile.h * work_tile.num_samples,
            work_tiles := g.work_tiles ++ [work_tile] }
      | (none, world) =>
        some { g with
          st := { g.st with
            world := world,
            trace := g.st.trace ++ [Event.get_work (max_num_paths - g.num_paths) none] } }
    else some g

/-- What `enqueue_work_tiles(bool &finished)` leaves behind: the returned flag, the value of the
reference parameter `finished` and the state. -/
structure WorkTilesResult (W : Type) where
  enqueued : Bool
  finished : Bool
  st : PathTraceWorkGPU W

/-- The end of `enqueue_work_tiles(bool &finished)`, from "Initialize paths from work tiles". -/
def initialize_paths (K : DeviceKernelEnum) (E : Environment W) (max_num_paths : Int)
    (st : PathTraceWorkGPU W) (work_tiles : List KernelWorkTile) : WorkTilesResult W :=
  if work_tiles.length = 0 then { enqueued := false, finished := false, st := st }
  else
    { enqueued := true, finished := false,
      st := enqueue_work_tiles_kernel K E max_num_paths st K.INTEGRATOR_INIT_FROM_CAMERA
        work_tiles work_tiles.length }

/-- Method `PathTraceWorkGPU::enqueue_work_tiles(bool &finished)`. The argument `finished` is the value
the caller's variable holds on entry; `none` when the fuel of the gathering loop runs out. -/
def enqueue_work_tiles (K : DeviceKernelEnum) (E : Environment W) (max_num_paths : Int)
    (fuel : Nat) (st : PathTraceWorkGPU W) (finished : Bool) : Option (WorkTilesResult W) :=
  let num_paths := get_num_active_paths K st
  let st := if num_paths = 0 then { st with max_active_path_index_ := 0 } else st
  if E.is_cancel_requested st.world then
    some { enqueued := false, finished := if num_paths = 0 then true else finished, st := st }
  else if num_paths = 0 ∨ below_threshold regenerate_threshold num_paths max_num_paths then
    match gather_work_tiles E max_num_paths fuel
      { st := st, num_paths := num_paths, work_tiles := [] } with
    | none => none
    | some g =>
      if g.work_tiles.length = 0 ∧ g.num_paths = 0 then
        some { enqueued := false, finished := true, st := g.st }
      else some (initialize_paths K E max_num_paths g.st g.work_tiles)
  else some (initialize_paths K E max_num_paths st [])

/-- The call `queue_->synchronize()`. -/
def queue_synchronize (E : Environment W) (st : PathTraceWorkGPU W) :
    Bool × PathTraceWorkGPU W :=
  let r := E.synchronize st.world
  (r.1, { st with world := r.2, trace := st.trace ++ [Event.synchronize r.1] })

/-- The call `integrator_path_queue_.copy_from_device()`. -/
def copy_stats (E : Environment W) (st : PathTraceWorkGPU W) : PathTraceWorkGPU W :=
  { st with
    num_queued := E.copy_from_device st.world,
    trace := st.trace ++ [Event.copy_from_device Buffer.integrator_path_queue_] }

/-- The loop `while (true)` of `render_samples`; `none` when the fuel runs out. `uninit i` is the
indeterminate value that the local `bool finished;` holds before the call of
`enqueue_work_tiles(finished)` when `i` iterations remain. -/
def render_loop (K : DeviceKernelEnum) (E : Environment W) (max_num_paths : Int)
    (tile_fuel : Nat) (uninit : Nat → Bool) : Nat → PathTraceWorkGPU W →
    Option (PathTraceWorkGPU W)
  | 0, _ => none
  | fuel + 1, st =>
    match enqueue_work_tiles K E max_num_paths tile_fuel st (uninit fuel) with
    | none => none
    | some r =>
      let s := if r.enqueued then queue_synchronize E r.st else (true, r.st)
      if s.1 = false then some s.2
      else
        let st := if r.enqueued then copy_stats E s.2 else s.2
        if r.finished then some st
        else
          let p := enqueue_path_iteration K E max_num_paths st
          if p.2.aborted then some p.2
          else if p.1 then
            let s := queue_synchronize E p.2
            if s.1 = false then some s.2
            else render_loop K E max_num_paths tile_fuel uninit fuel (copy_stats E s.2)
          else render_loop K E max_num_paths tile_fuel uninit fuel p.2

/-- Method `PathTraceWorkGPU::render_samples` -/
def render_samples (K : DeviceKernelEnum) (E : Environment W) (max_num_paths : Int)
    (tile_fuel : Nat) (uninit : Nat → Bool) (fuel : Nat) (st : PathTraceWorkGPU W)
    (start_sample samples_num : Int) : Option (PathTraceWorkGPU W) :=
  render_loop K E max_num_paths tile_fuel uninit fuel
    { st with
      world := E.reset st.world start_sample samples_num,
      trace := st.trace ++ [Event.scheduler_reset start_sample samples_num] }

/-- The arguments of one call of `render_samples`, with the fuel of its two loops and the
indeterminate values of its local `finished`. -/
structure RenderCall where
  tile_fuel : Nat
  uninit : Nat → Bool
  fuel : Nat
  start_sample : Int
  samples_num : Int

/-- Calls of `render_samples` on one object, one after the other; `none` when one of them runs
out of fuel. -/
def render_samples_calls (K : DeviceKernelEnum) (E : Environment W) (max_num_paths : Int) :
    PathTraceWorkGPU W → List RenderCall → Option (PathTraceWorkGPU W)
  | st, [] => some st
  | st, c :: cs =>
    match render_samples K E max_num_paths c.tile_fuel c.uninit c.fuel st c.start_sample
        c.samples_num with
    | none => none
    | some st' => render_samples_calls K E max_num_paths st' cs


/-! ## Pool allocation, display update and adaptive sampling -/

/-- The object with the members that pool allocation, the display update and the adaptive
filter use, on top of those of the scheduling loop. -/
structure Full (W : Type) extends PathTraceWorkGPU W where
  /-- The arrays of `integrator_state_soa_`, by name. -/
  integrator_state_soa_ : List String
  /-- The size `integrator_path_queue_.size()`. -/
  integrator_path_queue_size : Int
  effective_buffer_params_ : BufferParams
  /-- The parameters `render_buffers_->params`. -/
  render_buffers_params : BufferParams
  /-- The member `gpu_display_rgba_half_.data_width`. -/
  gpu_display_rgba_half_data_width : Int
  /-- The member `gpu_display_rgba_half_.data_height`. -/
  gpu_display_rgba_half_data_height : Int
  /-- Whether `device_graphics_interop_` holds an object. -/
  device_graphics_interop_ : Bool
  interop_use_checked_ : Bool
  interop_use_ : Bool

namespace Full

/-- Record a call that has no modelled effect on the world. -/
def emit (o : Full W) (e : Event) : Full W :=
  { o with trace := o.trace ++ [e] }

/-- One expansion of `KERNEL_STRUCT_MEMBER` in `alloc_integrator_state`; `device_struct` is
kept as the number of pointers pushed. -/
def alloc_member (max_num_paths : Int) (s : Full W × Nat) (name : String) : Full W × Nat :=
  let o := s.1.emit (Event.alloc_to_device (Buffer.integrator_state name) max_num_paths)
  let o := o.emit (Event.zero_to_device (Buffer.integrator_state name))
  ({ o with integrator_state_soa_ := o.integrator_state_soa_ ++ [name] }, s.2 + 1)

/-- Method `PathTraceWorkGPU::alloc_integrator_state` -/
def alloc_integrator_state (template : List KernelStruct) (max_num_paths : Int) (o : Full W) :
    Full W :=
  if ¬ o.integrator_state_soa_.isEmpty then o
  else
    let s := (template_arrays template).foldl (alloc_member max_num_paths) (o, 0)
    s.1.emit (Event.const_copy_to "__integrator_state" s.2)

/-- Method `PathTraceWorkGPU::alloc_integrator_queue`. After `zero_to_device()` and
`copy_from_device()` the host copy of the counters is zero. -/
def alloc_integrator_queue (o : Full W) : Full W :=
  if o.integrator_path_queue_size ≠ 0 then o
  else
    let o := { o.emit (Event.alloc Buffer.integrator_path_queue_ 1) with
      integrator_path_queue_size := 1 }
    let o := { o.emit (Event.zero_to_device Buffer.integrator_path_queue_) with
      num_queued := fun _ => 0 }
    let o := o.emit (Event.copy_from_device Buffer.integrator_path_queue_)
    o.emit (Event.const_copy_to "__integrator_queue" 1)

/-- Method `PathTraceWorkGPU::init_execution` -/
def init_execution (template : List KernelStruct) (max_num_paths : Int) (o : Full W) : Full W :=
  let o := o.emit Event.queue_init_execution
  let o := alloc_integrator_state template max_num_paths o
  alloc_integrator_queue o

/-- Method `PathTraceWorkGPU::enqueue_film_convert` -/
def enqueue_film_convert (K : DeviceKernelEnum) (E : Environment W) (o : Full W)
    (d_rgba_half : DisplayDestination) (sample_scale : Float32) : Full W :=
  let full_x := o.effective_buffer_params_.full_x
  let full_y := o.effective_buffer_params_.full_y
  let width := o.effective_buffer_params_.width
  let height := o.effective_buffer_params_.height
  let offset := o.effective_buffer_params_.offset
  let stride := o.effective_buffer_params_.stride
  let work_size := width * height
  let args :=
    KernelArgs.film_convert d_rgba_half sample_scale full_x full_y width height offset stride
  let base := queue_enqueue E o.toPathTraceWorkGPU K.CONVERT_TO_HALF_FLOAT work_size args
  { o with toPathTraceWorkGPU := base }

/-- The call `queue_->synchronize()` where its result is not looked at. -/
def synchronize (E : Environment W) (o : Full W) : Full W :=
  { o with toPathTraceWorkGPU := (queue_synchronize E o.toPathTraceWorkGPU).2 }

/-- Method `PathTraceWorkGPU::copy_to_gpu_display_naive`. The call
`gpu_display_rgba_half_.alloc(width, height)` sets `data_width` and `data_height` to its
arguments. -/
def copy_to_gpu_display_naive (K : DeviceKernelEnum) (E : Environment W) (o : Full W)
    (sample_scale : Float32) : Full W :=
  let width := o.effective_buffer_params_.width
  let height := o.effective_buffer_params_.height
  let final_width := o.render_buffers_params.width
  let final_height := o.render_buffers_params.height
  let o :=
    if o.gpu_display_rgba_half_data_width ≠ final_width ∨
        o.gpu_display_rgba_half_data_height ≠ final_height then
      ({ o.emit (Event.alloc_2d Buffer.gpu_display_rgba_half_ width height) with
          gpu_display_rgba_half_data_width := width,
          gpu_display_rgba_half_data_height := height }).emit
        (Event.zero_to_device Buffer.gpu_display_rgba_half_)
    else o
  let o := enqueue_film_convert K E o DisplayDestination.display_buffer sample_scale
  let o := o.synchronize E
  let o := o.emit (Event.copy_from_device Buffer.gpu_display_rgba_half_)
  o.emit Event.copy_pixels_to_texture

/-- Method `PathTraceWorkGPU::copy_to_gpu_display_interop`: the returned flag and the object
after it. -/
def copy_to_gpu_display_interop (K : DeviceKernelEnum) (E : Environment W)
    (D : DisplayEnvironment W) (o : Full W) (sample_scale : Float32) : Bool × Full W :=
  let o :=
    if ¬ o.device_graphics_interop_ then
      { o.emit Event.graphics_interop_create with device_graphics_interop_ := true }
    else o
  let o := o.emit Event.graphics_interop_get
  let o := o.emit Event.graphics_interop_set_destination
  let m := D.graphics_interop_map o.world
  let o := { o with world := m.2, trace := o.trace ++ [Event.graphics_interop_map m.1] }
  if ¬ m.1 then (false, o)
  else
    let o := enqueue_film_convert K E o DisplayDestination.graphics_interop sample_scale
    let o := o.emit Event.graphics_interop_unmap
    let o := o.synchronize E
    (true, o)

/-- Method `PathTraceWorkGPU::copy_to_gpu_display` -/
def copy_to_gpu_display (K : DeviceKernelEnum) (E : Environment W) (D : DisplayEnvironment W)
    (o : Full W) (sample_scale : Float32) : Full W :=
  let o :=
    if ¬ o.interop_use_checked_ then
      let interop_use := D.should_use_graphics_interop o.world
      { o.emit (Event.should_use_graphics_interop interop_use) with
        interop_use_ := interop_use, interop_use_checked_ := true }
    else o
  if o.interop_use_ then
    let r := copy_to_gpu_display_interop K E D o sample_scale
    if r.1 then r.2
    else copy_to_gpu_display_naive K E { r.2 with interop_use_ := false } sample_scale
  else copy_to_gpu_display_naive K E o sample_scale

/-- A sequence of calls of `copy_to_gpu_display` on one instance, one per `sample_scale`. -/
def copy_to_gpu_display_calls (K : DeviceKernelEnum) (E : Environment W)
    (D : DisplayEnvironment W) (o : Full W) (calls : List Float32) : Full W :=
  calls.foldl (copy_to_gpu_display K E D) o

/-- Method `PathTraceWorkGPU::enqueue_adaptive_sampling_convergence_check` -/
def enqueue_adaptive_sampling_convergence_check (K : DeviceKernelEnum) (E : Environment W)
    (o : Full W) (sample : Int) : Full W :=
  let full_x := o.effective_buffer_params_.full_x
  let full_y := o.effective_buffer_params_.full_y
  let width := o.effective_buffer_params_.width
  let height := o.effective_buffer_params_.height
  let offset := o.effective_buffer_params_.offset
  let stride := o.effective_buffer_params_.stride
  let work_size := width * height
  let args := KernelArgs.convergence_check full_x full_y width height sample offset stride
  let base := queue_enqueue E o.toPathTraceWorkGPU K.ADAPTIVE_SAMPLING_CONVERGENCE_CHECK
    work_size args
  { o with toPathTraceWorkGPU := base }

/-- Method `PathTraceWorkGPU::enqueue_adaptive_sampling_filter_x` -/
def enqueue_adaptive_sampling_filter_x (K : DeviceKernelEnum) (E : Environment W)
    (o : Full W) : Full W :=
  let full_x := o.effective_buffer_params_.full_x
  let full_y := o.effective_buffer_params_.full_y
  let width := o.effective_buffer_params_.width
  let height := o.effective_buffer_params_.height
  let offset := o.effective_buffer_params_.offset
  let stride := o.effective_buffer_params_.stride
  let work_size := height
  let args := KernelArgs.convergence_filter full_x full_y width height offset stride
  let base := queue_enqueue E o.toPathTraceWorkGPU K.ADAPTIVE_SAMPLING_CONVERGENCE_FILTER_X
    work_size args
  { o with toPathTraceWorkGPU := base }

/-- Method `PathTraceWorkGPU::enqueue_adaptive_sampling_filter_y` -/
def enqueue_adaptive_sampling_filter_y (K : DeviceKernelEnum) (E : Environment W)
    (o : Full W) : Full W :=
  let full_x := o.effective_buffer_params_.full_x
  let full_y := o.effective_buffer_params_.full_y
  let width := o.effective_buffer_params_.width
  let height := o.effective_buffer_params_.height
  let offset := o.effective_buffer_params_.offset
  let stride := o.effective_buffer_params_.stride
  let work_size := width
  let args := KernelArgs.convergence_filter full_x full_y width height offset stride
  let base := queue_enqueue E o.toPathTraceWorkGPU K.ADAPTIVE_SAMPLING_CONVERGENCE_FILTER_Y
    work_size args
  { o with toPathTraceWorkGPU := base }

/-- Method `PathTraceWorkGPU::adaptive_sampling_converge_and_filter`: the returned flag and the
object after it. -/
def adaptive_sampling_converge_and_filter (K : DeviceKernelEnum) (E : Environment W)
    (o : Full W) (sample : Int) : Bool × Full W :=
  let o := enqueue_adaptive_sampling_convergence_check K E o sample
  let o := enqueue_adaptive_sampling_filter_x K E o
  let o := enqueue_adaptive_sampling_filter_y K E o
  let o := o.synchronize E
  (true, o)

end Full

/-! ## Observations on traces and counters -/

/-- The path kernels (intersection kernels, shading kernels, megakernel) launched in a trace, in
launch order; compaction and camera-initialization launches are left out. -/
def dispatched : List Event → List Nat
  | [] => []
  | Event.enqueue kernel _ (KernelArgs.intersect _ _) :: es => kernel :: dispatched es
  | Event.enqueue kernel _ (KernelArgs.shade _ _) :: es => kernel :: dispatched es
  | _ :: es => dispatched es

/-- The tiles that `get_work` handed out in a trace, in the order returned. -/
def tiles_returned : List Event → List KernelWorkTile
  | [] => []
  | Event.get_work _ (some work_tile) :: es => work_tile :: tiles_returned es
  | _ :: es => tiles_returned es

/-- The camera-initialization launches of a trace, in launch order: the kernel, the tile that
the launch reads and the batch size. -/
def camera_launches : List Event → List (Nat × KernelWorkTile × Int)
  | [] => []
  | Event.enqueue kernel work_size (KernelArgs.init_from_camera _ _ work_tile _ _) :: es =>
    (kernel, work_tile, work_size) :: camera_launches es
  | _ :: es => camera_launches es

/-- The assertions `DCHECK_LE(a, b)` evaluated in a trace, as pairs `(a, b)`. -/
def dchecks : List Event → List (Int × Int)
  | [] => []
  | Event.dcheck_le a b :: es => (a, b) :: dchecks es
  | _ :: es => dchecks es

/-- The results of the `synchronize` calls of a trace, in call order. -/
def sync_results : List Event → List Bool
  | [] => []
  | Event.synchronize ok :: es => ok :: sync_results es
  | _ :: es => sync_results es

/-- The path-kernel launches of a trace, in launch order: the kernel, the batch size and the
index list `d_path_index` handed to it. -/
def phase_launches : List Event → List (Nat × Int × Option Int)
  | [] => []
  | Event.enqueue kernel work_size (KernelArgs.intersect d_path_index _) :: es =>
    (kernel, work_size, d_path_index) :: phase_launches es
  | Event.enqueue kernel work_size (KernelArgs.shade d_path_index _) :: es =>
    (kernel, work_size, d_path_index) :: phase_launches es
  | _ :: es => phase_launches es

/-- The compaction launches of a trace, in launch order: the kernel, the number of slots
scanned and the phase `queued_kernel` whose slots are collected. -/
def compaction_launches : List Event → List (Nat × Int × Int)
  | [] => []
  | Event.enqueue kernel work_size (KernelArgs.queued_paths _ queued_kernel) :: es =>
    (kernel, work_size, queued_kernel) :: compaction_launches es
  | _ :: es => compaction_launches es

/-- The kernels for which `LOG(FATAL)` was reached in a trace. -/
def fatal_errors : List Event → List Nat
  | [] => []
  | Event.log_fatal kernel :: es => kernel :: fatal_errors es
  | _ :: es => fatal_errors es

/-- The calls of `get_work` in a trace, successful or not: the `max_work_size` of each. -/
def get_work_requests : List Event → List Int
  | [] => []
  | Event.get_work max_work_size _ :: es => max_work_size :: get_work_requests es
  | _ :: es => get_work_requests es

/-- All kernel launches of a trace, in launch order. -/
def kernel_launches : List Event → List (Nat × Int × KernelArgs)
  | [] => []
  | Event.enqueue kernel work_size args :: es => (kernel, work_size, args) :: kernel_launches es
  | _ :: es => kernel_launches es

/-- The results of the `should_use_graphics_interop` probes of a trace, in call order. -/
def interop_probes : List Event → List Bool
  | [] => []
  | Event.should_use_graphics_interop result :: es => result :: interop_probes es
  | _ :: es => interop_probes es

/-- The results of the interop mappings attempted in a trace, in call order. -/
def interop_maps : List Event → List Bool
  | [] => []
  | Event.graphics_interop_map mapped :: es => mapped :: interop_maps es
  | _ :: es => interop_maps es

/-- The number of uploads `copy_pixels_to_texture` in a trace: one for each display update that
went through the naive path. -/
def texture_uploads : List Event → Nat
  | [] => 0
  | Event.copy_pixels_to_texture :: es => texture_uploads es + 1
  | _ :: es => texture_uploads es

/-- The device arrays allocated with `alloc_to_device` in a trace. -/
def device_allocations : List Event → List (Buffer × Int)
  | [] => []
  | Event.alloc_to_device buffer size :: es => (buffer, size) :: device_allocations es
  | _ :: es => device_allocations es

/-- The calls `gpu_display_rgba_half_.alloc(width, height)` of a trace, in call order: their
arguments. -/
def display_allocations : List Event → List (Int × Int)
  | [] => []
  | Event.alloc_2d _ width height :: es => (width, height) :: display_allocations es
  | _ :: es => display_allocations es

/-- The buffers zeroed with `zero_to_device` in a trace, in call order. -/
def zeroed_buffers : List Event → List Buffer
  | [] => []
  | Event.zero_to_device buffer :: es => buffer :: zeroed_buffers es
  | _ :: es => zeroed_buffers es

/-- Nothing follows a failed `synchronize` in a run of events. -/
def StopsAtFailure (new : List Event) : Prop :=
  ∀ pre post, new = pre ++ Event.synchronize false :: post → post = []

/-- The number of path slots that a list of tiles asks for. -/
def volume_sum (tiles : List KernelWorkTile) : Int := (tiles.map KernelWorkTile.volume).sum

/-- The invariant of the high-water mark: `0 <= max_active_path_index_ <= get_max_num_paths()`. -/
def MaxActiveInBounds (max_num_paths : Int) (st : PathTraceWorkGPU W) : Prop :=
  0 ≤ st.max_active_path_index_ ∧ st.max_active_path_index_ ≤ max_num_paths

/-- The phase that the maximum search designates: a counter of `num_queued` that is positive,
not exceeded by any counter, and strictly larger than every counter with a lower id. -/
def IsSelected (K : DeviceKernelEnum) (num_queued : Nat → Int) (k : Nat) : Prop :=
  k < K.INTEGRATOR_NUM ∧ 0 < num_queued k ∧ (∀ i, i < K.INTEGRATOR_NUM → num_queued i ≤ num_queued k) ∧
    ∀ i, i < k → num_queued i < num_queued k

instance (K : DeviceKernelEnum) (num_queued : Nat → Int) (k : Nat) :
    Decidable (IsSelected K num_queued k) := by
  unfold IsSelected; infer_instance

/-- The megakernel rule applies to the selected phase `k`: the active count is below the
megakernel threshold, `k` is closest intersection and every active path is queued there. -/
def MegakernelRule (K : DeviceKernelEnum) (max_num_paths : Int) (st : PathTraceWorkGPU W)
    (k : Nat) : Prop :=
  below_threshold megakernel_threshold (get_num_active_paths K st) max_num_paths = true ∧
    k = K.INTEGRATOR_INTERSECT_CLOSEST ∧ get_num_active_paths K st = st.num_queued k

instance (K : DeviceKernelEnum) (max_num_paths : Int) (st : PathTraceWorkGPU W) (k : Nat) :
    Decidable (MegakernelRule K max_num_paths st k) := by
  unfold MegakernelRule; infer_instance

/-- The shadow-priority rule applies to the selected phase `k`: the active count is below the
megakernel threshold or `k` is surface or volume shading, and shadow work is pending. -/
def ShadowRule (K : DeviceKernelEnum) (max_num_paths : Int) (st : PathTraceWorkGPU W)
    (k : Nat) : Prop :=
  (below_threshold megakernel_threshold (get_num_active_paths K st) max_num_paths = true ∨
      k = K.INTEGRATOR_SHADE_SURFACE ∨ k = K.INTEGRATOR_SHADE_VOLUME) ∧
    (st.num_queued K.INTEGRATOR_INTERSECT_SHADOW ≠ 0 ∨ st.num_queued K.INTEGRATOR_SHADE_SHADOW ≠ 0)

instance (K : DeviceKernelEnum) (max_num_paths : Int) (st : PathTraceWorkGPU W) (k : Nat) :
    Decidable (ShadowRule K max_num_paths st k) := by
  unfold ShadowRule; infer_instance

end PathTraceWorkGPU

/-! ## Light tree (`kernel/light/light_tree.h`) -/

/-- Modelled from the spec: the type `float3` is declared in a header that is missing; a vector
of three components `x`, `y`, `z`. The component type `F` stands for `float`; the function
below only moves values of it. -/
structure float3 (F : Type) where
  x : F
  y : F
  z : F
  deriving DecidableEq, Repr

/-- The constructor `make_float3(x, y, z)`. -/
def make_float3 {F : Type} (x y z : F) : float3 F := { x := x, y := y, z := z }

/-- Modelled from the spec: `struct KernelLightTreeNode` is declared in `kernel/kernel_types.h`,
which is missing; these are the members that `light_tree_cluster_importance` reads, the three
arrays `float [3]` as functions of the index. -/
structure KernelLightTreeNode (F : Type) where
  bounding_box_min : Nat → F
  bounding_box_max : Nat → F
  bounding_cone_axis : Nat → F
  theta_o : F
  theta_e : F
  energy : F

/-- Function `light_tree_cluster_importance`. Its callee `light_tree_node_importance` is the
argument `node_importance`, so that what it is called with can be read off. -/
def light_tree_cluster_importance {F KG R : Type}
    (node_importance : float3 F → float3 F → float3 F → float3 F → float3 F → F → F → F → R)
    (_kg : KG) (P N : float3 F) (knode : KernelLightTreeNode F) : R :=
  let bbox_min := make_float3
    (knode.bounding_box_min 0) (knode.bounding_box_min 1) (knode.bounding_box_min 2)
  let bbox_max := make_float3
    (knode.bounding_box_max 0) (knode.bounding_box_max 1) (knode.bounding_box_max 2)
  let bcone_axis := make_float3
    (knode.bounding_cone_axis 0) (knode.bounding_cone_axis 1) (knode.bounding_cone_axis 1)
  node_importance P N bbox_min bbox_max bcone_axis knode.theta_o knode.theta_e knode.energy

/-- The arguments of one call of `light_tree_node_importance`, after `P` and `N`. -/
structure NodeImportanceArgs (F : Type) where
  bbox_min : float3 F
  bbox_max : float3 F
  bcone_axis : float3 F
  theta_o : F
  theta_e : F
  energy : F
  deriving DecidableEq, Repr

/-- A callee that returns what it was called with. -/
def record_node_importance {F : Type} (_P _N : float3 F) (bbox_min bbox_max bcone_axis : float3 F)
    (theta_o theta_e energy : F) : NodeImportanceArgs F :=
  { bbox_min := bbox_min, bbox_max := bbox_max, bcone_axis := bcone_axis,
    theta_o := theta_o, theta_e := theta_e, energy := energy }

/-! ## The pool of path states -/

namespace PathTraceWorkGPU

variable {W : Type}

/-- The contract of a device `E` with a pool of `max_num_paths` path states; the kernels that
run on the device are not part of the sources at hand. `occupied w i` says that slot `i` holds
a path in the world `w` and `free_list w` is the content of `queued_paths_` there. The counters
count exactly the non-free slots; the terminated-paths compaction lists the free slots in
ascending index order; camera initialization starts the k-th new path in the k-th listed free
slot, or in slot k when the index list is null, and nowhere else; the scheduler and
`synchronize` do not touch the pool, and compactions and path kernels start no path. -/
structure PoolDevice (K : DeviceKernelEnum) (E : Environment W) (max_num_paths : Int)
    (occupied : W → Nat → Bool) (free_list : W → List Nat) : Prop where
  pool_size : ∀ w i, occupied w i = true → (i : Int) < max_num_paths
  counters_exact : ∀ w,
    (∑ k in Finset.range K.INTEGRATOR_NUM, E.copy_from_device w k) =
      (((List.range max_num_paths.toNat).filter (occupied w)).length : Int)
  scheduler_reset : ∀ w start_sample samples_num i,
    occupied (E.reset w start_sample samples_num) i = occupied w i
  get_work : ∀ w max_work_size i, occupied (E.get_work w max_work_size).2 i = occupied w i
  synchronize : ∀ w i, occupied (E.synchronize w).2 i = occupied w i
  compaction : ∀ w kernel work_size size queued_kernel i,
    occupied (E.enqueue w kernel work_size (KernelArgs.queued_paths size queued_kernel)) i =
      true → occupied w i = true
  intersect : ∀ w kernel work_size d_path_index size i,
    occupied (E.enqueue w kernel work_size (KernelArgs.intersect d_path_index size)) i = true →
      occupied w i = true
  shade : ∀ w kernel work_size d_path_index size i,
    occupied (E.enqueue w kernel work_size (KernelArgs.shade d_path_index size)) i = true →
      occupied w i = true
  terminated_paths : ∀ w work_size,
    free_list (E.enqueue w K.INTEGRATOR_TERMINATED_PATHS_ARRAY work_size
        (KernelArgs.queued_paths work_size 0)) =
      (List.range work_size.toNat).filter (fun i => !occupied w i)
  init_keeps_list : ∀ w kernel work_size d_path_index d_work_tile work_tile tile_work_size
      num_paths,
    free_list (E.enqueue w kernel work_size (KernelArgs.init_from_camera d_path_index
      d_work_tile work_tile tile_work_size num_paths)) = free_list w
  init_null : ∀ w kernel work_size d_work_tile work_tile tile_work_size num_paths i,
    occupied (E.enqueue w kernel work_size (KernelArgs.init_from_camera none d_work_tile
        work_tile tile_work_size num_paths)) i = true →
      occupied w i = true ∨ (num_paths ≤ (i : Int) ∧ (i : Int) < num_paths + tile_work_size)
  init_list : ∀ w kernel work_size p d_work_tile work_tile tile_work_size num_paths i,
    occupied (E.enqueue w kernel work_size (KernelArgs.init_from_camera (some p) d_work_tile
        work_tile tile_work_size num_paths)) i = true →
      occupied w i = true ∨
        ∃ k : Nat, p ≤ (k : Int) ∧ (k : Int) < p + tile_work_size ∧ (free_list w)[k]? = some i

/-- The high-water mark is sound: it is not negative and no slot at or above it holds a path. -/
def PoolSound (occupied : W → Nat → Bool) (st : PathTraceWorkGPU W) : Prop :=
  0 ≤ st.max_active_path_index_ ∧
    ∀ i : Nat, st.max_active_path_index_ ≤ (i : Int) → occupied st.world i = false

/-- The host counters are not behind the device: when they add up to zero the pool is empty. -/
def PoolIdle (K : DeviceKernelEnum) (occupied : W → Nat → Bool) (st : PathTraceWorkGPU W) :
    Prop :=
  get_num_active_paths K st = 0 → ∀ i, occupied st.world i = false

end PathTraceWorkGPU

/-! ## Concrete inputs -/

/-- An enumeration with the kernels numbered in the order listed in `DeviceKernelEnum`, and one
counter for each kernel up to the megakernel; for evaluating the model on concrete inputs. -/
def sampleKernels : DeviceKernelEnum :=
  { INTEGRATOR_INIT_FROM_CAMERA := 0, INTEGRATOR_INTERSECT_CLOSEST := 1,
    INTEGRATOR_INTERSECT_SHADOW := 2, INTEGRATOR_INTERSECT_SUBSURFACE := 3,
    INTEGRATOR_SHADE_BACKGROUND := 4, INTEGRATOR_SHADE_LIGHT := 5, INTEGRATOR_SHADE_SHADOW := 6,
    INTEGRATOR_SHADE_SURFACE := 7, INTEGRATOR_SHADE_VOLUME := 8, INTEGRATOR_MEGAKERNEL := 9,
    INTEGRATOR_QUEUED_PATHS_ARRAY := 10, INTEGRATOR_QUEUED_SHADOW_PATHS_ARRAY := 11,
    INTEGRATOR_TERMINATED_PATHS_ARRAY := 12, CONVERT_TO_HALF_FLOAT := 15,
    ADAPTIVE_SAMPLING_CONVERGENCE_CHECK := 16, ADAPTIVE_SAMPLING_CONVERGENCE_FILTER_X := 17,
    ADAPTIVE_SAMPLING_CONVERGENCE_FILTER_Y := 18, INTEGRATOR_NUM := 10 }

/-- A small world for concrete runs: the tiles the scheduler has not handed out yet, the
counters held by the device, whether the device is healthy, and the cancel flag. -/
structure SampleWorld where
  tiles : List KernelWorkTile
  counters : Nat → Int
  healthy : Bool
  cancel : Bool

/-- A small environment for concrete runs. The scheduler hands out its next tile when the tile
is not empty and fits; camera initialization queues its paths at closest intersection; a path kernel (or the
megakernel) terminates the paths queued for it. -/
def sampleEnvironment (K : DeviceKernelEnum) : Environment SampleWorld where
  reset w _ _ := w
  get_work w max_work_size :=
    match w.tiles with
    | [] => (none, w)
    | t :: ts =>
      if 1 ≤ t.volume ∧ t.volume ≤ max_work_size then (some t, { w with tiles := ts })
      else (none, w)
  enqueue w kernel work_size args :=
    match args with
    | KernelArgs.init_from_camera _ _ _ _ _ =>
      let queued := w.counters K.INTEGRATOR_INTERSECT_CLOSEST + work_size
      { w with counters := Function.update w.counters K.INTEGRATOR_INTERSECT_CLOSEST queued }
    | KernelArgs.queued_paths _ _ => w
    | _ =>
      let queue_kernel :=
        if kernel = K.INTEGRATOR_MEGAKERNEL then K.INTEGRATOR_INTERSECT_CLOSEST else kernel
      { w with counters := Function.update w.counters queue_kernel 0 }
  synchronize w := (w.healthy, w)
  copy_from_device w := w.counters
  is_cancel_requested w := w.cancel

/-- Two tiles for concrete runs: 2 x 3 pixels with one sample and 2 x 2 pixels with two. -/
def sampleTiles : List KernelWorkTile :=
  [{ x := 0, y := 0, w := 2, h := 3, start_sample := 0, num_samples := 1 },
   { x := 2, y := 0, w := 2, h := 2, start_sample := 0, num_samples := 2 }]

/-- A device for concrete runs of the display update: interop is supported or not, and every
mapping succeeds or fails, as given. -/
def sampleDisplay (supported mapped : Bool) : DisplayEnvironment SampleWorld where
  should_use_graphics_interop _ := supported
  graphics_interop_map w := (mapped, w)

/-- A template with one plain block of two members and one array block of one member. -/
def sampleTemplate : List KernelStruct :=
  [{ members := ["path_flag", "ray_P"], array_size := 1 },
   { members := ["volume_stack_object"], array_size := 2 }]

/-- An object over the sample world as it is before `init_execution`: nothing allocated,
interop not probed, a frame of 4 x 3 pixels. -/
def sampleObject (w : SampleWorld) : PathTraceWorkGPU.Full SampleWorld :=
  { toPathTraceWorkGPU := PathTraceWorkGPU.init w,
    integrator_state_soa_ := [],
    integrator_path_queue_size := 0,
    effective_buffer_params_ :=
      { full_x := 0, full_y := 0, width := 4, height := 3, offset := 0, stride := 4 },
    render_buffers_params :=
      { full_x := 0, full_y := 0, width := 4, height := 3, offset := 0, stride := 4 },
    gpu_display_rgba_half_data_width := 0,
    gpu_display_rgba_half_data_height := 0,
    device_graphics_interop_ := false,
    interop_use_checked_ := false,
    interop_use_ := false }

/-- An object over the sample world with the resolution divider at 2: the effective frame is
2 x 2 pixels, the final render buffer 4 x 4, and the display buffer is not allocated yet. -/
def dividerObject : PathTraceWorkGPU.Full SampleWorld :=
  { sampleObject ⟨[], fun _ => 0, true, false⟩ with
    effective_buffer_params_ :=
      { full_x := 0, full_y := 0, width := 2, height := 2, offset := 0, stride := 2 },
    render_buffers_params :=
      { full_x := 0, full_y := 0, width := 4, height := 4, offset := 0, stride := 4 } }

/-- A light-tree node with the unit box as bounds and a cone along the z axis; the values are
integers standing for floats. -/
def sampleNode : KernelLightTreeNode Int :=
  { bounding_box_min := fun _ => 0,
    bounding_box_max := fun _ => 1,
    bounding_cone_axis := fun i => [0, 0, 1].getD i 0,
    theta_o := 2, theta_e := 3, energy := 5 }

/-- A device memory for concrete runs of the compaction: the counters and the count that the
last compaction wrote to `num_queued_paths_`. -/
structure CompactionWorld where
  counters : Nat → Int
  num_queued_paths : Int

/-- A device whose compaction kernel writes a count one above the phase counter. -/
def miscountingEnvironment : Environment CompactionWorld where
  reset w _ _ := w
  get_work w _ := (none, w)
  enqueue w _ _ args :=
    match args with
    | KernelArgs.queued_paths _ queued_kernel =>
      { w with num_queued_paths := w.counters queued_kernel.toNat + 1 }
    | _ => w
  synchronize w := (true, w)
  copy_from_device w := w.counters
  is_cancel_requested _ := false

/-- A device memory with a pool of slots for concrete runs: which slots hold a path, the content
of `queued_paths_`, and the tiles that the scheduler has not handed out yet. -/
structure PoolWorld where
  slots : List Bool
  queued_paths : List Nat
  tiles : List KernelWorkTile

/-- Slot `i` of a pool of `capacity` slots holds a path. -/
def poolOccupied (capacity : Nat) (w : PoolWorld) (i : Nat) : Bool :=
  decide (i < capacity) && w.slots.getD i false

/-- Start a path in each of the slots listed. -/
def poolPlace (indices : List Nat) (slots : List Bool) : List Bool :=
  indices.foldl (fun s i => s.set i true) slots

/-- The slots in which camera initialization starts its `tile_work_size` paths: those listed
from position `p` on when the index list is given, and those counted from `num_paths` on when
it is null. -/
def poolIndices (d_path_index : Option Int) (queued_paths : List Nat)
    (tile_work_size num_paths : Int) : List Nat :=
  match d_path_index with
  | none =>
    (List.range tile_work_size.toNat).filterMap
      (fun g : Nat => if 0 ≤ num_paths + (g : Int) then some (num_paths + (g : Int)).toNat
        else none)
  | some p =>
    (List.range tile_work_size.toNat).filterMap
      (fun g : Nat => if 0 ≤ p + (g : Int) then queued_paths[(p + (g : Int)).toNat]? else none)

/-- A device with a pool of `capacity` slots for concrete runs. Every path is queued at closest
intersection and ends in the first path kernel that runs; camera initialization starts the new
paths in the slots listed (or counted from `num_paths` when the list is null); the
terminated-paths compaction lists the free slots in ascending order. -/
def poolEnvironment (K : DeviceKernelEnum) (capacity : Nat) : Environment PoolWorld where
  reset w _ _ := w
  get_work w max_work_size :=
    match w.tiles with
    | [] => (none, w)
    | t :: ts =>
      if 1 ≤ t.volume ∧ t.volume ≤ max_work_size then (some t, { w with tiles := ts })
      else (none, w)
  enqueue w kernel _ args :=
    match args with
    | KernelArgs.init_from_camera d_path_index _ _ tile_work_size num_paths =>
      let indices := poolIndices d_path_index w.queued_paths tile_work_size num_paths
      { w with slots := poolPlace indices w.slots }
    | KernelArgs.queued_paths size _ =>
      let listed := (List.range size.toNat).filter
        (fun i => if kernel = K.INTEGRATOR_TERMINATED_PATHS_ARRAY then
          !poolOccupied capacity w i else poolOccupied capacity w i)
      { w with queued_paths := listed }
    | KernelArgs.intersect _ _ => { w with slots := w.slots.map (fun _ => false) }
    | KernelArgs.shade _ _ => { w with slots := w.slots.map (fun _ => false) }
    | _ => w
  synchronize w := (true, w)
  copy_from_device w k :=
    if k = K.INTEGRATOR_INTERSECT_CLOSEST then
      (((List.range capacity).filter (poolOccupied capacity w)).length : Int)
    else 0
  is_cancel_requested _ := false

/-- A pool of 10 slots of which slots 0 and 2 hold a path, and a scheduler with the two sample
tiles to hand out. -/
def samplePool : PoolWorld :=
  { slots := [true, false, true, false, false, false, false, false, false, false],
    queued_paths := [],
    tiles := sampleTiles }

/-- A scheduler state over the sample pool: 2 paths queued at closest intersection, 3 slots in
use. -/
def samplePoolState : PathTraceWorkGPU PoolWorld :=
  { PathTraceWorkGPU.init samplePool with
    num_queued := fun i => [0, 2].getD i 0, max_active_path_index_ := 3 }

/-- The device `poolEnvironment` with a fault: every `synchronize` reports a device error. -/
def faultyPoolEnvironment (K : DeviceKernelEnum) (capacity : Nat) : Environment PoolWorld :=
  { poolEnvironment K capacity with synchronize := fun w => (false, w) }

/-- A pool of 10 slots that holds no path, and a scheduler with the given tiles to hand out. -/
def emptyPool (tiles : List KernelWorkTile) : PoolWorld :=
  { slots := [false, false, false, false, false, false, false, false, false, false],
    queued_paths := [],
    tiles := tiles }

/-- A call of `render_samples` for one sample with fuel for 10 iterations of each loop. -/
def sampleCall : PathTraceWorkGPU.RenderCall :=
  { tile_fuel := 10, uninit := fun _ => false, fuel := 10, start_sample := 0, samples_num := 1 }

/-- A scheduler state over the compaction world: 5 paths queued at closest intersection on the
host and on the device, 12 slots in use. -/
def miscountState : PathTraceWorkGPU CompactionWorld :=
  { PathTraceWorkGPU.init { counters := fun i => [0, 5].getD i 0, num_queued_paths := 0 } with
    num_queued := fun i => [0, 5].getD i 0, max_active_path_index_ := 12 }

/-- A scheduler state over the sample world with the given host counters. -/
def sampleState (w : SampleWorld) (num_queued : Nat → Int) (max_active_path_index : Int) :
    PathTraceWorkGPU SampleWorld :=
  { PathTraceWorkGPU.init w with
    num_queued := num_queued, max_active_path_index_ := max_active_path_index }

/-- Counters given by a list, zero beyond its end. -/
def countersOf (l : List Int) : Nat → Int := fun i => l.getD i 0

/-! ## Theorems -/

/-! ### Single-precision thresholds -/

namespace Float32

theorem excess_small (fuel a : Nat) (h : a < 2 ^ 24) : excess fuel a = 0 := by
  cases fuel with
  | zero => rfl
  | succ f => rw [excess, if_pos h]

theorem excess_spec (fuel : Nat) : ∀ a : Nat, a < 2 ^ 24 * 2 ^ fuel → 2 ^ 24 ≤ a →
    2 ^ 23 ≤ a / 2 ^ excess fuel a ∧ a / 2 ^ excess fuel a < 2 ^ 24 ∧ 1 ≤ excess fuel a := by
  induction fuel with
  | zero => intro a h1 h2; omega
  | succ f ih =>
    intro a h1 h2
    have hlt : ¬ a < 2 ^ 24 := by omega
    rw [excess, if_neg hlt]
    have hdiv : a / 2 ^ (excess f (a / 2) + 1) = a / 2 / 2 ^ excess f (a / 2) := by
      rw [pow_succ, mul_comm, Nat.div_div_eq_div_mul]
    rw [hdiv]
    by_cases hs : a / 2 < 2 ^ 24
    · rw [excess_small f _ hs]
      simp only [pow_zero, Nat.div_one]
      omega
    · have h3 : a / 2 < 2 ^ 24 * 2 ^ f := by
        rw [pow_succ] at h1; omega
      have := ih (a / 2) h3 (by omega)
      omega

theorem lt_two_pow_self' (a : Nat) : a < 2 ^ 24 * 2 ^ a := by
  have := Nat.lt_two_pow a
  have h : 1 * 2 ^ a ≤ 2 ^ 24 * 2 ^ a := Nat.mul_le_mul_right _ (by norm_num)
  omega


theorem two_pow_excess_le (a : Nat) (h : 2 ^ 23 ≤ a) :
    2 ^ excess a a * 2 ^ 23 ≤ a ∧ a / 2 ^ excess a a < 2 ^ 24 := by
  by_cases hs : a < 2 ^ 24
  · rw [excess_small a a hs]; simp only [pow_zero, Nat.div_one]; omega
  · have := excess_spec a a (lt_two_pow_self' a) (by omega)
    refine ⟨?_, this.2.1⟩
    calc 2 ^ excess a a * 2 ^ 23 ≤ 2 ^ excess a a * (a / 2 ^ excess a a) :=
          Nat.mul_le_mul_left _ this.1
      _ ≤ a := Nat.mul_div_le a _


theorem nearest_zero (a : Nat) : nearest a 0 = a := by
  simp [nearest, Nat.mod_one]

theorem nearest_bounds (a k : Nat) :
    a / 2 ^ k ≤ nearest a k ∧ nearest a k ≤ a / 2 ^ k + 1 ∧
    (2 * (a % 2 ^ k) < 2 ^ k → nearest a k = a / 2 ^ k) ∧
    2 * a ≤ 2 * (nearest a k * 2 ^ k) + 2 ^ k := by
  have hdm := Nat.div_add_mod a (2 ^ k)
  have hr : a % 2 ^ k < 2 ^ k := Nat.mod_lt _ (Nat.two_pow_pos k)
  have hc : 2 ^ k * (a / 2 ^ k) = a / 2 ^ k * 2 ^ k := Nat.mul_comm _ _
  have h1 : (a / 2 ^ k + 1) * 2 ^ k = a / 2 ^ k * 2 ^ k + 2 ^ k := by ring
  unfold nearest
  simp only []
  split_ifs with h1 h2
  · refine ⟨le_rfl, by omega, fun _ => rfl, by omega⟩
  · refine ⟨by omega, le_rfl, fun h => absurd h h1, by omega⟩
  · have : a / 2 ^ k % 2 < 2 := Nat.mod_lt _ (by norm_num)
    refine ⟨by omega, by omega, fun h => absurd h h1, ?_⟩
    have : a / 2 ^ k * 2 ^ k ≤ (a / 2 ^ k + a / 2 ^ k % 2) * 2 ^ k :=
      Nat.mul_le_mul_right _ (by omega)
    omega

theorem round_natCast (a : Nat) (e : Int) :
    round (a : Int) e = ⟨(nearest a (excess a a) : Nat), e + (excess a a : Nat)⟩ := by
  unfold round
  simp only [Int.natAbs_ofNat]
  congr 1
  rcases Nat.eq_zero_or_pos a with h | h
  · subst h; simp [nearest]
  · have : ((a : Int)).sign = 1 := Int.sign_eq_one_of_pos (by exact_mod_cast h)
    rw [this, one_mul]

theorem lt_iff_of_exp_le (a b : Float32) (h : b.exp ≤ a.exp) :
    lt a b = true ↔ a.mant * 2 ^ (a.exp - b.exp).toNat < b.mant := by
  unfold lt
  simp only [min_eq_right h, sub_self, Int.toNat_zero, pow_zero, mul_one, decide_eq_true_eq]

end Float32

open Float32 in
theorem below_megakernel_threshold_nat (N C : Nat) (hC0 : 0 < C) (hC : C < 2 ^ 24) :
    below_threshold megakernel_threshold (N : Int) (C : Int) = true ↔ 10 * N < C := by
  have hofC : ofInt (C : Int) = ⟨(C : Nat), 0⟩ := by
    unfold ofInt
    rw [round_natCast, excess_small C C hC, nearest_zero]; simp
  have hA : (13421773 : Int) * (C : Int) = ((13421773 * C : Nat) : Int) := by push_cast; ring
  obtain ⟨A, hAdef⟩ : ∃ A, A = 13421773 * C := ⟨_, rfl⟩
  have hA23 : 2 ^ 23 ≤ A := by omega
  obtain ⟨hP, hq⟩ := two_pow_excess_le A hA23
  obtain ⟨k, hk⟩ : ∃ k, k = excess A A := ⟨_, rfl⟩
  rw [← hk] at hP hq
  have hk24 : k ≤ 24 := by
    by_contra hcon
    have : 2 ^ 25 ≤ 2 ^ k := Nat.pow_le_pow_right (by norm_num) (by omega)
    omega
  obtain ⟨hb1, hb2, hb3, hb4⟩ := nearest_bounds A k
  obtain ⟨kn, hkn⟩ : ∃ kn, kn = excess N N := ⟨_, rfl⟩
  unfold below_threshold
  have hmul : mul megakernel_threshold (ofInt (C : Int)) = ⟨(nearest A k : Nat), -27 + (k : Nat)⟩ := by
    unfold mul
    rw [hofC]
    simp only [megakernel_threshold, add_zero]
    rw [hA, ← hAdef, round_natCast, ← hk]
  have hofN : ofInt (N : Int) = ⟨(nearest N kn : Nat), (kn : Nat)⟩ := by
    unfold ofInt
    rw [round_natCast, ← hkn]; simp
  rw [hmul, hofN, lt_iff_of_exp_le _ _ (by simp only []; omega)]
  simp only []
  have hexp : ((kn : Int) - (-27 + (k : Int))).toNat = kn + (27 - k) := by omega
  rw [hexp]
  have hM : 2 ^ (27 - k) * 2 ^ k = 2 ^ 27 := by rw [← pow_add]; congr 1; omega
  obtain ⟨M, hMdef⟩ : ∃ M, M = 2 ^ (27 - k) := ⟨_, rfl⟩
  obtain ⟨P, hPdef⟩ : ∃ P, P = 2 ^ k := ⟨_, rfl⟩
  have hPpos : 0 < P := by rw [hPdef]; exact Nat.two_pow_pos k
  rw [← hMdef, ← hPdef] at hM
  rw [← hPdef] at hP hq hb1 hb2 hb3 hb4
  rw [pow_add]
  norm_cast
  rw [← hMdef]
  obtain ⟨Q, hQdef⟩ : ∃ Q, Q = nearest A k := ⟨_, rfl⟩
  rw [← hQdef] at hb1 hb2 hb3 hb4 ⊢
  by_cases hN : N < 2 ^ 24
  · rw [hkn, excess_small N N hN, nearest_zero, pow_zero, one_mul]
    have hscale : N * M < Q ↔ N * 2 ^ 27 < Q * P := by
      rw [← hM, ← Nat.mul_assoc]
      exact (Nat.mul_lt_mul_right hPpos).symm
    rw [hscale]
    constructor
    · intro hlt
      by_contra hcon
      have hCle : C ≤ 10 * N := by omega
      by_cases hAG : A < N * M * P
      · have : A / P < N * M := (Nat.div_lt_iff_lt_mul hPpos).2 hAG
        have : Q * P ≤ N * M * P := Nat.mul_le_mul_right _ (by omega)
        have : N * M * P = N * 2 ^ 27 := by rw [Nat.mul_assoc, hM]
        omega
      · have hG : N * M * P = N * 2 ^ 27 := by rw [Nat.mul_assoc, hM]
        have hAP : A < 2 ^ 24 * P := by
          have := (Nat.div_lt_iff_lt_mul hPpos).1 hq
          omega
        have hdiv : A / P = N * M := by
          apply Nat.div_eq_of_lt_le
          · omega
          · rw [Nat.succ_mul]; omega
        have hmod : A % P = A - N * M * P := by
          have := Nat.div_add_mod A P
          rw [hdiv, Nat.mul_comm P] at this
          omega
        have := hb3 (by omega)
        rw [this, hdiv] at hlt
        omega
    · intro h10
      omega
  · have hnk := excess_spec N N (lt_two_pow_self' N) (by omega)
    rw [← hkn] at hnk
    obtain ⟨hn1, -, -, -⟩ := nearest_bounds N kn
    constructor
    · intro hlt
      exfalso
      have h1 : 2 ^ 23 * (2 ^ 1 * M) ≤ nearest N kn * (2 ^ kn * M) :=
        Nat.mul_le_mul (by omega) (Nat.mul_le_mul_right _ (Nat.pow_le_pow_right (by norm_num) hnk.2.2))
      have h2 : 2 ^ 3 ≤ M := by rw [hMdef]; exact Nat.pow_le_pow_right (by norm_num) (by omega)
      have : 2 ^ 23 * (2 ^ 1 * 2 ^ 3) ≤ 2 ^ 23 * (2 ^ 1 * M) :=
        Nat.mul_le_mul_left _ (Nat.mul_le_mul_left _ h2)
      omega
    · intro h10; omega

theorem below_megakernel_threshold_iff (n cap : Int) (hn : 0 ≤ n) (hc0 : 0 < cap)
    (hc : cap < 16777216) :
    below_threshold megakernel_threshold n cap = true ↔ 10 * n < cap := by
  lift n to Nat using hn
  lift cap to Nat using hc0.le
  rw [below_megakernel_threshold_nat n cap (by omega) (by norm_num; omega)]
  omega


open Float32 in
/-- The regenerate test `num_paths < 0.5f * max_num_paths` of the source decides
`2 * num_paths < max_num_paths` exactly, for capacities below `2 ^ 24`. -/
theorem below_regenerate_threshold_iff (n cap : Int) (hn : 0 ≤ n) (hc0 : 0 < cap)
    (hc : cap < 16777216) :
    below_threshold regenerate_threshold n cap = true ↔ 2 * n < cap := by
  lift n to Nat using hn
  lift cap to Nat using hc0.le
  have hC : cap < 2 ^ 24 := by norm_num; omega
  have hofC : ofInt (cap : Int) = ⟨(cap : Nat), 0⟩ := by
    unfold ofInt
    rw [round_natCast, excess_small cap cap hC, nearest_zero]; simp
  have hmul : mul regenerate_threshold (ofInt (cap : Int)) = ⟨(cap : Nat), -1⟩ := by
    unfold mul
    rw [hofC]
    simp only [regenerate_threshold, one_mul, add_zero]
    rw [round_natCast, excess_small cap cap hC, nearest_zero]; simp
  have hofN : ofInt (n : Int) = ⟨(nearest n (excess n n) : Nat), (excess n n : Nat)⟩ := by
    unfold ofInt
    rw [round_natCast]; simp
  unfold below_threshold
  rw [hmul, hofN, lt_iff_of_exp_le _ _ (by simp only []; omega)]
  simp only []
  have hexp : (((excess n n : Nat) : Int) - (-1)).toNat = excess n n + 1 := by omega
  rw [hexp]
  have hcast : ((nearest n (excess n n) : Nat) : Int) * 2 ^ (excess n n + 1) =
      ((nearest n (excess n n) * 2 ^ (excess n n + 1) : Nat) : Int) := by
    push_cast; ring
  rw [hcast, Int.ofNat_lt]
  have hrhs : (2 * (n : Int) < (cap : Int)) ↔ 2 * n < cap := by omega
  rw [hrhs]
  by_cases hN : n < 2 ^ 24
  · rw [excess_small n n hN, nearest_zero]
    omega
  · have hnk := excess_spec n n (lt_two_pow_self' n) (by omega)
    obtain ⟨hn1, -, -, -⟩ := nearest_bounds n (excess n n)
    have h1 : 2 ^ 23 * 2 ^ (1 + 1) ≤ nearest n (excess n n) * 2 ^ (excess n n + 1) :=
      Nat.mul_le_mul (by omega) (Nat.pow_le_pow_right (by norm_num) (by omega))
    constructor
    · intro hlt; omega
    · intro hlt; omega

namespace PathTraceWorkGPU

variable {W : Type}

/-! ### Trace observations -/

theorem dispatched_append (a b : List Event) :
    dispatched (a ++ b) = dispatched a ++ dispatched b := by
  induction a with
  | nil => rfl
  | cons e es ih =>
    cases e with
    | enqueue kernel work_size args => cases args <;> simp [dispatched, ih]
    | _ => simp [dispatched, ih]

theorem compute_queued_paths_dispatched (K : DeviceKernelEnum) (E : Environment W)
    (max_num_paths : Int) (st : PathTraceWorkGPU W) (kernel : Nat) (queued_kernel : Int) :
    dispatched (compute_queued_paths K E max_num_paths st kernel queued_kernel).trace =
      dispatched st.trace := by
  unfold compute_queued_paths
  simp only [queue_enqueue, emit]
  split_ifs <;> simp [dispatched_append, dispatched]

theorem compute_queued_paths_frame (K : DeviceKernelEnum) (E : Environment W)
    (max_num_paths : Int) (st : PathTraceWorkGPU W) (kernel : Nat) (queued_kernel : Int) :
    (compute_queued_paths K E max_num_paths st kernel queued_kernel).max_active_path_index_ =
        st.max_active_path_index_ ∧
      (compute_queued_paths K E max_num_paths st kernel queued_kernel).num_queued =
        st.num_queued ∧
      (compute_queued_paths K E max_num_paths st kernel queued_kernel).aborted = st.aborted := by
  unfold compute_queued_paths
  simp only [queue_enqueue, emit]
  split_ifs <;> simp

theorem enqueue_path_iteration_kernel_dispatched (K : DeviceKernelEnum) (E : Environment W)
    (max_num_paths : Int) (st : PathTraceWorkGPU W) (kernel : Nat) :
    dispatched (enqueue_path_iteration_kernel K E max_num_paths st kernel).trace =
      dispatched st.trace ++
        (if kernel ∈ K.phases ∨ kernel = K.INTEGRATOR_MEGAKERNEL then [kernel] else []) := by
  unfold enqueue_path_iteration_kernel
  simp only [queue_enqueue, emit, DeviceKernelEnum.phases, List.mem_cons, List.mem_singleton,
    List.not_mem_nil, or_false]
  split_ifs <;>
    simp_all [dispatched_append, dispatched, compute_queued_paths_dispatched]

/-! ### The maximum search -/

theorem foldl_find_kernel_step_num_paths (q : Nat → Int) (l : List Nat) (s : FindKernel) :
    (l.foldl (find_kernel_step q) s).num_paths = l.foldl (fun a i => a + q i) s.num_paths := by
  induction l generalizing s with
  | nil => rfl
  | cons i l ih =>
    simp only [List.foldl_cons]
    rw [ih]
    congr 1
    unfold find_kernel_step
    split_ifs <;> rfl

theorem find_kernel_num_paths (K : DeviceKernelEnum) (st : PathTraceWorkGPU W) :
    (find_kernel K st.num_queued).num_paths = get_num_active_paths K st := by
  unfold find_kernel get_num_active_paths
  rw [foldl_find_kernel_step_num_paths]

theorem foldl_add_eq_sum (q : Nat → Int) (n : Nat) :
    (List.range n).foldl (fun a i => a + q i) 0 = ∑ i in Finset.range n, q i := by
  induction n with
  | zero => rfl
  | succ n ih => rw [List.range_succ, List.foldl_append, ih, Finset.sum_range_succ]; rfl

theorem get_num_active_paths_eq_sum (K : DeviceKernelEnum) (st : PathTraceWorkGPU W) :
    get_num_active_paths K st = ∑ i in Finset.range K.INTEGRATOR_NUM, st.num_queued i :=
  foldl_add_eq_sum _ _

theorem find_kernel_upto (q : Nat → Int) (k₀ n : Nat) :
    0 ≤ ((List.range n).foldl (find_kernel_step q) ⟨0, 0, k₀⟩).max_num_queued ∧
    (∀ i, i < n → q i ≤ ((List.range n).foldl (find_kernel_step q) ⟨0, 0, k₀⟩).max_num_queued) ∧
    (((List.range n).foldl (find_kernel_step q) ⟨0, 0, k₀⟩).max_num_queued = 0 →
      ((List.range n).foldl (find_kernel_step q) ⟨0, 0, k₀⟩).kernel = k₀) ∧
    (0 < ((List.range n).foldl (find_kernel_step q) ⟨0, 0, k₀⟩).max_num_queued →
      ((List.range n).foldl (find_kernel_step q) ⟨0, 0, k₀⟩).kernel < n ∧
      q ((List.range n).foldl (find_kernel_step q) ⟨0, 0, k₀⟩).kernel =
        ((List.range n).foldl (find_kernel_step q) ⟨0, 0, k₀⟩).max_num_queued ∧
      ∀ i, i < ((List.range n).foldl (find_kernel_step q) ⟨0, 0, k₀⟩).kernel →
        q i < ((List.range n).foldl (find_kernel_step q) ⟨0, 0, k₀⟩).max_num_queued) := by
  induction n with
  | zero => simp
  | succ n ih =>
    rw [List.range_succ, List.foldl_append]
    simp only [List.foldl_cons, List.foldl_nil]
    generalize (List.range n).foldl (find_kernel_step q) ⟨0, 0, k₀⟩ = f at ih ⊢
    obtain ⟨h0, hle, hz, hp⟩ := ih
    unfold find_kernel_step
    split_ifs with hgt
    · simp only []
      refine ⟨by omega, ?_, fun h => by omega, fun _ => ⟨by omega, trivial, ?_⟩⟩
      · intro i hi
        rcases Nat.lt_succ_iff_lt_or_eq.1 hi with h | h
        · have := hle i h; omega
        · subst h; exact le_rfl
      · intro i hi
        have := hle i hi; omega
    · simp only []
      refine ⟨h0, ?_, hz, fun h => ?_⟩
      · intro i hi
        rcases Nat.lt_succ_iff_lt_or_eq.1 hi with h | h
        · exact hle i h
        · subst h; omega
      · obtain ⟨h1, h2, h3⟩ := hp h
        exact ⟨by omega, h2, h3⟩

theorem IsSelected.unique {K : DeviceKernelEnum} {q : Nat → Int} {k k' : Nat}
    (h : IsSelected K q k) (h' : IsSelected K q k') : k = k' := by
  obtain ⟨h1, -, h3, h4⟩ := h
  obtain ⟨h1', -, h3', h4'⟩ := h'
  rcases Nat.lt_trichotomy k k' with hlt | heq | hgt
  · have := h4' k hlt; have := h3 k' h1'; omega
  · exact heq
  · have := h4 k' hgt; have := h3' k h1; omega

theorem find_kernel_selected (K : DeviceKernelEnum) (q : Nat → Int)
    (h : (find_kernel K q).max_num_queued ≠ 0) :
    IsSelected K q (find_kernel K q).kernel ∧
      q (find_kernel K q).kernel = (find_kernel K q).max_num_queued := by
  obtain ⟨h0, hle, -, hp⟩ := find_kernel_upto q K.INTEGRATOR_NUM K.INTEGRATOR_NUM
  have hpos : 0 < (find_kernel K q).max_num_queued := by
    unfold find_kernel at h ⊢; omega
  obtain ⟨h1, h2, h3⟩ := hp hpos
  unfold find_kernel at hpos ⊢
  refine ⟨⟨h1, by omega, fun i hi => by rw [h2]; exact hle i hi, fun i hi => by rw [h2]; exact h3 i hi⟩, h2⟩

theorem find_kernel_of_selected {K : DeviceKernelEnum} {q : Nat → Int} {k : Nat}
    (h : IsSelected K q k) :
    (find_kernel K q).max_num_queued ≠ 0 ∧ (find_kernel K q).kernel = k := by
  have hle := (find_kernel_upto q K.INTEGRATOR_NUM K.INTEGRATOR_NUM).2.1 k h.1
  have hne : (find_kernel K q).max_num_queued ≠ 0 := by
    have := h.2.1
    unfold find_kernel; omega
  exact ⟨hne, IsSelected.unique (find_kernel_selected K q hne).1 h⟩

theorem megakernel_not_phase {K : DeviceKernelEnum}
    (hK : K.WellFormed) : K.INTEGRATOR_MEGAKERNEL ∉ K.phases :=
  (List.nodup_cons.1 hK.1).1

theorem add_le_sum_counters (q : Nat → Int) (n : Nat) (hq : ∀ i, i < n → 0 ≤ q i) {j k : Nat}
    (hj : j < n) (hk : k < n) (hjk : j ≠ k) : q j + q k ≤ ∑ i in Finset.range n, q i := by
  have hjm : j ∈ Finset.range n := Finset.mem_range.2 hj
  have hkm : k ∈ (Finset.range n).erase j := Finset.mem_erase.2 ⟨hjk.symm, Finset.mem_range.2 hk⟩
  rw [← Finset.add_sum_erase _ _ hjm]
  have : q k ≤ ∑ i in (Finset.range n).erase j, q i :=
    Finset.single_le_sum (f := q)
      (fun i hi => hq i (Finset.mem_range.1 (Finset.mem_of_mem_erase hi))) hkm
  omega

theorem le_sum_counters (q : Nat → Int) (n : Nat) (hq : ∀ i, i < n → 0 ≤ q i) {j : Nat}
    (hj : j < n) : q j ≤ ∑ i in Finset.range n, q i :=
  Finset.single_le_sum (f := q) (fun i hi => hq i (Finset.mem_range.1 hi)) (Finset.mem_range.2 hj)

/-- The test of the megakernel rule in the code, for non-negative counters with a positive one:
it holds exactly when the active count is below a tenth of the capacity and every active path
is queued at closest intersection. -/
theorem megakernel_test_iff (K : DeviceKernelEnum) (max_num_paths : Int)
    (st : PathTraceWorkGPU W) (hK : K.WellFormed)
    (hcap : 0 < max_num_paths) (hcap' : max_num_paths < 16777216)
    (hnonneg : ∀ i, i < K.INTEGRATOR_NUM → 0 ≤ st.num_queued i)
    (hne : (find_kernel K st.num_queued).max_num_queued ≠ 0) :
    (below_threshold megakernel_threshold (find_kernel K st.num_queued).num_paths max_num_paths
        = true ∧
      ((find_kernel K st.num_queued).kernel = K.INTEGRATOR_INTERSECT_CLOSEST ∧
        (find_kernel K st.num_queued).num_paths =
          st.num_queued (find_kernel K st.num_queued).kernel)) ↔
    (10 * get_num_active_paths K st < max_num_paths ∧
      st.num_queued K.INTEGRATOR_INTERSECT_CLOSEST = get_num_active_paths K st) := by
  have hsum := get_num_active_paths_eq_sum K st
  have htot : 0 ≤ get_num_active_paths K st := by
    rw [hsum]; exact Finset.sum_nonneg (fun i hi => hnonneg i (Finset.mem_range.1 hi))
  rw [find_kernel_num_paths, below_megakernel_threshold_iff _ _ htot hcap hcap']
  obtain ⟨⟨hlt, hpos, -, -⟩, -⟩ := find_kernel_selected K st.num_queued hne
  have hIC : K.INTEGRATOR_INTERSECT_CLOSEST < K.INTEGRATOR_NUM :=
    hK.2 _ (by simp [DeviceKernelEnum.phases])
  constructor
  · rintro ⟨h1, h2, h3⟩
    rw [h2] at h3
    exact ⟨h1, h3.symm⟩
  · rintro ⟨h1, h2⟩
    have hker : (find_kernel K st.num_queued).kernel = K.INTEGRATOR_INTERSECT_CLOSEST := by
      by_contra hcon
      have := add_le_sum_counters st.num_queued K.INTEGRATOR_NUM hnonneg hlt hIC hcon
      omega
    exact ⟨h1, hker, by rw [hker, h2]⟩

/-- When `enqueue_path_iteration()` dispatches the megakernel, for a positive counter: the first
test of the function holds, or the maximum search designates the megakernel's own counter and
the shadow kernels do not take precedence. -/
theorem enqueue_path_iteration_megakernel_cases (K : DeviceKernelEnum) (E : Environment W)
    (max_num_paths : Int) (st : PathTraceWorkGPU W) (hK : K.WellFormed)
    (hne : (find_kernel K st.num_queued).max_num_queued ≠ 0) :
    dispatched (enqueue_path_iteration K E max_num_paths st).2.trace =
        dispatched st.trace ++ [K.INTEGRATOR_MEGAKERNEL] ↔
      (below_threshold megakernel_threshold (find_kernel K st.num_queued).num_paths
          max_num_paths = true ∧
        ((find_kernel K st.num_queued).kernel = K.INTEGRATOR_INTERSECT_CLOSEST ∧
          (find_kernel K st.num_queued).num_paths =
            st.num_queued (find_kernel K st.num_queued).kernel)) ∨
      ((find_kernel K st.num_queued).kernel = K.INTEGRATOR_MEGAKERNEL ∧
        ¬ (below_threshold megakernel_threshold (find_kernel K st.num_queued).num_paths
            max_num_paths = true ∧
          (st.num_queued K.INTEGRATOR_INTERSECT_SHADOW ≠ 0 ∨
            st.num_queued K.INTEGRATOR_SHADE_SHADOW ≠ 0))) := by
  have hM := megakernel_not_phase hK
  have hIS : K.INTEGRATOR_INTERSECT_SHADOW ∈ K.phases := by simp [DeviceKernelEnum.phases]
  have hSS : K.INTEGRATOR_SHADE_SHADOW ∈ K.phases := by simp [DeviceKernelEnum.phases]
  have hIC : K.INTEGRATOR_INTERSECT_CLOSEST ∈ K.phases := by simp [DeviceKernelEnum.phases]
  have hSU : K.INTEGRATOR_SHADE_SURFACE ∈ K.phases := by simp [DeviceKernelEnum.phases]
  have hSV : K.INTEGRATOR_SHADE_VOLUME ∈ K.phases := by simp [DeviceKernelEnum.phases]
  have hother : ∀ k, k ≠ K.INTEGRATOR_MEGAKERNEL →
      dispatched (enqueue_path_iteration_kernel K E max_num_paths st k).trace ≠
        dispatched st.trace ++ [K.INTEGRATOR_MEGAKERNEL] := by
    intro k hk h
    rw [enqueue_path_iteration_kernel_dispatched] at h
    have h' := List.append_cancel_left h
    split_ifs at h' with hc
    exact hk (List.singleton_inj.1 h')
  have hmega : dispatched (enqueue_path_iteration_kernel K E max_num_paths st
      K.INTEGRATOR_MEGAKERNEL).trace = dispatched st.trace ++ [K.INTEGRATOR_MEGAKERNEL] := by
    rw [enqueue_path_iteration_kernel_dispatched, if_pos (Or.inr rfl)]
  unfold enqueue_path_iteration
  simp only [hne, if_false]
  generalize find_kernel K st.num_queued = f
  by_cases hrule : below_threshold megakernel_threshold f.num_paths max_num_paths = true ∧
      (f.kernel = K.INTEGRATOR_INTERSECT_CLOSEST ∧ f.num_paths = st.num_queued f.kernel)
  · rw [if_pos hrule]
    exact iff_of_true hmega (Or.inl hrule)
  · rw [if_neg hrule]
    by_cases hker : f.kernel = K.INTEGRATOR_MEGAKERNEL
    · have h1 : f.kernel ≠ K.INTEGRATOR_SHADE_SURFACE := fun h => hM (hker ▸ h ▸ hSU)
      have h2 : f.kernel ≠ K.INTEGRATOR_SHADE_VOLUME := fun h => hM (hker ▸ h ▸ hSV)
      by_cases hb : below_threshold megakernel_threshold f.num_paths max_num_paths = true
      · rw [if_pos (Or.inl hb)]
        by_cases hs1 : st.num_queued K.INTEGRATOR_INTERSECT_SHADOW ≠ 0
        · rw [if_pos hs1]
          refine iff_of_false (hother _ (fun h => hM (h ▸ hIS))) ?_
          rintro (h | ⟨-, h⟩)
          · exact hrule h
          · exact h ⟨hb, Or.inl hs1⟩
        · rw [if_neg hs1]
          by_cases hs2 : st.num_queued K.INTEGRATOR_SHADE_SHADOW ≠ 0
          · rw [if_pos hs2]
            refine iff_of_false (hother _ (fun h => hM (h ▸ hSS))) ?_
            rintro (h | ⟨-, h⟩)
            · exact hrule h
            · exact h ⟨hb, Or.inr hs2⟩
          · rw [if_neg hs2, hker]
            refine iff_of_true hmega (Or.inr ⟨rfl, ?_⟩)
            rintro ⟨-, h | h⟩
            · exact hs1 h
            · exact hs2 h
      · rw [if_neg (by simp [hb, h1, h2]), hker]
        exact iff_of_true hmega (Or.inr ⟨rfl, fun h => hb h.1⟩)
    · refine iff_of_false ?_ ?_
      · split_ifs
        · exact hother _ (fun h => hM (h ▸ hIS))
        · exact hother _ (fun h => hM (h ▸ hSS))
        · exact hother _ hker
        · exact hother _ hker
      · rintro (h | ⟨h, -⟩)
        · exact hrule h
        · exact hker h

/-- C1, as stated, fails: with 5 paths counted at the megakernel's own counter and none
elsewhere (capacity 1000), the counters are non-negative and one is positive, the megakernel is
dispatched, and closest intersection does not hold every active path. -/
theorem enqueue_path_iteration_megakernel_iff_counterexample :
    (∀ i, i < sampleKernels.INTEGRATOR_NUM →
      0 ≤ (sampleState ⟨[], fun _ => 0, true, false⟩
        (countersOf [0, 0, 0, 0, 0, 0, 0, 0, 0, 5]) 5).num_queued i) ∧
    0 < (sampleState ⟨[], fun _ => 0, true, false⟩
        (countersOf [0, 0, 0, 0, 0, 0, 0, 0, 0, 5]) 5).num_queued
      sampleKernels.INTEGRATOR_MEGAKERNEL ∧
    sampleKernels.INTEGRATOR_MEGAKERNEL < sampleKernels.INTEGRATOR_NUM ∧
    dispatched (enqueue_path_iteration sampleKernels (sampleEnvironment sampleKernels) 1000
        (sampleState ⟨[], fun _ => 0, true, false⟩
          (countersOf [0, 0, 0, 0, 0, 0, 0, 0, 0, 5]) 5)).2.trace =
      [sampleKernels.INTEGRATOR_MEGAKERNEL] ∧
    ¬ (10 * get_num_active_paths sampleKernels (sampleState ⟨[], fun _ => 0, true, false⟩
          (countersOf [0, 0, 0, 0, 0, 0, 0, 0, 0, 5]) 5) < 1000 ∧
      (sampleState ⟨[], fun _ => 0, true, false⟩
          (countersOf [0, 0, 0, 0, 0, 0, 0, 0, 0, 5]) 5).num_queued
        sampleKernels.INTEGRATOR_INTERSECT_CLOSEST =
      get_num_active_paths sampleKernels (sampleState ⟨[], fun _ => 0, true, false⟩
        (countersOf [0, 0, 0, 0, 0, 0, 0, 0, 0, 5]) 5)) := by
  decide

/-- C1 (amended): for non-negative counters of which one is positive, `enqueue_path_iteration()`
dispatches the megakernel if and only if the total active count is below a tenth of the pool
capacity and every active path is queued at closest intersection, or the maximum search
designates the megakernel's own counter and it is not the case that the active count is below
a tenth of the capacity with shadow work pending. When the megakernel's own counter is zero,
the first alternative alone decides. The capacity is a parameter in the range where single
precision decides the threshold test exactly. -/
theorem enqueue_path_iteration_megakernel_iff (K : DeviceKernelEnum) (E : Environment W)
    (max_num_paths : Int) (st : PathTraceWorkGPU W) (hK : K.WellFormed)
    (hcap : 0 < max_num_paths) (hcap' : max_num_paths < 16777216)
    (hnonneg : ∀ i, i < K.INTEGRATOR_NUM → 0 ≤ st.num_queued i)
    (hpos : ∃ i, i < K.INTEGRATOR_NUM ∧ 0 < st.num_queued i) :
    (dispatched (enqueue_path_iteration K E max_num_paths st).2.trace =
        dispatched st.trace ++ [K.INTEGRATOR_MEGAKERNEL] ↔
      (10 * get_num_active_paths K st < max_num_paths ∧
        st.num_queued K.INTEGRATOR_INTERSECT_CLOSEST = get_num_active_paths K st) ∨
      (IsSelected K st.num_queued K.INTEGRATOR_MEGAKERNEL ∧
        ¬ (10 * get_num_active_paths K st < max_num_paths ∧
          (st.num_queued K.INTEGRATOR_INTERSECT_SHADOW ≠ 0 ∨
            st.num_queued K.INTEGRATOR_SHADE_SHADOW ≠ 0)))) ∧
    ((K.INTEGRATOR_MEGAKERNEL < K.INTEGRATOR_NUM → st.num_queued K.INTEGRATOR_MEGAKERNEL = 0) →
      (dispatched (enqueue_path_iteration K E max_num_paths st).2.trace =
          dispatched st.trace ++ [K.INTEGRATOR_MEGAKERNEL] ↔
        (10 * get_num_active_paths K st < max_num_paths ∧
          st.num_queued K.INTEGRATOR_INTERSECT_CLOSEST = get_num_active_paths K st))) := by
  have hne : (find_kernel K st.num_queued).max_num_queued ≠ 0 := by
    obtain ⟨i, hi, hqi⟩ := hpos
    have := (find_kernel_upto st.num_queued K.INTEGRATOR_NUM K.INTEGRATOR_NUM).2.1 i hi
    unfold find_kernel; omega
  have htest := megakernel_test_iff K max_num_paths st hK hcap hcap' hnonneg hne
  have hcases := enqueue_path_iteration_megakernel_cases K E max_num_paths st hK hne
  have htot : 0 ≤ get_num_active_paths K st := by
    rw [get_num_active_paths_eq_sum]
    exact Finset.sum_nonneg (fun i hi => hnonneg i (Finset.mem_range.1 hi))
  have hbelow := below_megakernel_threshold_iff (get_num_active_paths K st) max_num_paths htot
    hcap hcap'
  have hsel : (find_kernel K st.num_queued).kernel = K.INTEGRATOR_MEGAKERNEL ↔
      IsSelected K st.num_queued K.INTEGRATOR_MEGAKERNEL :=
    ⟨fun h => h ▸ (find_kernel_selected K st.num_queued hne).1,
      fun h => (find_kernel_of_selected h).2⟩
  have hfull : dispatched (enqueue_path_iteration K E max_num_paths st).2.trace =
        dispatched st.trace ++ [K.INTEGRATOR_MEGAKERNEL] ↔
      (10 * get_num_active_paths K st < max_num_paths ∧
        st.num_queued K.INTEGRATOR_INTERSECT_CLOSEST = get_num_active_paths K st) ∨
      (IsSelected K st.num_queued K.INTEGRATOR_MEGAKERNEL ∧
        ¬ (10 * get_num_active_paths K st < max_num_paths ∧
          (st.num_queued K.INTEGRATOR_INTERSECT_SHADOW ≠ 0 ∨
            st.num_queued K.INTEGRATOR_SHADE_SHADOW ≠ 0))) := by
    rw [hcases, htest, hsel, find_kernel_num_paths, hbelow]
  refine ⟨hfull, fun hmega => ?_⟩
  rw [hfull]
  refine ⟨fun h => ?_, Or.inl⟩
  rcases h with h | ⟨⟨hlt, hq, -, -⟩, -⟩
  · exact h
  · have := hmega hlt
    omega

/-- Witness of C1, capacity 1000: 90 active paths, all at closest intersection, select the
megakernel; 150 active paths at that phase do not. -/
theorem enqueue_path_iteration_megakernel_iff_witness :
    dispatched (enqueue_path_iteration sampleKernels (sampleEnvironment sampleKernels) 1000
        (sampleState ⟨[], fun _ => 0, true, false⟩ (countersOf [0, 90]) 90)).2.trace =
      [sampleKernels.INTEGRATOR_MEGAKERNEL] ∧
    dispatched (enqueue_path_iteration sampleKernels (sampleEnvironment sampleKernels) 1000
        (sampleState ⟨[], fun _ => 0, true, false⟩ (countersOf [0, 150]) 150)).2.trace ≠
      [sampleKernels.INTEGRATOR_MEGAKERNEL] :=
  ⟨((enqueue_path_iteration_megakernel_iff sampleKernels (sampleEnvironment sampleKernels) 1000
      (sampleState ⟨[], fun _ => 0, true, false⟩ (countersOf [0, 90]) 90)
      (by decide) (by decide) (by decide) (by decide)
      ⟨1, by decide, by decide⟩).2 (by decide)).2 ⟨by decide, by decide⟩,
   fun h => absurd (((enqueue_path_iteration_megakernel_iff sampleKernels
      (sampleEnvironment sampleKernels) 1000
      (sampleState ⟨[], fun _ => 0, true, false⟩ (countersOf [0, 150]) 150)
      (by decide) (by decide) (by decide) (by decide)
      ⟨1, by decide, by decide⟩).2 (by decide)).1 h).1 (by decide)⟩

/-- C2, as stated, fails: with 500000 paths at closest intersection, 5 at shadow intersection
and 10 at surface shading (capacity 1048576), the shadow-intersection counter is nonzero and the
surface-shading counter is larger, yet closest intersection is dispatched. -/
theorem enqueue_path_iteration_shadow_priority_counterexample :
    (sampleState ⟨[], fun _ => 0, true, false⟩
        (countersOf [0, 500000, 5, 0, 0, 0, 0, 10]) 500015).num_queued
      sampleKernels.INTEGRATOR_INTERSECT_SHADOW ≠ 0 ∧
    (sampleState ⟨[], fun _ => 0, true, false⟩
        (countersOf [0, 500000, 5, 0, 0, 0, 0, 10]) 500015).num_queued
      sampleKernels.INTEGRATOR_INTERSECT_SHADOW <
    (sampleState ⟨[], fun _ => 0, true, false⟩
        (countersOf [0, 500000, 5, 0, 0, 0, 0, 10]) 500015).num_queued
      sampleKernels.INTEGRATOR_SHADE_SURFACE ∧
    dispatched (enqueue_path_iteration sampleKernels (sampleEnvironment sampleKernels)
        get_max_num_paths (sampleState ⟨[], fun _ => 0, true, false⟩
          (countersOf [0, 500000, 5, 0, 0, 0, 0, 10]) 500015)).2.trace =
      [sampleKernels.INTEGRATOR_INTERSECT_CLOSEST] ∧
    sampleKernels.INTEGRATOR_INTERSECT_CLOSEST ≠ sampleKernels.INTEGRATOR_INTERSECT_SHADOW := by
  decide

/-- C2, amended: when the shadow-intersection counter is nonzero and the surface-shading counter
is larger than it, `enqueue_path_iteration()` dispatches the shadow-intersection kernel, and only
it, provided the phase designated by the maximum search is surface shading or volume shading, or
the counters are non-negative and the active count is below the megakernel threshold. -/
theorem enqueue_path_iteration_shadow_priority (K : DeviceKernelEnum) (E : Environment W)
    (max_num_paths : Int) (st : PathTraceWorkGPU W) (hK : K.WellFormed)
    (hshadow : st.num_queued K.INTEGRATOR_INTERSECT_SHADOW ≠ 0)
    (_hlarger : st.num_queued K.INTEGRATOR_INTERSECT_SHADOW <
      st.num_queued K.INTEGRATOR_SHADE_SURFACE)
    (hsel : IsSelected K st.num_queued K.INTEGRATOR_SHADE_SURFACE ∨
      IsSelected K st.num_queued K.INTEGRATOR_SHADE_VOLUME ∨
      ((∀ i, i < K.INTEGRATOR_NUM → 0 ≤ st.num_queued i) ∧
        below_threshold megakernel_threshold (get_num_active_paths K st) max_num_paths = true)) :
    enqueue_path_iteration K E max_num_paths st =
        (true, enqueue_path_iteration_kernel K E max_num_paths st
          K.INTEGRATOR_INTERSECT_SHADOW) ∧
      dispatched (enqueue_path_iteration K E max_num_paths st).2.trace =
        dispatched st.trace ++ [K.INTEGRATOR_INTERSECT_SHADOW] := by
  have hnd := (List.nodup_cons.1 hK.1).2
  have hISlt : K.INTEGRATOR_INTERSECT_SHADOW < K.INTEGRATOR_NUM :=
    hK.2 _ (by simp [DeviceKernelEnum.phases])
  have hIClt : K.INTEGRATOR_INTERSECT_CLOSEST < K.INTEGRATOR_NUM :=
    hK.2 _ (by simp [DeviceKernelEnum.phases])
  have hne1 : K.INTEGRATOR_SHADE_SURFACE ≠ K.INTEGRATOR_INTERSECT_CLOSEST := by
    intro h; simp [DeviceKernelEnum.phases, h] at hnd
  have hne2 : K.INTEGRATOR_SHADE_VOLUME ≠ K.INTEGRATOR_INTERSECT_CLOSEST := by
    intro h; simp [DeviceKernelEnum.phases, h] at hnd
  have hne3 : K.INTEGRATOR_INTERSECT_SHADOW ≠ K.INTEGRATOR_INTERSECT_CLOSEST := by
    intro h; simp [DeviceKernelEnum.phases, h] at hnd
  have key : enqueue_path_iteration K E max_num_paths st =
      (true, enqueue_path_iteration_kernel K E max_num_paths st
        K.INTEGRATOR_INTERSECT_SHADOW) := by
    unfold enqueue_path_iteration
    rcases hsel with h | h | ⟨hnonneg, hbelow⟩
    · obtain ⟨hmax, hker⟩ := find_kernel_of_selected h
      simp [hmax, hker, hne1, hshadow]
    · obtain ⟨hmax, hker⟩ := find_kernel_of_selected h
      simp [hmax, hker, hne2, hshadow]
    · have hmax : (find_kernel K st.num_queued).max_num_queued ≠ 0 := by
        have := (find_kernel_upto st.num_queued K.INTEGRATOR_NUM K.INTEGRATOR_NUM).2.1 _ hISlt
        have := hnonneg _ hISlt
        unfold find_kernel; omega
      have hrule : ¬ ((find_kernel K st.num_queued).kernel = K.INTEGRATOR_INTERSECT_CLOSEST ∧
          (find_kernel K st.num_queued).num_paths =
            st.num_queued (find_kernel K st.num_queued).kernel) := by
        rintro ⟨h1, h2⟩
        rw [h1, find_kernel_num_paths, get_num_active_paths_eq_sum] at h2
        have := add_le_sum_counters st.num_queued K.INTEGRATOR_NUM hnonneg hISlt hIClt hne3
        have := hnonneg _ hISlt
        omega
      rw [← find_kernel_num_paths] at hbelow
      simp [hmax, hbelow, hrule, hshadow]
  refine ⟨key, ?_⟩
  rw [key]
  dsimp only
  rw [enqueue_path_iteration_kernel_dispatched, if_pos (Or.inl (by simp [DeviceKernelEnum.phases]))]

/-- Witness of C2 (amended): 5 paths at shadow intersection and 10 at surface shading. -/
theorem enqueue_path_iteration_shadow_priority_witness :
    dispatched (enqueue_path_iteration sampleKernels (sampleEnvironment sampleKernels)
        get_max_num_paths (sampleState ⟨[], fun _ => 0, true, false⟩
          (countersOf [0, 0, 5, 0, 0, 0, 0, 10]) 15)).2.trace =
      [sampleKernels.INTEGRATOR_INTERSECT_SHADOW] :=
  (enqueue_path_iteration_shadow_priority sampleKernels (sampleEnvironment sampleKernels)
    get_max_num_paths (sampleState ⟨[], fun _ => 0, true, false⟩
      (countersOf [0, 0, 5, 0, 0, 0, 0, 10]) 15)
    (by decide) (by decide) (by decide) (Or.inl (by decide))).2

theorem tiles_returned_append (a b : List Event) :
    tiles_returned (a ++ b) = tiles_returned a ++ tiles_returned b := by
  induction a with
  | nil => rfl
  | cons e es ih =>
    cases e with
    | get_work n r => cases r <;> simp [tiles_returned, ih]
    | _ => simp [tiles_returned, ih]

theorem camera_launches_append (a b : List Event) :
    camera_launches (a ++ b) = camera_launches a ++ camera_launches b := by
  induction a with
  | nil => rfl
  | cons e es ih =>
    cases e with
    | enqueue kernel work_size args => cases args <;> simp [camera_launches, ih]
    | _ => simp [camera_launches, ih]

theorem dchecks_append (a b : List Event) : dchecks (a ++ b) = dchecks a ++ dchecks b := by
  induction a with
  | nil => rfl
  | cons e es ih => cases e <;> simp [dchecks, ih]

theorem sync_results_append (a b : List Event) :
    sync_results (a ++ b) = sync_results a ++ sync_results b := by
  induction a with
  | nil => rfl
  | cons e es ih => cases e <;> simp [sync_results, ih]

theorem volume_sum_append (a b : List KernelWorkTile) :
    volume_sum (a ++ b) = volume_sum a + volume_sum b := by
  simp [volume_sum]

theorem volume_sum_take_succ (tiles : List KernelWorkTile) (i : Nat) (hi : i < tiles.length) :
    volume_sum (tiles.take (i + 1)) =
      volume_sum (tiles.take i) + (tiles.getD i default).volume := by
  rw [List.take_succ, volume_sum_append]
  simp [volume_sum, List.getD, List.getElem?_eq_getElem hi]

theorem volume_sum_nonneg (tiles : List KernelWorkTile) (h : ∀ t ∈ tiles, 0 ≤ t.volume) :
    0 ≤ volume_sum tiles := by
  unfold volume_sum
  apply List.sum_nonneg
  intro x hx
  obtain ⟨t, ht, rfl⟩ := List.mem_map.1 hx
  exact h t ht

/-! ### Compaction launches -/

theorem compute_queued_paths_eq (K : DeviceKernelEnum) (E : Environment W)
    (max_num_paths : Int) (st : PathTraceWorkGPU W) (kernel : Nat) (queued_kernel : Int) :
    ∃ new world qsize nsize,
      compute_queued_paths K E max_num_paths st kernel queued_kernel =
        { st with world := world, queued_paths_size := qsize, num_queued_paths_size := nsize,
                  trace := st.trace ++ new } ∧
      tiles_returned new = [] ∧ camera_launches new = [] ∧ dchecks new = [] ∧
      dispatched new = [] ∧ sync_results new = [] := by
  unfold compute_queued_paths
  simp only [queue_enqueue, emit]
  split_ifs <;> simp only [List.append_assoc] <;>
    exact ⟨_, _, _, _, rfl, rfl, rfl, rfl, rfl, rfl⟩

/-! ### Tile initialization -/

theorem copy_work_tiles_apply (tiles : List KernelWorkTile) (data : Nat → KernelWorkTile)
    (n j : Nat) :
    (List.range n).foldl (fun data i => Function.update data i (tiles.getD i default)) data j =
      if j < n then tiles.getD j default else data j := by
  induction n with
  | zero => simp
  | succ n ih =>
    rw [List.range_succ, List.foldl_append]
    simp only [List.foldl_cons, List.foldl_nil, Function.update_apply]
    by_cases hj : j = n
    · subst hj; simp
    · rw [if_neg hj, ih]
      by_cases hlt : j < n
      · rw [if_pos hlt, if_pos (by omega)]
      · rw [if_neg hlt, if_neg (by omega)]

/-- The events of the launch loop for the first `n` tiles of `tiles`, given the initial value of
`d_path_index`. -/
theorem launch_tiles_eq (E : Environment W) (max_num_paths : Int) (kernel : Nat)
    (tiles : List KernelWorkTile) (st : PathTraceWorkGPU W) (d_path_index : Option Int)
    (hdata : ∀ i, i < tiles.length → st.work_tiles_data i = tiles.getD i default)
    (n : Nat) (hn : n ≤ tiles.length) :
    ∃ world,
      (List.range n).foldl (launch_tile E max_num_paths kernel)
          { st := st, num_paths := 0, d_work_tile := 0, d_path_index := d_path_index } =
        { st := { st with
            world := world,
            trace := st.trace ++ (List.range n).flatMap (fun i =>
              [Event.enqueue kernel (tiles.getD i default).volume
                (KernelArgs.init_from_camera
                  (d_path_index.map (fun p => p + volume_sum (tiles.take i))) i
                  (tiles.getD i default) (tiles.getD i default).volume
                  (volume_sum (tiles.take i))),
               Event.dcheck_le (volume_sum (tiles.take (i + 1))) max_num_paths]) },
          num_paths := volume_sum (tiles.take n),
          d_work_tile := n,
          d_path_index := d_path_index.map (fun p => p + volume_sum (tiles.take n)) } := by
  induction n with
  | zero =>
    refine ⟨st.world, ?_⟩
    cases d_path_index <;> simp [volume_sum]
  | succ n ih =>
    obtain ⟨world, hw⟩ := ih (by omega)
    rw [List.range_succ, List.foldl_append, hw]
    simp only [List.foldl_cons, List.foldl_nil, List.flatMap_append, List.flatMap_cons, List.flatMap_nil,
      List.append_nil]
    refine ⟨E.enqueue world kernel (tiles.getD n default).volume
      (KernelArgs.init_from_camera
        (d_path_index.map (fun p => p + volume_sum (tiles.take n))) n
        (tiles.getD n default) (tiles.getD n default).volume (volume_sum (tiles.take n))), ?_⟩
    have hv := volume_sum_take_succ tiles n (by omega)
    unfold launch_tile
    simp only [queue_enqueue, emit, hdata n (by omega), List.append_assoc]
    simp only [KernelWorkTile.volume] at hv ⊢
    cases d_path_index <;> simp [add_assoc, hv]

theorem launch_events_observed (max_num_paths : Int) (kernel : Nat)
    (tiles : List KernelWorkTile) (d_path_index : Option Int) (n : Nat) (hn : n ≤ tiles.length) :
    tiles_returned ((List.range n).flatMap (fun i =>
        [Event.enqueue kernel (tiles.getD i default).volume
          (KernelArgs.init_from_camera
            (d_path_index.map (fun p => p + volume_sum (tiles.take i))) i
            (tiles.getD i default) (tiles.getD i default).volume
            (volume_sum (tiles.take i))),
         Event.dcheck_le (volume_sum (tiles.take (i + 1))) max_num_paths])) = [] ∧
    camera_launches ((List.range n).flatMap (fun i =>
        [Event.enqueue kernel (tiles.getD i default).volume
          (KernelArgs.init_from_camera
            (d_path_index.map (fun p => p + volume_sum (tiles.take i))) i
            (tiles.getD i default) (tiles.getD i default).volume
            (volume_sum (tiles.take i))),
         Event.dcheck_le (volume_sum (tiles.take (i + 1))) max_num_paths])) =
      (tiles.take n).map (fun t => (kernel, t, t.volume)) ∧
    dchecks ((List.range n).flatMap (fun i =>
        [Event.enqueue kernel (tiles.getD i default).volume
          (KernelArgs.init_from_camera
            (d_path_index.map (fun p => p + volume_sum (tiles.take i))) i
            (tiles.getD i default) (tiles.getD i default).volume
            (volume_sum (tiles.take i))),
         Event.dcheck_le (volume_sum (tiles.take (i + 1))) max_num_paths])) =
      (List.range n).map (fun i => (volume_sum (tiles.take (i + 1)), max_num_paths)) ∧
    dispatched ((List.range n).flatMap (fun i =>
        [Event.enqueue kernel (tiles.getD i default).volume
          (KernelArgs.init_from_camera
            (d_path_index.map (fun p => p + volume_sum (tiles.take i))) i
            (tiles.getD i default) (tiles.getD i default).volume
            (volume_sum (tiles.take i))),
         Event.dcheck_le (volume_sum (tiles.take (i + 1))) max_num_paths])) = [] ∧
    sync_results ((List.range n).flatMap (fun i =>
        [Event.enqueue kernel (tiles.getD i default).volume
          (KernelArgs.init_from_camera
            (d_path_index.map (fun p => p + volume_sum (tiles.take i))) i
            (tiles.getD i default) (tiles.getD i default).volume
            (volume_sum (tiles.take i))),
         Event.dcheck_le (volume_sum (tiles.take (i + 1))) max_num_paths])) = [] := by
  induction n with
  | zero => simp [tiles_returned, camera_launches, dchecks, dispatched, sync_results]
  | succ n ih =>
    obtain ⟨h1, h2, h3, h4, h5⟩ := ih (by omega)
    have hget : tiles.getD n default = tiles[n] := by
      simp [List.getD, List.getElem?_eq_getElem (show n < tiles.length by omega)]
    rw [List.range_succ, List.flatMap_append, tiles_returned_append, camera_launches_append,
      dchecks_append, dispatched_append, sync_results_append, h1, h2, h3, h4, h5]
    have htake : tiles.take (n + 1) = tiles.take n ++ [tiles[n]] := by
      rw [List.take_succ]; simp [List.getElem?_eq_getElem (show n < tiles.length by omega)]
    simp only [List.flatMap_cons, List.flatMap_nil, List.append_nil, tiles_returned,
      camera_launches, dchecks, dispatched, sync_results, List.map_append, List.map_cons,
      List.map_nil, List.singleton_append, hget]
    refine ⟨trivial, ?_, trivial, trivial, trivial⟩
    rw [htake, List.map_append, List.map_cons, List.map_nil]

theorem copy_work_tiles_eq (st : PathTraceWorkGPU W) (tiles : List KernelWorkTile) :
    ∃ new size data,
      copy_work_tiles st tiles tiles.length =
        { st with work_tiles_size := size, work_tiles_data := data, trace := st.trace ++ new } ∧
      (∀ i, i < tiles.length → data i = tiles.getD i default) ∧
      tiles_returned new = [] ∧ camera_launches new = [] ∧ dchecks new = [] ∧
      dispatched new = [] ∧ sync_results new = [] := by
  unfold copy_work_tiles
  simp only [emit]
  split_ifs <;> (try simp only [List.append_assoc]) <;>
    exact ⟨_, _, _, rfl, fun i hi => by rw [copy_work_tiles_apply, if_pos hi], rfl, rfl, rfl,
      rfl, rfl⟩

/-- What `enqueue_work_tiles(DeviceKernel, ...)` does with the tiles it is given: every tile is
launched once, in order, with its volume as batch size; the assertion is evaluated on the running
sums of the volumes; the high-water mark advances by the total volume, capped at capacity. -/
theorem enqueue_work_tiles_kernel_spec (K : DeviceKernelEnum) (E : Environment W)
    (max_num_paths : Int) (st : PathTraceWorkGPU W) (kernel : Nat)
    (tiles : List KernelWorkTile) :
    (∃ new,
      (enqueue_work_tiles_kernel K E max_num_paths st kernel tiles tiles.length).trace =
        st.trace ++ new ∧
      tiles_returned new = [] ∧
      camera_launches new = tiles.map (fun t => (kernel, t, t.volume)) ∧
      dchecks new = (List.range tiles.length).map
        (fun i => (volume_sum (tiles.take (i + 1)), max_num_paths)) ∧
      dispatched new = [] ∧ sync_results new = []) ∧
    (enqueue_work_tiles_kernel K E max_num_paths st kernel tiles tiles.length
      ).max_active_path_index_ =
        min (st.max_active_path_index_ + volume_sum tiles) max_num_paths ∧
    (enqueue_work_tiles_kernel K E max_num_paths st kernel tiles tiles.length).num_queued =
      st.num_queued ∧
    (enqueue_work_tiles_kernel K E max_num_paths st kernel tiles tiles.length).aborted =
      st.aborted := by
  obtain ⟨new1, size, data, h1, hdata, ho1, ho2, ho3, ho4, ho5⟩ := copy_work_tiles_eq st tiles
  have hmax : (copy_work_tiles st tiles tiles.length).max_active_path_index_ =
      st.max_active_path_index_ := by rw [h1]
  unfold enqueue_work_tiles_kernel
  simp only [hmax]
  by_cases hc : st.max_active_path_index_ ≠ 0
  · have hd : decide (st.max_active_path_index_ ≠ 0) = true := decide_eq_true hc
    simp only [hd, if_true]
    obtain ⟨new2, world, qsize, nsize, h2, hp1, hp2, hp3, hp4, hp5⟩ := compute_queued_paths_eq K E
      max_num_paths (copy_work_tiles st tiles tiles.length) K.INTEGRATOR_TERMINATED_PATHS_ARRAY 0
    obtain ⟨world', h3⟩ := launch_tiles_eq E max_num_paths kernel tiles
      (compute_queued_paths K E max_num_paths (copy_work_tiles st tiles tiles.length)
        K.INTEGRATOR_TERMINATED_PATHS_ARRAY 0) (some 0)
      (by rw [h2, h1]; exact hdata) tiles.length le_rfl
    rw [h3, h2, h1]
    obtain ⟨hl1, hl2, hl3, hl4, hl5⟩ := launch_events_observed max_num_paths kernel tiles (some 0)
      tiles.length le_rfl
    refine ⟨⟨_, by simp only [List.append_assoc]; rfl, ?_, ?_, ?_, ?_, ?_⟩, ?_, rfl, rfl⟩
    · simp only [tiles_returned_append, ho1, hp1, hl1, List.append_nil]
    · simp only [camera_launches_append, ho2, hp2, hl2, List.nil_append, List.take_length]
    · simp only [dchecks_append, ho3, hp3, hl3, List.nil_append]
    · simp only [dispatched_append, ho4, hp4, hl4, List.append_nil]
    · simp only [sync_results_append, ho5, hp5, hl5, List.append_nil]
    · simp only [List.take_length]
  · have hd : decide (st.max_active_path_index_ ≠ 0) = false := decide_eq_false hc
    simp only [hd, Bool.false_eq_true, if_false]
    obtain ⟨world', h3⟩ := launch_tiles_eq E max_num_paths kernel tiles
      (copy_work_tiles st tiles tiles.length) none (by rw [h1]; exact hdata) tiles.length le_rfl
    rw [h3, h1]
    obtain ⟨hl1, hl2, hl3, hl4, hl5⟩ := launch_events_observed max_num_paths kernel tiles none
      tiles.length le_rfl
    refine ⟨⟨_, by simp only [List.append_assoc]; rfl, ?_, ?_, ?_, ?_, ?_⟩, ?_, rfl, rfl⟩
    · simp only [tiles_returned_append, ho1, hl1, List.append_nil]
    · simp only [camera_launches_append, ho2, hl2, List.nil_append, List.take_length]
    · simp only [dchecks_append, ho3, hl3, List.nil_append]
    · simp only [dispatched_append, ho4, hl4, List.append_nil]
    · simp only [sync_results_append, ho5, hl5, List.append_nil]
    · simp only [List.take_length]

/-! ### Gathering tiles -/

/-- What the gathering loop leaves behind: only `get_work` calls are made, the tiles handed out
are appended to `work_tiles` and their volumes are added to `num_paths`. -/
theorem gather_work_tiles_spec (E : Environment W) (max_num_paths : Int) :
    ∀ (fuel : Nat) (g g' : GatherTiles W), gather_work_tiles E max_num_paths fuel g = some g' →
      ∃ new,
        g'.st = { g.st with world := g'.st.world, trace := g.st.trace ++ new } ∧
        g'.work_tiles = g.work_tiles ++ tiles_returned new ∧
        g'.num_paths = g.num_paths + volume_sum (tiles_returned new) ∧
        camera_launches new = [] ∧ dchecks new = [] ∧ dispatched new = [] ∧
        sync_results new = [] ∧
        (g.num_paths < max_num_paths →
          (tiles_returned new = [] ↔
            (E.get_work g.st.world (max_num_paths - g.num_paths)).1 = none)) ∧
        (¬ g.num_paths < max_num_paths → new = []) ∧
        (E.TilesFit → g.num_paths ≤ max_num_paths → g'.num_paths ≤ max_num_paths) ∧
        (E.NonnegTiles → ∀ t ∈ tiles_returned new, 0 ≤ t.volume) := by
  intro fuel
  induction fuel with
  | zero =>
    intro g g' h
    unfold gather_work_tiles at h
    split_ifs at h with hlt
    cases h
    exact ⟨[], by simp, by simp [tiles_returned], by simp [tiles_returned, volume_sum], rfl, rfl,
      rfl, rfl, fun h => absurd h hlt, fun _ => rfl, fun _ h => h, fun _ t ht => by
        simp [tiles_returned] at ht⟩
  | succ fuel ih =>
    intro g g' h
    unfold gather_work_tiles at h
    split_ifs at h with hlt
    · rcases hgw : E.get_work g.st.world (max_num_paths - g.num_paths) with ⟨_ | t, w⟩
      · rw [hgw] at h
        cases h
        exact ⟨[Event.get_work (max_num_paths - g.num_paths) none], rfl,
          by simp [tiles_returned], by simp [tiles_returned, volume_sum], rfl, rfl, rfl, rfl,
          fun _ => by simp [tiles_returned], fun h => absurd hlt h, fun _ h => h,
          fun _ t ht => by simp [tiles_returned] at ht⟩
      · rw [hgw] at h
        obtain ⟨new, h1, h2, h3, h4, h5, h6, h6', -, -, h9, h10⟩ := ih _ _ h
        refine ⟨Event.get_work (max_num_paths - g.num_paths) (some t) :: new, ?_, ?_, ?_, ?_, ?_,
          ?_, ?_, ?_, ?_, ?_, ?_⟩
        · rw [h1]; simp
        · rw [h2]; simp [tiles_returned]
        · rw [h3]; simp [tiles_returned, volume_sum, KernelWorkTile.volume]; ring
        · simpa [camera_launches] using h4
        · simpa [dchecks] using h5
        · simpa [dispatched] using h6
        · simpa [sync_results] using h6'
        · intro _; simp [tiles_returned]
        · intro h; exact absurd hlt h
        · intro hfit hle
          apply h9 hfit
          have := (hfit _ _ _ _ hgw).2
          simp only [KernelWorkTile.volume] at this ⊢
          omega
        · intro hnn t' ht'
          simp only [tiles_returned, List.mem_cons] at ht'
          rcases ht' with rfl | ht'
          · exact hnn _ _ _ _ hgw
          · exact h10 hnn t' ht'
    · cases h
      exact ⟨[], by simp, by simp [tiles_returned], by simp [tiles_returned, volume_sum], rfl,
        rfl, rfl, rfl, fun h => absurd h hlt, fun _ => rfl, fun _ h => h, fun _ t ht => by
          simp [tiles_returned] at ht⟩

/-- With a scheduler that makes progress, the gathering loop ends within
`max_num_paths - num_paths` successful calls of `get_work`. -/
theorem gather_work_tiles_terminates (E : Environment W) (max_num_paths : Int)
    (hprog : E.Progress) :
    ∀ (fuel : Nat) (g : GatherTiles W), (max_num_paths - g.num_paths).toNat ≤ fuel →
      ∃ g', gather_work_tiles E max_num_paths fuel g = some g' := by
  intro fuel
  induction fuel with
  | zero =>
    intro g hf
    unfold gather_work_tiles
    rw [if_neg (by omega)]
    exact ⟨g, rfl⟩
  | succ fuel ih =>
    intro g hf
    unfold gather_work_tiles
    split_ifs with hlt
    · rcases hgw : E.get_work g.st.world (max_num_paths - g.num_paths) with ⟨_ | t, w⟩
      · exact ⟨_, rfl⟩
      · have := hprog _ _ _ _ hgw
        simp only [KernelWorkTile.volume] at this
        exact ih _ (by simp only []; omega)
    · exact ⟨g, rfl⟩

/-! ### The producer `enqueue_work_tiles(bool &finished)` -/

/-- What `enqueue_work_tiles(finished)` does when cancellation is not requested: it gathers
tiles with `get_work` (events `new`) and, when it got any, hands exactly them to
`enqueue_work_tiles(DEVICE_KERNEL_INTEGRATOR_INIT_FROM_CAMERA, ...)`. -/
theorem enqueue_work_tiles_spec (K : DeviceKernelEnum) (E : Environment W) (max_num_paths : Int)
    (fuel : Nat) (st : PathTraceWorkGPU W) (finished : Bool) (r : WorkTilesResult W)
    (hcancel : E.is_cancel_requested st.world = false)
    (h : enqueue_work_tiles K E max_num_paths fuel st finished = some r) :
    ∃ new world,
      camera_launches new = [] ∧ dchecks new = [] ∧ dispatched new = [] ∧
      sync_results new = [] ∧
      (r.finished = true ↔ tiles_returned new = [] ∧ get_num_active_paths K st = 0) ∧
      r.enqueued = decide (tiles_returned new ≠ []) ∧
      r.st =
        (if tiles_returned new = [] then
          { st with
            world := world,
            max_active_path_index_ :=
              if get_num_active_paths K st = 0 then 0 else st.max_active_path_index_,
            trace := st.trace ++ new }
        else
          enqueue_work_tiles_kernel K E max_num_paths
            { st with
              world := world,
              max_active_path_index_ :=
                if get_num_active_paths K st = 0 then 0 else st.max_active_path_index_,
              trace := st.trace ++ new }
            K.INTEGRATOR_INIT_FROM_CAMERA (tiles_returned new) (tiles_returned new).length) ∧
      ((get_num_active_paths K st = 0 ∨
          below_threshold regenerate_threshold (get_num_active_paths K st) max_num_paths = true) →
        get_num_active_paths K st < max_num_paths →
        (tiles_returned new = [] ↔
          (E.get_work st.world (max_num_paths - get_num_active_paths K st)).1 = none)) ∧
      (¬ (get_num_active_paths K st = 0 ∨
          below_threshold regenerate_threshold (get_num_active_paths K st) max_num_paths = true) →
        new = []) ∧
      (¬ get_num_active_paths K st < max_num_paths → new = []) ∧
      (E.TilesFit → get_num_active_paths K st ≤ max_num_paths →
        get_num_active_paths K st + volume_sum (tiles_returned new) ≤ max_num_paths) ∧
      (E.NonnegTiles → ∀ t ∈ tiles_returned new, 0 ≤ t.volume) := by
  have hst' : (if get_num_active_paths K st = 0 then { st with max_active_path_index_ := 0 }
      else st) = { st with max_active_path_index_ :=
        if get_num_active_paths K st = 0 then 0 else st.max_active_path_index_ } := by
    split_ifs <;> rfl
  unfold enqueue_work_tiles at h
  simp only [hst', hcancel, Bool.false_eq_true, if_false] at h
  generalize (if get_num_active_paths K st = 0 then 0 else st.max_active_path_index_) = mx
    at h ⊢
  by_cases hcond : get_num_active_paths K st = 0 ∨
      below_threshold regenerate_threshold (get_num_active_paths K st) max_num_paths = true
  · rw [if_pos hcond] at h
    rcases hg : gather_work_tiles E max_num_paths fuel
        { st := { st with max_active_path_index_ := mx },
          num_paths := get_num_active_paths K st, work_tiles := [] } with _ | g
    · rw [hg] at h; cases h
    · rw [hg] at h
      dsimp only at h
      obtain ⟨new, h1, h2, h3, h4, h5, h6, h6', h7, h8, h9, h10⟩ :=
        gather_work_tiles_spec E max_num_paths fuel _ _ hg
      simp only [List.nil_append] at h2 h3 h1 h7 h8 h9
      refine ⟨new, g.st.world, h4, h5, h6, h6', ?_, ?_, ?_, fun _ hlt => h7 hlt,
        fun hn => absurd hcond hn, h8, fun hfit hle => by rw [← h3]; exact h9 hfit hle, h10⟩
      · split_ifs at h with hfin
        · cases h
          rw [h2] at hfin
          simp only [List.length_eq_zero] at hfin
          have : get_num_active_paths K st = 0 := by
            have := hfin.2; rw [h3, hfin.1] at this; simpa [volume_sum] using this
          simp [hfin.1, this]
        · cases h
          unfold initialize_paths
          rw [h2, h3] at hfin
          simp only [List.length_eq_zero] at hfin
          split_ifs with hl
          · simp only [Bool.false_eq_true, false_iff, not_and]
            intro ht hz
            exact hfin ⟨ht, by rw [ht, hz]; simp [volume_sum]⟩
          · rw [h2, List.length_eq_zero] at hl
            simp [hl]
      · split_ifs at h with hfin
        · cases h
          rw [h2, List.length_eq_zero] at hfin
          simp [hfin.1]
        · cases h
          unfold initialize_paths
          split_ifs with hl
          · rw [h2, List.length_eq_zero] at hl
            simp [hl]
          · rw [h2, List.length_eq_zero] at hl
            simp [hl]
      · split_ifs at h with hfin
        · cases h
          rw [h2, List.length_eq_zero] at hfin
          rw [if_pos hfin.1]
          exact h1
        · cases h
          unfold initialize_paths
          split_ifs with hl hl' hl'
          · exact h1
          · rw [h2, List.length_eq_zero] at hl; exact absurd hl hl'
          · rw [h2, List.length_eq_zero] at hl; exact absurd hl' hl
          · simp only []
            rw [h2, ← h1]
  · rw [if_neg hcond] at h
    simp only [Option.some.injEq] at h
    subst h
    refine ⟨[], st.world, rfl, rfl, rfl, rfl, ?_, ?_, ?_, fun hc => absurd hc hcond,
      fun _ => rfl, fun _ => rfl, fun _ hle => by simpa [tiles_returned, volume_sum] using hle,
      fun _ t ht => by simp [tiles_returned] at ht⟩
    · simp only [initialize_paths, List.length_nil, if_true, Bool.false_eq_true, tiles_returned,
        true_and, false_iff]
      intro hz; exact hcond (Or.inl hz)
    · simp [initialize_paths, tiles_returned]
    · simp [initialize_paths, tiles_returned]

/-- When cancellation is requested `enqueue_work_tiles(finished)` returns at once. -/
theorem enqueue_work_tiles_of_cancel (K : DeviceKernelEnum) (E : Environment W)
    (max_num_paths : Int) (fuel : Nat) (st : PathTraceWorkGPU W) (finished : Bool)
    (hcancel : E.is_cancel_requested st.world = true) :
    enqueue_work_tiles K E max_num_paths fuel st finished =
      some { enqueued := false,
             finished := if get_num_active_paths K st = 0 then true else finished,
             st := { st with max_active_path_index_ :=
               if get_num_active_paths K st = 0 then 0 else st.max_active_path_index_ } } := by
  have hst' : (if get_num_active_paths K st = 0 then { st with max_active_path_index_ := 0 }
      else st) = { st with max_active_path_index_ :=
        if get_num_active_paths K st = 0 then 0 else st.max_active_path_index_ } := by
    split_ifs <;> rfl
  unfold enqueue_work_tiles
  simp only [hst', hcancel, if_true]

/-- With a scheduler that makes progress, `enqueue_work_tiles(finished)` returns. -/
theorem enqueue_work_tiles_terminates (K : DeviceKernelEnum) (E : Environment W)
    (max_num_paths : Int) (fuel : Nat) (st : PathTraceWorkGPU W) (finished : Bool)
    (hprog : E.Progress)
    (hfuel : (max_num_paths - get_num_active_paths K st).toNat ≤ fuel) :
    ∃ r, enqueue_work_tiles K E max_num_paths fuel st finished = some r := by
  have hst' : (if get_num_active_paths K st = 0 then { st with max_active_path_index_ := 0 }
      else st) = { st with max_active_path_index_ :=
        if get_num_active_paths K st = 0 then 0 else st.max_active_path_index_ } := by
    split_ifs <;> rfl
  unfold enqueue_work_tiles
  simp only [hst']
  generalize (if get_num_active_paths K st = 0 then 0 else st.max_active_path_index_) = mx
  by_cases hc : E.is_cancel_requested st.world = true
  · rw [if_pos hc]; exact ⟨_, rfl⟩
  · rw [if_neg hc]
    by_cases hcond : get_num_active_paths K st = 0 ∨
        below_threshold regenerate_threshold (get_num_active_paths K st) max_num_paths = true
    · rw [if_pos hcond]
      obtain ⟨g, hg⟩ := gather_work_tiles_terminates E max_num_paths hprog fuel
        { st := { st with max_active_path_index_ := mx },
          num_paths := get_num_active_paths K st, work_tiles := [] } hfuel
      rw [hg]
      dsimp only
      split_ifs <;> exact ⟨_, rfl⟩
    · rw [if_neg hcond]; exact ⟨_, rfl⟩

/-- C4: with the cancel flag clear, the camera-initialization launches of a call of
`enqueue_work_tiles(finished)` are exactly the tiles that `get_work` returned during the call,
each once, in the order returned, launched on `DEVICE_KERNEL_INTEGRATOR_INIT_FROM_CAMERA` with
batch size `w * h * num_samples`. With a scheduler that makes progress the call returns. -/
theorem enqueue_work_tiles_initializes_returned_tiles (K : DeviceKernelEnum)
    (E : Environment W) (max_num_paths : Int) (st : PathTraceWorkGPU W) (finished : Bool)
    (hcancel : E.is_cancel_requested st.world = false) :
    (∀ fuel r, enqueue_work_tiles K E max_num_paths fuel st finished = some r →
      ∃ new, r.st.trace = st.trace ++ new ∧
        camera_launches new = (tiles_returned new).map
          (fun t => (K.INTEGRATOR_INIT_FROM_CAMERA, t, t.w * t.h * t.num_samples))) ∧
    (E.Progress → ∀ fuel, (max_num_paths - get_num_active_paths K st).toNat ≤ fuel →
      ∃ r, enqueue_work_tiles K E max_num_paths fuel st finished = some r) := by
  refine ⟨fun fuel r h => ?_, fun hprog fuel hfuel =>
    enqueue_work_tiles_terminates K E max_num_paths fuel st finished hprog hfuel⟩
  obtain ⟨new, world, h1, -, -, -, -, -, hst, -⟩ :=
    enqueue_work_tiles_spec K E max_num_paths fuel st finished r hcancel h
  by_cases ht : tiles_returned new = []
  · rw [if_pos ht] at hst
    exact ⟨new, by rw [hst], by rw [h1, ht]; rfl⟩
  · rw [if_neg ht] at hst
    obtain ⟨⟨new2, h2, h3, h4, -⟩, -⟩ := enqueue_work_tiles_kernel_spec K E max_num_paths
      { st with
        world := world,
        max_active_path_index_ :=
          if get_num_active_paths K st = 0 then 0 else st.max_active_path_index_,
        trace := st.trace ++ new }
      K.INTEGRATOR_INIT_FROM_CAMERA (tiles_returned new)
    refine ⟨new ++ new2, by rw [hst, h2, List.append_assoc], ?_⟩
    rw [camera_launches_append, tiles_returned_append, h1, h3, h4, List.nil_append,
      List.append_nil]
    rfl

set_option maxHeartbeats 1000000 in
/-- Witness of C4: from an empty pool of capacity 100 the two sample tiles are handed out and
launched, in order, with batch sizes 6 and 8. -/
theorem enqueue_work_tiles_initializes_returned_tiles_witness :
    ∃ r, enqueue_work_tiles sampleKernels (sampleEnvironment sampleKernels) 100 10
        (sampleState ⟨sampleTiles, fun _ => 0, true, false⟩ (fun _ => 0) 0) false = some r ∧
      tiles_returned r.st.trace = sampleTiles ∧
      camera_launches r.st.trace =
        [(sampleKernels.INTEGRATOR_INIT_FROM_CAMERA, sampleTiles.getD 0 default, 6),
         (sampleKernels.INTEGRATOR_INIT_FROM_CAMERA, sampleTiles.getD 1 default, 8)] ∧
      ∃ new, r.st.trace =
          (sampleState ⟨sampleTiles, fun _ => 0, true, false⟩ (fun _ => 0) 0).trace ++ new ∧
        camera_launches new = (tiles_returned new).map
          (fun t => (sampleKernels.INTEGRATOR_INIT_FROM_CAMERA, t, t.w * t.h * t.num_samples)) :=
  ⟨_, rfl, by decide, by decide,
    (enqueue_work_tiles_initializes_returned_tiles sampleKernels
      (sampleEnvironment sampleKernels) 100
      (sampleState ⟨sampleTiles, fun _ => 0, true, false⟩ (fun _ => 0) 0) false rfl).1 10 _ rfl⟩

theorem volume_sum_take_le (tiles : List KernelWorkTile) (h : ∀ t ∈ tiles, 0 ≤ t.volume)
    (j : Nat) : volume_sum (tiles.take j) ≤ volume_sum tiles := by
  have hsplit : volume_sum tiles = volume_sum (tiles.take j) + volume_sum (tiles.drop j) := by
    rw [← volume_sum_append, List.take_append_drop]
  have := volume_sum_nonneg (tiles.drop j) (fun t ht => h t (List.mem_of_mem_drop ht))
  omega

theorem nonnegTiles_of_tilesFit {E : Environment W} (h : E.TilesFit) : E.NonnegTiles :=
  fun w n t w' hg => (h w n t w' hg).1

/-- C5: when every tile returned by `get_work(max_work_size)` has a volume between 0 and
`max_work_size`, the active path count plus the total volume of the tiles gathered in a call of
`enqueue_work_tiles(finished)` does not exceed the capacity (given that the active count itself
does not); the gathered tiles never need more slots than are free, and every
`DCHECK_LE(num_paths, get_max_num_paths())` of tile initialization holds. With a scheduler that
makes progress the call returns. -/
theorem enqueue_work_tiles_within_capacity (K : DeviceKernelEnum) (E : Environment W)
    (max_num_paths : Int) (st : PathTraceWorkGPU W) (finished : Bool) (hfit : E.TilesFit)
    (hcap : 0 ≤ max_num_paths) (hactive : 0 ≤ get_num_active_paths K st) :
    (∀ fuel r, enqueue_work_tiles K E max_num_paths fuel st finished = some r →
      ∃ new, r.st.trace = st.trace ++ new ∧
        (get_num_active_paths K st ≤ max_num_paths →
          get_num_active_paths K st + volume_sum (tiles_returned new) ≤ max_num_paths) ∧
        volume_sum (tiles_returned new) ≤ max 0 (max_num_paths - get_num_active_paths K st) ∧
        ∀ p ∈ dchecks new, p.1 ≤ p.2) ∧
    (E.Progress → ∀ fuel, (max_num_paths - get_num_active_paths K st).toNat ≤ fuel →
      ∃ r, enqueue_work_tiles K E max_num_paths fuel st finished = some r) := by
  refine ⟨fun fuel r h => ?_, fun hprog fuel hfuel =>
    enqueue_work_tiles_terminates K E max_num_paths fuel st finished hprog hfuel⟩
  by_cases hcancel : E.is_cancel_requested st.world = true
  · rw [enqueue_work_tiles_of_cancel K E max_num_paths fuel st finished hcancel] at h
    cases h
    refine ⟨[], by simp, fun hle => by simpa [tiles_returned, volume_sum] using hle, ?_, ?_⟩
    · simp [tiles_returned, volume_sum]
    · simp [dchecks]
  · obtain ⟨new, world, -, h2, -, -, -, -, hst, -, -, hge, hfits, hnn⟩ :=
      enqueue_work_tiles_spec K E max_num_paths fuel st finished r (by simpa using hcancel) h
    have hnonneg := hnn (nonnegTiles_of_tilesFit hfit)
    have hfree : volume_sum (tiles_returned new) ≤
        max 0 (max_num_paths - get_num_active_paths K st) := by
      by_cases hlt : get_num_active_paths K st < max_num_paths
      · have := hfits hfit hlt.le
        exact le_max_of_le_right (by omega)
      · rw [hge hlt]
        simp [tiles_returned, volume_sum]
    by_cases ht : tiles_returned new = []
    · rw [if_pos ht] at hst
      exact ⟨new, by rw [hst], hfits hfit, hfree, by simp [h2]⟩
    · rw [if_neg ht] at hst
      obtain ⟨⟨new2, h3, h4, -, h5, -⟩, -⟩ := enqueue_work_tiles_kernel_spec K E max_num_paths
        { st with
          world := world,
          max_active_path_index_ :=
            if get_num_active_paths K st = 0 then 0 else st.max_active_path_index_,
          trace := st.trace ++ new }
        K.INTEGRATOR_INIT_FROM_CAMERA (tiles_returned new)
      refine ⟨new ++ new2, by rw [hst, h3, List.append_assoc], ?_, ?_, ?_⟩
      · rw [tiles_returned_append, h4, List.append_nil]; exact hfits hfit
      · rw [tiles_returned_append, h4, List.append_nil]; exact hfree
      · intro p hp
        rw [dchecks_append, h2, h5, List.nil_append] at hp
        obtain ⟨i, -, rfl⟩ := List.mem_map.1 hp
        have h6 := volume_sum_take_le (tiles_returned new) hnonneg (i + 1)
        have h7 : max 0 (max_num_paths - get_num_active_paths K st) ≤ max_num_paths :=
          max_le hcap (by omega)
        simp only
        omega

/-- C6: with the cancel flag clear (and a positive capacity), `enqueue_work_tiles(finished)`
sets `finished` to true if and only if the active path count is zero and `get_work` returns no
tile; otherwise it sets it to false. With a scheduler that makes progress the call returns. -/
theorem enqueue_work_tiles_finished_iff (K : DeviceKernelEnum) (E : Environment W)
    (max_num_paths : Int) (st : PathTraceWorkGPU W) (finished : Bool)
    (hcancel : E.is_cancel_requested st.world = false) (hcap : 0 < max_num_paths) :
    (∀ fuel r, enqueue_work_tiles K E max_num_paths fuel st finished = some r →
      (r.finished = true ↔
        get_num_active_paths K st = 0 ∧ (E.get_work st.world max_num_paths).1 = none) ∧
      (r.finished = false ↔
        ¬ (get_num_active_paths K st = 0 ∧ (E.get_work st.world max_num_paths).1 = none))) ∧
    (E.Progress → ∀ fuel, (max_num_paths - get_num_active_paths K st).toNat ≤ fuel →
      ∃ r, enqueue_work_tiles K E max_num_paths fuel st finished = some r) := by
  refine ⟨fun fuel r h => ?_, fun hprog fuel hfuel =>
    enqueue_work_tiles_terminates K E max_num_paths fuel st finished hprog hfuel⟩
  obtain ⟨new, world, -, -, -, -, hfin, -, -, hfirst, -⟩ :=
    enqueue_work_tiles_spec K E max_num_paths fuel st finished r hcancel h
  have key : r.finished = true ↔
      get_num_active_paths K st = 0 ∧ (E.get_work st.world max_num_paths).1 = none := by
    rw [hfin]
    constructor
    · rintro ⟨ht, hz⟩
      have := (hfirst (Or.inl hz) (by omega)).1 ht
      rw [hz, sub_zero] at this
      exact ⟨hz, this⟩
    · rintro ⟨hz, hg⟩
      refine ⟨(hfirst (Or.inl hz) (by omega)).2 ?_, hz⟩
      rw [hz, sub_zero]; exact hg
  refine ⟨key, ?_⟩
  rw [← key]
  cases r.finished <;> simp

/-- C7: if the cancel flag is set and no path is active when `render_samples` runs, it resets
the tile scheduler and returns; `get_work` is not called and no kernel is enqueued. -/
theorem render_samples_of_cancel (K : DeviceKernelEnum) (E : Environment W)
    (max_num_paths : Int) (tile_fuel : Nat) (uninit : Nat → Bool) (fuel : Nat)
    (st : PathTraceWorkGPU W) (start_sample samples_num : Int)
    (hcancel : E.is_cancel_requested (E.reset st.world start_sample samples_num) = true)
    (hactive : get_num_active_paths K st = 0) :
    render_samples K E max_num_paths tile_fuel uninit (fuel + 1) st start_sample samples_num =
      some { st with
        world := E.reset st.world start_sample samples_num,
        max_active_path_index_ := 0,
        trace := st.trace ++ [Event.scheduler_reset start_sample samples_num] } := by
  unfold render_samples render_loop
  rw [enqueue_work_tiles_of_cancel K E max_num_paths tile_fuel _ _ hcancel]
  have : get_num_active_paths K { st with
      world := E.reset st.world start_sample samples_num,
      trace := st.trace ++ [Event.scheduler_reset start_sample samples_num] } = 0 := hactive
  simp [this]

/-- C8: when the cancel flag is set, `enqueue_work_tiles(finished)` returns false whatever the
active path count; it calls nothing (the trace is unchanged), so `get_work` is not called, no
kernel is enqueued and the world, with the scheduler's cursor, is as before. -/
theorem enqueue_work_tiles_cancelled (K : DeviceKernelEnum) (E : Environment W)
    (max_num_paths : Int) (fuel : Nat) (st : PathTraceWorkGPU W) (finished : Bool)
    (hcancel : E.is_cancel_requested st.world = true) :
    ∃ r, enqueue_work_tiles K E max_num_paths fuel st finished = some r ∧
      r.enqueued = false ∧ r.st.trace = st.trace ∧ r.st.world = st.world := by
  rw [enqueue_work_tiles_of_cancel K E max_num_paths fuel st finished hcancel]
  exact ⟨_, rfl, rfl, rfl, rfl⟩

/-! ### The sample environment keeps the scheduler's contract -/

theorem sampleEnvironment_get_work (K : DeviceKernelEnum) (w : SampleWorld) (n : Int)
    (t : KernelWorkTile) (w' : SampleWorld)
    (h : (sampleEnvironment K).get_work w n = (some t, w')) : 1 ≤ t.volume ∧ t.volume ≤ n := by
  unfold sampleEnvironment at h
  simp only at h
  split at h
  · simp at h
  · split_ifs at h with hc
    · simp only [Prod.mk.injEq, Option.some.injEq] at h
      rw [← h.1]; exact hc
    · simp at h

theorem sampleEnvironment_tilesFit (K : DeviceKernelEnum) : (sampleEnvironment K).TilesFit :=
  fun w n t w' h => ⟨by have := (sampleEnvironment_get_work K w n t w' h).1; omega,
    (sampleEnvironment_get_work K w n t w' h).2⟩

theorem sampleEnvironment_progress (K : DeviceKernelEnum) : (sampleEnvironment K).Progress :=
  fun w n t w' h => (sampleEnvironment_get_work K w n t w' h).1

set_option maxHeartbeats 1000000 in
/-- Witness of C5: 90 active paths in a pool of capacity 1000; both sample tiles (volumes 6 and
8) are gathered, 90 + 14 stays within the capacity and both assertions hold. -/
theorem enqueue_work_tiles_within_capacity_witness :
    ∃ r, enqueue_work_tiles sampleKernels (sampleEnvironment sampleKernels) 1000 10
        (sampleState ⟨sampleTiles, fun _ => 0, true, false⟩ (countersOf [0, 90]) 90) false =
          some r ∧
      dchecks r.st.trace = [(6, 1000), (14, 1000)] ∧
      ∃ new, r.st.trace =
          (sampleState ⟨sampleTiles, fun _ => 0, true, false⟩ (countersOf [0, 90]) 90).trace ++
            new ∧
        (get_num_active_paths sampleKernels
            (sampleState ⟨sampleTiles, fun _ => 0, true, false⟩ (countersOf [0, 90]) 90) ≤ 1000 →
          get_num_active_paths sampleKernels
            (sampleState ⟨sampleTiles, fun _ => 0, true, false⟩ (countersOf [0, 90]) 90) +
              volume_sum (tiles_returned new) ≤ 1000) ∧
        volume_sum (tiles_returned new) ≤ max 0 (1000 - get_num_active_paths sampleKernels
          (sampleState ⟨sampleTiles, fun _ => 0, true, false⟩ (countersOf [0, 90]) 90)) ∧
        ∀ p ∈ dchecks new, p.1 ≤ p.2 :=
  ⟨_, rfl, by decide,
    (enqueue_work_tiles_within_capacity sampleKernels (sampleEnvironment sampleKernels) 1000
      (sampleState ⟨sampleTiles, fun _ => 0, true, false⟩ (countersOf [0, 90]) 90) false
      (sampleEnvironment_tilesFit sampleKernels) (by decide) (by decide)).1 10 _ rfl⟩

/-- Witness of C6: with no active path and a scheduler that has no tile left, `finished` is set
to true. -/
theorem enqueue_work_tiles_finished_iff_witness :
    ∃ r, enqueue_work_tiles sampleKernels (sampleEnvironment sampleKernels) 1000 10
        (sampleState ⟨[], fun _ => 0, true, false⟩ (fun _ => 0) 0) false = some r ∧
      r.finished = true :=
  ⟨_, rfl, ((enqueue_work_tiles_finished_iff sampleKernels (sampleEnvironment sampleKernels) 1000
      (sampleState ⟨[], fun _ => 0, true, false⟩ (fun _ => 0) 0) false rfl (by decide)).1
      10 _ rfl).1.2 ⟨by decide, rfl⟩⟩

/-- Witness of C7: a cancelled `render_samples` with an empty pool only resets the scheduler,
although the scheduler still has tiles to hand out. -/
theorem render_samples_of_cancel_witness :
    (render_samples sampleKernels (sampleEnvironment sampleKernels) 1000 10 (fun _ => false) 5
        (sampleState ⟨sampleTiles, fun _ => 0, true, true⟩ (fun _ => 0) 0) 0 4).map
      (fun st => st.trace) = some [Event.scheduler_reset 0 4] := by
  rw [render_samples_of_cancel sampleKernels (sampleEnvironment sampleKernels) 1000 10
    (fun _ => false) 4 (sampleState ⟨sampleTiles, fun _ => 0, true, true⟩ (fun _ => 0) 0) 0 4
    rfl (by decide)]
  rfl

/-- Witness of C8: with the cancel flag set and 90 active paths nothing is requested or
enqueued, although the scheduler still has tiles to hand out. -/
theorem enqueue_work_tiles_cancelled_witness :
    ∃ r, enqueue_work_tiles sampleKernels (sampleEnvironment sampleKernels) 1000 10
        (sampleState ⟨sampleTiles, fun _ => 0, true, true⟩ (countersOf [0, 90]) 90) false =
          some r ∧
      r.enqueued = false ∧
      r.st.trace =
        (sampleState ⟨sampleTiles, fun _ => 0, true, true⟩ (countersOf [0, 90]) 90).trace ∧
      r.st.world =
        (sampleState ⟨sampleTiles, fun _ => 0, true, true⟩ (countersOf [0, 90]) 90).world :=
  enqueue_work_tiles_cancelled sampleKernels (sampleEnvironment sampleKernels) 1000 10
    (sampleState ⟨sampleTiles, fun _ => 0, true, true⟩ (countersOf [0, 90]) 90) false rfl

/-! ### Traces of the two enqueue steps contain no `synchronize` -/

theorem enqueue_path_iteration_kernel_eq (K : DeviceKernelEnum) (E : Environment W)
    (max_num_paths : Int) (st : PathTraceWorkGPU W) (kernel : Nat) :
    (∃ new, (enqueue_path_iteration_kernel K E max_num_paths st kernel).trace = st.trace ++ new ∧
      sync_results new = [] ∧ tiles_returned new = [] ∧ camera_launches new = []) ∧
    (enqueue_path_iteration_kernel K E max_num_paths st kernel).max_active_path_index_ =
      st.max_active_path_index_ ∧
    (enqueue_path_iteration_kernel K E max_num_paths st kernel).num_queued = st.num_queued := by
  unfold enqueue_path_iteration_kernel
  simp only [queue_enqueue, emit]
  generalize (if kernel = K.INTEGRATOR_MEGAKERNEL then K.INTEGRATOR_INTERSECT_CLOSEST
    else kernel) = queue_kernel
  generalize (if kernel = K.INTEGRATOR_INTERSECT_SHADOW ∨ kernel = K.INTEGRATOR_SHADE_SHADOW then
      K.INTEGRATOR_QUEUED_SHADOW_PATHS_ARRAY else K.INTEGRATOR_QUEUED_PATHS_ARRAY) = array_kernel
  obtain ⟨new, world, qsize, nsize, h, h1, h2, h3, h4, h5⟩ := compute_queued_paths_eq K E
    max_num_paths st array_kernel queue_kernel
  by_cases hc : st.num_queued queue_kernel < st.max_active_path_index_
  · simp only [hc, decide_True, if_true, h]
    split_ifs <;>
      exact ⟨⟨_, by simp only [List.append_assoc]; rfl,
        by simp [sync_results_append, h5, sync_results],
        by simp [tiles_returned_append, h1, tiles_returned],
        by simp [camera_launches_append, h2, camera_launches]⟩, rfl, rfl⟩
  · simp only [hc, decide_False, Bool.false_eq_true, if_false]
    split_ifs <;>
      exact ⟨⟨_, by simp only [List.append_assoc]; rfl, by simp [sync_results],
        by simp [tiles_returned], by simp [camera_launches]⟩, rfl, rfl⟩

theorem enqueue_path_iteration_eq (K : DeviceKernelEnum) (E : Environment W)
    (max_num_paths : Int) (st : PathTraceWorkGPU W) :
    (∃ new, (enqueue_path_iteration K E max_num_paths st).2.trace = st.trace ++ new ∧
      sync_results new = [] ∧ tiles_returned new = [] ∧ camera_launches new = []) ∧
    (enqueue_path_iteration K E max_num_paths st).2.max_active_path_index_ =
      st.max_active_path_index_ ∧
    (enqueue_path_iteration K E max_num_paths st).2.num_queued = st.num_queued := by
  unfold enqueue_path_iteration
  simp only []
  split_ifs
  · exact ⟨⟨[], by simp, rfl, rfl, rfl⟩, rfl, rfl⟩
  all_goals exact enqueue_path_iteration_kernel_eq K E max_num_paths st _

theorem enqueue_work_tiles_trace (K : DeviceKernelEnum) (E : Environment W)
    (max_num_paths : Int) (fuel : Nat) (st : PathTraceWorkGPU W) (finished : Bool)
    (r : WorkTilesResult W)
    (h : enqueue_work_tiles K E max_num_paths fuel st finished = some r) :
    ∃ new, r.st.trace = st.trace ++ new ∧ sync_results new = [] ∧ dispatched new = [] := by
  by_cases hcancel : E.is_cancel_requested st.world = true
  · rw [enqueue_work_tiles_of_cancel K E max_num_paths fuel st finished hcancel] at h
    cases h
    exact ⟨[], by simp, rfl, rfl⟩
  · obtain ⟨new, world, -, -, h3, h4, -, -, hst, -⟩ :=
      enqueue_work_tiles_spec K E max_num_paths fuel st finished r (by simpa using hcancel) h
    by_cases ht : tiles_returned new = []
    · rw [if_pos ht] at hst
      exact ⟨new, by rw [hst], h4, h3⟩
    · rw [if_neg ht] at hst
      obtain ⟨⟨new2, h5, -, -, -, h6, h7⟩, -⟩ := enqueue_work_tiles_kernel_spec K E max_num_paths
        { st with
          world := world,
          max_active_path_index_ :=
            if get_num_active_paths K st = 0 then 0 else st.max_active_path_index_,
          trace := st.trace ++ new }
        K.INTEGRATOR_INIT_FROM_CAMERA (tiles_returned new)
      exact ⟨new ++ new2, by rw [hst, h5, List.append_assoc],
        by rw [sync_results_append, h4, h7]; rfl, by rw [dispatched_append, h3, h6]; rfl⟩

/-! ### Nothing follows a failed `synchronize` -/

theorem not_mem_of_sync_results_nil (l : List Event) (h : sync_results l = []) (ok : Bool) :
    Event.synchronize ok ∉ l := by
  induction l with
  | nil => simp
  | cons e es ih =>
    cases e <;> simp_all [sync_results]

theorem StopsAtFailure.append {a b : List Event} (ha : Event.synchronize false ∉ a)
    (hb : StopsAtFailure b) : StopsAtFailure (a ++ b) := by
  intro pre post h
  rcases List.append_eq_append_iff.1 h with ⟨a', -, h2⟩ | ⟨c', h1, h2⟩
  · exact hb a' post h2
  · cases c' with
    | nil =>
      simp only [List.nil_append] at h2
      exact hb [] post h2.symm
    | cons c cs =>
      simp only [List.cons_append, List.cons.injEq] at h2
      rw [h1, ← h2.1] at ha
      simp at ha

theorem StopsAtFailure.nil : StopsAtFailure [] := by
  intro pre post h
  simp at h

theorem StopsAtFailure.singleton (e : Event) : StopsAtFailure [e] := by
  intro pre post h
  cases pre with
  | nil => simp only [List.nil_append, List.cons.injEq] at h; exact h.2.symm
  | cons p ps => simp at h

theorem queue_synchronize_trace (E : Environment W) (st : PathTraceWorkGPU W) :
    ∃ s, (queue_synchronize E st).2.trace = st.trace ++ s ∧
      ((queue_synchronize E st).1 = false → s = [Event.synchronize false]) ∧
      ((queue_synchronize E st).1 ≠ false → Event.synchronize false ∉ s) := by
  refine ⟨[Event.synchronize (queue_synchronize E st).1], rfl, fun h => by rw [h], fun h => ?_⟩
  simp only [List.mem_singleton, Event.synchronize.injEq]
  exact fun h' => h h'.symm

theorem render_loop_stops_at_failure (K : DeviceKernelEnum) (E : Environment W)
    (max_num_paths : Int) (tile_fuel : Nat) (uninit : Nat → Bool) :
    ∀ (fuel : Nat) (st st' : PathTraceWorkGPU W),
      render_loop K E max_num_paths tile_fuel uninit fuel st = some st' →
      ∃ new, st'.trace = st.trace ++ new ∧ StopsAtFailure new := by
  intro fuel
  induction fuel with
  | zero => intro st st' h; simp [render_loop] at h
  | succ fuel ih =>
    intro st st' h
    unfold render_loop at h
    rcases hr : enqueue_work_tiles K E max_num_paths tile_fuel st (uninit fuel) with _ | r
    · rw [hr] at h; simp at h
    rw [hr] at h
    simp only [] at h
    obtain ⟨A, hA, hAs, -⟩ := enqueue_work_tiles_trace K E max_num_paths tile_fuel st _ r hr
    have hA' := not_mem_of_sync_results_nil A hAs false
    -- the synchronize after tile initialization
    obtain ⟨s1, hs1⟩ : ∃ s1, s1 = (if r.enqueued = true then queue_synchronize E r.st
      else (true, r.st)) := ⟨_, rfl⟩
    rw [← hs1] at h
    have hs1t : ∃ S, s1.2.trace = r.st.trace ++ S ∧
        (s1.1 = false → S = [Event.synchronize false]) ∧
        (s1.1 ≠ false → Event.synchronize false ∉ S) := by
      rw [hs1]
      split_ifs
      · exact queue_synchronize_trace E r.st
      · exact ⟨[], by simp, fun h => by simp at h, fun _ => by simp⟩
    obtain ⟨S1, hS1, hS1f, hS1t⟩ := hs1t
    by_cases hf1 : s1.1 = false
    · rw [if_pos hf1] at h
      cases h
      refine ⟨A ++ S1, by rw [hS1, hA, List.append_assoc], ?_⟩
      rw [hS1f hf1]
      exact StopsAtFailure.append hA' (StopsAtFailure.singleton _)
    rw [if_neg hf1] at h
    have hS1' := hS1t hf1
    -- the counters are read back
    obtain ⟨st2, hst2⟩ : ∃ st2, st2 = (if r.enqueued = true then copy_stats E s1.2 else s1.2) :=
      ⟨_, rfl⟩
    rw [← hst2] at h
    have hst2t : ∃ C, st2.trace = s1.2.trace ++ C ∧ Event.synchronize false ∉ C := by
      rw [hst2]
      split_ifs
      · exact ⟨[Event.copy_from_device Buffer.integrator_path_queue_], rfl, by simp⟩
      · exact ⟨[], by simp, by simp⟩
    obtain ⟨C1, hC1, hC1'⟩ := hst2t
    have hpre : ∃ P, st2.trace = st.trace ++ P ∧ Event.synchronize false ∉ P := by
      refine ⟨A ++ S1 ++ C1, by rw [hC1, hS1, hA]; simp only [List.append_assoc], ?_⟩
      simp only [List.mem_append, not_or]
      exact ⟨⟨hA', hS1'⟩, hC1'⟩
    obtain ⟨P, hP, hP'⟩ := hpre
    by_cases hfin : r.finished = true
    · rw [if_pos hfin] at h
      cases h
      exact ⟨P, hP, by
        have := StopsAtFailure.append hP' StopsAtFailure.nil
        simpa using this⟩
    rw [if_neg hfin] at h
    -- the path iteration
    obtain ⟨⟨B, hB, hBs, -⟩, -⟩ := enqueue_path_iteration_eq K E max_num_paths st2
    have hB' := not_mem_of_sync_results_nil B hBs false
    generalize enqueue_path_iteration K E max_num_paths st2 = p at h hB
    have hPB : p.2.trace = st.trace ++ (P ++ B) ∧ Event.synchronize false ∉ P ++ B := by
      refine ⟨by rw [hB, hP, List.append_assoc], ?_⟩
      simp only [List.mem_append, not_or]
      exact ⟨hP', hB'⟩
    by_cases hab : p.2.aborted = true
    · rw [if_pos hab] at h
      cases h
      exact ⟨P ++ B, hPB.1, by
        have := StopsAtFailure.append hPB.2 StopsAtFailure.nil
        simpa using this⟩
    rw [if_neg hab] at h
    by_cases hp1 : p.1 = true
    · rw [if_pos hp1] at h
      obtain ⟨S2, hS2, hS2f, hS2t⟩ := queue_synchronize_trace E p.2
      by_cases hf2 : (queue_synchronize E p.2).1 = false
      · rw [if_pos hf2] at h
        cases h
        refine ⟨P ++ B ++ S2, by rw [hS2, hPB.1, List.append_assoc], ?_⟩
        rw [hS2f hf2]
        exact StopsAtFailure.append hPB.2 (StopsAtFailure.singleton _)
      · rw [if_neg hf2] at h
        obtain ⟨new, hnew, hstop⟩ := ih _ _ h
        refine ⟨(P ++ B ++ S2 ++ [Event.copy_from_device Buffer.integrator_path_queue_]) ++ new,
          ?_, ?_⟩
        · rw [hnew]
          simp only [copy_stats, hS2, hPB.1, List.append_assoc]
        · apply StopsAtFailure.append _ hstop
          simp only [List.mem_append, not_or, List.mem_singleton]
          exact ⟨⟨⟨hP', hB'⟩, hS2t hf2⟩, by simp⟩
    · rw [if_neg hp1] at h
      obtain ⟨new, hnew, hstop⟩ := ih _ _ h
      exact ⟨(P ++ B) ++ new, by rw [hnew, hPB.1, List.append_assoc],
        StopsAtFailure.append hPB.2 hstop⟩

/-- C9: in `render_samples`, a `synchronize()` that reports a device error ends the scheduling
loop at once. If it follows a tile-initialization enqueue, or a path-iteration enqueue, the loop
returns in that very iteration with the failed `synchronize` as its last call and the host
counters as they were (they are not read back); and in every run of `render_samples` that
returns, no call at all (no enqueue, no `get_work`, no read-back) follows a failed
`synchronize`. -/
theorem render_samples_stops_on_device_error (K : DeviceKernelEnum) (E : Environment W)
    (max_num_paths : Int) (tile_fuel : Nat) (uninit : Nat → Bool) :
    (∀ fuel st r, enqueue_work_tiles K E max_num_paths tile_fuel st (uninit fuel) = some r →
      r.enqueued = true → (E.synchronize r.st.world).1 = false →
      ∃ st', render_loop K E max_num_paths tile_fuel uninit (fuel + 1) st = some st' ∧
        st'.trace = r.st.trace ++ [Event.synchronize false] ∧
        st'.num_queued = r.st.num_queued) ∧
    (∀ fuel st r, enqueue_work_tiles K E max_num_paths tile_fuel st (uninit fuel) = some r →
      (r.enqueued = true → (E.synchronize r.st.world).1 = true) → r.finished = false →
      ∀ p, p = enqueue_path_iteration K E max_num_paths
          (if r.enqueued = true then copy_stats E (queue_synchronize E r.st).2 else r.st) →
        p.1 = true → p.2.aborted = false → (E.synchronize p.2.world).1 = false →
        ∃ st', render_loop K E max_num_paths tile_fuel uninit (fuel + 1) st = some st' ∧
          st'.trace = p.2.trace ++ [Event.synchronize false] ∧
          st'.num_queued = p.2.num_queued) ∧
    (∀ fuel st start_sample samples_num st',
      render_samples K E max_num_paths tile_fuel uninit fuel st start_sample samples_num =
        some st' →
      ∃ new, st'.trace = st.trace ++ new ∧ StopsAtFailure new) := by
  refine ⟨fun fuel st r hr he hs => ?_, fun fuel st r hr hs hfin p hp hp1 hab hs2 => ?_,
    fun fuel st a b st' h => ?_⟩
  · unfold render_loop
    rw [hr]
    simp only [he, if_true, queue_synchronize, hs]
    exact ⟨_, rfl, rfl, rfl⟩
  · unfold render_loop
    rw [hr]
    simp only []
    by_cases he : r.enqueued = true
    · have hs' := hs he
      simp only [he, if_true] at hp ⊢
      have h1 : (queue_synchronize E r.st).1 = true := hs'
      simp only [h1, Bool.true_eq_false, if_false, hfin, ← hp, hab, hp1, if_true]
      have h2 : (queue_synchronize E p.2).1 = false := hs2
      simp only [h2, if_true]
      exact ⟨_, rfl, by simp only [queue_synchronize, hs2], rfl⟩
    · have he' : r.enqueued = false := by simpa using he
      simp only [he', Bool.false_eq_true, if_false] at hp ⊢
      simp only [Bool.true_eq_false, if_false, hfin, ← hp, hab, hp1, if_true]
      have h2 : (queue_synchronize E p.2).1 = false := hs2
      simp only [h2, if_true]
      exact ⟨_, rfl, by simp only [queue_synchronize, hs2], rfl⟩
  · unfold render_samples at h
    obtain ⟨new, hnew, hstop⟩ :=
      render_loop_stops_at_failure K E max_num_paths tile_fuel uninit fuel _ st' h
    refine ⟨[Event.scheduler_reset a b] ++ new, by rw [hnew, List.append_assoc],
      StopsAtFailure.append (by simp) hstop⟩

set_option maxHeartbeats 1000000 in
/-- Witness of C9: on a device that reports an error, `render_samples` initializes the two
sample tiles, synchronizes once and stops. -/
theorem render_samples_stops_on_device_error_witness :
    ∃ st', render_samples sampleKernels (sampleEnvironment sampleKernels) 1000 10
        (fun _ => false) 5 (sampleState ⟨sampleTiles, fun _ => 0, false, false⟩ (fun _ => 0) 0)
        0 4 = some st' ∧
      sync_results st'.trace = [false] ∧ st'.trace.getLast? = some (Event.synchronize false) ∧
      ∃ new, st'.trace =
          (sampleState ⟨sampleTiles, fun _ => 0, false, false⟩ (fun _ => 0) 0).trace ++ new ∧
        StopsAtFailure new :=
  ⟨_, rfl, by decide, by decide,
    (render_samples_stops_on_device_error sampleKernels (sampleEnvironment sampleKernels) 1000 10
      (fun _ => false)).2.2 5
      (sampleState ⟨sampleTiles, fun _ => 0, false, false⟩ (fun _ => 0) 0) 0 4 _ rfl⟩

/-! ### The high-water mark stays within the pool -/

theorem enqueue_work_tiles_kernel_in_bounds (K : DeviceKernelEnum) (E : Environment W)
    (max_num_paths : Int) (hcap : 0 ≤ max_num_paths) (st : PathTraceWorkGPU W) (kernel : Nat)
    (tiles : List KernelWorkTile) (hinv : MaxActiveInBounds max_num_paths st)
    (htiles : ∀ t ∈ tiles, 0 ≤ t.volume) :
    MaxActiveInBounds max_num_paths
      (enqueue_work_tiles_kernel K E max_num_paths st kernel tiles tiles.length) := by
  obtain ⟨-, hmax, -, -⟩ := enqueue_work_tiles_kernel_spec K E max_num_paths st kernel tiles
  have hv := volume_sum_nonneg tiles htiles
  unfold MaxActiveInBounds at hinv ⊢
  rw [hmax]
  exact ⟨le_min (by omega) hcap, min_le_right _ _⟩

theorem enqueue_work_tiles_in_bounds (K : DeviceKernelEnum) (E : Environment W)
    (max_num_paths : Int) (hcap : 0 ≤ max_num_paths) (hnn : E.NonnegTiles) (fuel : Nat)
    (st : PathTraceWorkGPU W) (finished : Bool) (r : WorkTilesResult W)
    (hinv : MaxActiveInBounds max_num_paths st)
    (h : enqueue_work_tiles K E max_num_paths fuel st finished = some r) :
    MaxActiveInBounds max_num_paths r.st := by
  have hmx : 0 ≤ (if get_num_active_paths K st = 0 then 0 else st.max_active_path_index_) ∧
      (if get_num_active_paths K st = 0 then 0 else st.max_active_path_index_) ≤
        max_num_paths := by
    split_ifs
    · exact ⟨le_rfl, hcap⟩
    · exact hinv
  by_cases hcancel : E.is_cancel_requested st.world = true
  · rw [enqueue_work_tiles_of_cancel K E max_num_paths fuel st finished hcancel] at h
    cases h
    exact hmx
  · obtain ⟨new, world, -, -, -, -, -, -, hst, -, -, -, -, htiles⟩ :=
      enqueue_work_tiles_spec K E max_num_paths fuel st finished r (by simpa using hcancel) h
    generalize (if get_num_active_paths K st = 0 then 0 else st.max_active_path_index_) = mx
      at hmx hst
    rw [hst]
    by_cases ht : tiles_returned new = []
    · rw [if_pos ht]; exact hmx
    · rw [if_neg ht]
      exact enqueue_work_tiles_kernel_in_bounds K E max_num_paths hcap _ _ _ hmx (htiles hnn)

theorem render_loop_in_bounds (K : DeviceKernelEnum) (E : Environment W)
    (max_num_paths : Int) (hcap : 0 ≤ max_num_paths) (hnn : E.NonnegTiles) (tile_fuel : Nat)
    (uninit : Nat → Bool) :
    ∀ (fuel : Nat) (st st' : PathTraceWorkGPU W), MaxActiveInBounds max_num_paths st →
      render_loop K E max_num_paths tile_fuel uninit fuel st = some st' →
      MaxActiveInBounds max_num_paths st' := by
  intro fuel
  induction fuel with
  | zero => intro st st' _ h; simp [render_loop] at h
  | succ fuel ih =>
    intro st st' hinv h
    unfold render_loop at h
    rcases hr : enqueue_work_tiles K E max_num_paths tile_fuel st (uninit fuel) with _ | r
    · rw [hr] at h; simp at h
    rw [hr] at h
    simp only [] at h
    have hr' := enqueue_work_tiles_in_bounds K E max_num_paths hcap hnn tile_fuel st _ r hinv hr
    obtain ⟨s1, hs1⟩ : ∃ s1, s1 = (if r.enqueued = true then queue_synchronize E r.st
      else (true, r.st)) := ⟨_, rfl⟩
    rw [← hs1] at h
    have hs1' : MaxActiveInBounds max_num_paths s1.2 := by
      rw [hs1]; split_ifs <;> exact hr'
    obtain ⟨st2, hst2⟩ : ∃ st2, st2 = (if r.enqueued = true then copy_stats E s1.2 else s1.2) :=
      ⟨_, rfl⟩
    rw [← hst2] at h
    have hst2' : MaxActiveInBounds max_num_paths st2 := by
      rw [hst2]; split_ifs <;> exact hs1'
    have hp : MaxActiveInBounds max_num_paths
        (enqueue_path_iteration K E max_num_paths st2).2 := by
      unfold MaxActiveInBounds
      rw [(enqueue_path_iteration_eq K E max_num_paths st2).2.1]
      exact hst2'
    generalize enqueue_path_iteration K E max_num_paths st2 = p at h hp
    split_ifs at h
    · cases h; exact hs1'
    · cases h; exact hst2'
    · cases h; exact hp
    · cases h; exact hp
    · exact ih _ _ (show MaxActiveInBounds max_num_paths
        (copy_stats E (queue_synchronize E p.2).2) from hp) h
    · exact ih _ _ hp h

/-- C10: `0 <= max_active_path_index_ <= get_max_num_paths()` holds after construction and is
preserved by `compute_queued_paths`, both overloads of `enqueue_path_iteration`, both overloads
of `enqueue_work_tiles` and `render_samples`, for tiles of non-negative volume (and a
non-negative capacity). -/
theorem max_active_path_index_in_bounds (K : DeviceKernelEnum) (E : Environment W)
    (max_num_paths : Int) (hcap : 0 ≤ max_num_paths) :
    (∀ world : W, MaxActiveInBounds max_num_paths (init world)) ∧
    (∀ st kernel queued_kernel, MaxActiveInBounds max_num_paths st →
      MaxActiveInBounds max_num_paths
        (compute_queued_paths K E max_num_paths st kernel queued_kernel)) ∧
    (∀ st kernel, MaxActiveInBounds max_num_paths st →
      MaxActiveInBounds max_num_paths (enqueue_path_iteration_kernel K E max_num_paths st kernel)) ∧
    (∀ st, MaxActiveInBounds max_num_paths st →
      MaxActiveInBounds max_num_paths (enqueue_path_iteration K E max_num_paths st).2) ∧
    (∀ st kernel (tiles : List KernelWorkTile), MaxActiveInBounds max_num_paths st →
      (∀ t ∈ tiles, 0 ≤ t.w * t.h * t.num_samples) →
      MaxActiveInBounds max_num_paths
        (enqueue_work_tiles_kernel K E max_num_paths st kernel tiles tiles.length)) ∧
    (E.NonnegTiles → ∀ fuel st finished r, MaxActiveInBounds max_num_paths st →
      enqueue_work_tiles K E max_num_paths fuel st finished = some r →
      MaxActiveInBounds max_num_paths r.st) ∧
    (E.NonnegTiles → ∀ tile_fuel uninit fuel st start_sample samples_num st',
      MaxActiveInBounds max_num_paths st →
      render_samples K E max_num_paths tile_fuel uninit fuel st start_sample samples_num =
        some st' →
      MaxActiveInBounds max_num_paths st') := by
  refine ⟨fun w => ⟨le_rfl, hcap⟩, fun st k qk h => ?_, fun st k h => ?_, fun st h => ?_,
    fun st k tiles h ht => enqueue_work_tiles_kernel_in_bounds K E max_num_paths hcap st k tiles
      h ht,
    fun hnn fuel st fin r h hr =>
      enqueue_work_tiles_in_bounds K E max_num_paths hcap hnn fuel st fin r h hr,
    fun hnn tf uninit fuel st a b st' h hr =>
      render_loop_in_bounds K E max_num_paths hcap hnn tf uninit fuel
        { st with
          world := E.reset st.world a b,
          trace := st.trace ++ [Event.scheduler_reset a b] } st' h hr⟩
  · unfold MaxActiveInBounds
    rw [(compute_queued_paths_frame K E max_num_paths st k qk).1]
    exact h
  · unfold MaxActiveInBounds
    rw [(enqueue_path_iteration_kernel_eq K E max_num_paths st k).2.1]
    exact h
  · unfold MaxActiveInBounds
    rw [(enqueue_path_iteration_eq K E max_num_paths st).2.1]
    exact h

set_option maxHeartbeats 1000000 in
/-- Witness of C10: after a complete run of `render_samples` over the two sample tiles in a pool
of capacity 10 the high-water mark is within the pool. -/
theorem max_active_path_index_in_bounds_witness :
    ∃ st', render_samples sampleKernels (sampleEnvironment sampleKernels) 10 10
        (fun _ => false) 10 (sampleState ⟨sampleTiles, fun _ => 0, true, false⟩ (fun _ => 0) 0)
        0 4 = some st' ∧
      MaxActiveInBounds 10 st' :=
  ⟨_, rfl, (max_active_path_index_in_bounds sampleKernels (sampleEnvironment sampleKernels) 10
      (by decide)).2.2.2.2.2.2 (nonnegTiles_of_tilesFit (sampleEnvironment_tilesFit sampleKernels))
      10 (fun _ => false) 10
      (sampleState ⟨sampleTiles, fun _ => 0, true, false⟩ (fun _ => 0) 0) 0 4 _
      ⟨by decide, by decide⟩ rfl⟩

end PathTraceWorkGPU


namespace PathTraceWorkGPU

variable {W : Type}

/-! ### Compaction and the batch handed to a path kernel -/

theorem phase_launches_append (a b : List Event) :
    phase_launches (a ++ b) = phase_launches a ++ phase_launches b := by
  induction a with
  | nil => rfl
  | cons e es ih =>
    cases e with
    | enqueue kernel work_size args => cases args <;> simp [phase_launches, ih]
    | _ => simp [phase_launches, ih]

theorem compaction_launches_append (a b : List Event) :
    compaction_launches (a ++ b) = compaction_launches a ++ compaction_launches b := by
  induction a with
  | nil => rfl
  | cons e es ih =>
    cases e with
    | enqueue kernel work_size args => cases args <;> simp [compaction_launches, ih]
    | _ => simp [compaction_launches, ih]

theorem fatal_errors_append (a b : List Event) :
    fatal_errors (a ++ b) = fatal_errors a ++ fatal_errors b := by
  induction a with
  | nil => rfl
  | cons e es ih => cases e <;> simp [fatal_errors, ih]

theorem compute_queued_paths_launches (K : DeviceKernelEnum) (E : Environment W)
    (max_num_paths : Int) (st : PathTraceWorkGPU W) (kernel : Nat) (queued_kernel : Int) :
    ∃ new, (compute_queued_paths K E max_num_paths st kernel queued_kernel).trace =
        st.trace ++ new ∧
      compaction_launches new =
        [(kernel, if kernel = K.INTEGRATOR_TERMINATED_PATHS_ARRAY then max_num_paths
          else st.max_active_path_index_, queued_kernel)] ∧
      phase_launches new = [] ∧ fatal_errors new = [] := by
  unfold compute_queued_paths
  simp only [queue_enqueue, emit]
  split_ifs <;> simp only [List.append_assoc] <;>
    exact ⟨_, rfl, by simp [compaction_launches, *], rfl, rfl⟩

theorem enqueue_path_iteration_kernel_launches (K : DeviceKernelEnum) (E : Environment W)
    (max_num_paths : Int) (st : PathTraceWorkGPU W) (kernel : Nat)
    (hk : kernel ∈ K.phases ∨ kernel = K.INTEGRATOR_MEGAKERNEL) (queue_kernel : Nat)
    (hq : queue_kernel =
      if kernel = K.INTEGRATOR_MEGAKERNEL then K.INTEGRATOR_INTERSECT_CLOSEST else kernel) :
    ∃ new, (enqueue_path_iteration_kernel K E max_num_paths st kernel).trace = st.trace ++ new ∧
      (enqueue_path_iteration_kernel K E max_num_paths st kernel).aborted = st.aborted ∧
      fatal_errors new = [] ∧
      (st.num_queued queue_kernel < st.max_active_path_index_ →
        (∃ array_kernel scan,
          compaction_launches new = [(array_kernel, scan, (queue_kernel : Int))]) ∧
        phase_launches new = [(kernel, st.num_queued queue_kernel, some 0)]) ∧
      (¬ st.num_queued queue_kernel < st.max_active_path_index_ →
        compaction_launches new = [] ∧
        phase_launches new = [(kernel, st.max_active_path_index_, none)]) := by
  unfold enqueue_path_iteration_kernel
  simp only [queue_enqueue, emit]
  rw [← hq]
  generalize (if kernel = K.INTEGRATOR_INTERSECT_SHADOW ∨ kernel = K.INTEGRATOR_SHADE_SHADOW then
      K.INTEGRATOR_QUEUED_SHADOW_PATHS_ARRAY else K.INTEGRATOR_QUEUED_PATHS_ARRAY) = array_kernel
  obtain ⟨new, h, h1, h2, h3⟩ := compute_queued_paths_launches K E
    max_num_paths st array_kernel queue_kernel
  have ha := (compute_queued_paths_frame K E max_num_paths st array_kernel queue_kernel).2.2
  simp only [DeviceKernelEnum.phases, List.mem_cons, List.mem_singleton, List.not_mem_nil,
    or_false] at hk
  by_cases hc : st.num_queued queue_kernel < st.max_active_path_index_
  · simp only [hc, decide_True, if_true, h, ha]
    split_ifs with hi hs
    · exact ⟨_, by simp only [List.append_assoc]; rfl, rfl,
        by simp [fatal_errors_append, h3, fatal_errors],
        fun _ => ⟨⟨_, _, by rw [compaction_launches_append, h1]; rfl⟩,
          by simp [phase_launches_append, h2, phase_launches]⟩, fun h => absurd trivial h⟩
    · exact ⟨_, by simp only [List.append_assoc]; rfl, rfl,
        by simp [fatal_errors_append, h3, fatal_errors],
        fun _ => ⟨⟨_, _, by rw [compaction_launches_append, h1]; rfl⟩,
          by simp [phase_launches_append, h2, phase_launches]⟩, fun h => absurd trivial h⟩
    · exfalso; tauto
  · simp only [hc, decide_False, Bool.false_eq_true, if_false]
    split_ifs with hi hs
    · exact ⟨_, by simp only [List.append_assoc]; rfl, rfl, by simp [fatal_errors],
        fun h => absurd h (by simp), fun _ => ⟨by simp [compaction_launches],
          by simp [phase_launches]⟩⟩
    · exact ⟨_, by simp only [List.append_assoc]; rfl, rfl, by simp [fatal_errors],
        fun h => absurd h (by simp), fun _ => ⟨by simp [compaction_launches],
          by simp [phase_launches]⟩⟩
    · exfalso; tauto

/-- C11: when `enqueue_path_iteration(kernel)` is called for a path kernel or the megakernel, it
invokes the compaction exactly when the counter of the phase (for the megakernel, of closest
intersection) is below `max_active_path_index_`; the compaction then collects the slots of that
phase, and the path kernel is launched once, on the compacted list, with a batch size equal to
that counter. -/
theorem enqueue_path_iteration_kernel_batch_size (K : DeviceKernelEnum) (E : Environment W)
    (max_num_paths : Int) (st : PathTraceWorkGPU W) (kernel : Nat)
    (hk : kernel ∈ K.phases ∨ kernel = K.INTEGRATOR_MEGAKERNEL) :
    ∃ new, (enqueue_path_iteration_kernel K E max_num_paths st kernel).trace = st.trace ++ new ∧
      (compaction_launches new ≠ [] ↔
        st.num_queued (if kernel = K.INTEGRATOR_MEGAKERNEL then K.INTEGRATOR_INTERSECT_CLOSEST
          else kernel) < st.max_active_path_index_) ∧
      (compaction_launches new ≠ [] →
        (∃ array_kernel scan, compaction_launches new =
          [(array_kernel, scan,
            ((if kernel = K.INTEGRATOR_MEGAKERNEL then K.INTEGRATOR_INTERSECT_CLOSEST
              else kernel : Nat) : Int))]) ∧
        phase_launches new =
          [(kernel, st.num_queued (if kernel = K.INTEGRATOR_MEGAKERNEL then
            K.INTEGRATOR_INTERSECT_CLOSEST else kernel), some 0)]) := by
  obtain ⟨new, h, -, -, hyes, hno⟩ :=
    enqueue_path_iteration_kernel_launches K E max_num_paths st kernel hk _ rfl
  have hiff : compaction_launches new ≠ [] ↔
      st.num_queued (if kernel = K.INTEGRATOR_MEGAKERNEL then K.INTEGRATOR_INTERSECT_CLOSEST
        else kernel) < st.max_active_path_index_ := by
    constructor
    · intro hne
      by_contra hc
      exact hne (hno hc).1
    · intro hc
      obtain ⟨⟨a, s, e⟩, -⟩ := hyes hc
      rw [e]; simp
  exact ⟨new, h, hiff, fun hne => hyes (hiff.1 hne)⟩

/-- Witness of C11: 5 paths queued at closest intersection among 12 slots in use; the megakernel
is launched on the 5 compacted slots. -/
theorem enqueue_path_iteration_kernel_batch_size_witness :
    ∃ new, (enqueue_path_iteration_kernel sampleKernels (sampleEnvironment sampleKernels)
        get_max_num_paths (sampleState ⟨[], fun _ => 0, true, false⟩ (countersOf [0, 5]) 12)
        sampleKernels.INTEGRATOR_MEGAKERNEL).trace =
        (sampleState ⟨[], fun _ => 0, true, false⟩ (countersOf [0, 5]) 12).trace ++ new ∧
      (compaction_launches new ≠ [] ↔ (5 : Int) < 12) ∧
      (compaction_launches new ≠ [] →
        (∃ array_kernel scan, compaction_launches new = [(array_kernel, scan, 1)]) ∧
        phase_launches new = [(sampleKernels.INTEGRATOR_MEGAKERNEL, 5, some 0)]) :=
  enqueue_path_iteration_kernel_batch_size sampleKernels (sampleEnvironment sampleKernels)
    get_max_num_paths (sampleState ⟨[], fun _ => 0, true, false⟩ (countersOf [0, 5]) 12)
    sampleKernels.INTEGRATOR_MEGAKERNEL (by decide)

end PathTraceWorkGPU


namespace PathTraceWorkGPU

variable {W : Type}

/-- Counterexample to C12: on a device whose compaction writes 6 to `num_queued_paths_` while the
counter of closest intersection is 5, `enqueue_path_iteration(kernel)` reaches no `LOG(FATAL)`
and launches closest intersection on the compacted list with batch size 5. -/
theorem enqueue_path_iteration_kernel_ignores_produced_count_counterexample :
    (compute_queued_paths sampleKernels miscountingEnvironment get_max_num_paths miscountState
        sampleKernels.INTEGRATOR_QUEUED_PATHS_ARRAY 1).world.num_queued_paths = 6 ∧
      miscountState.num_queued sampleKernels.INTEGRATOR_INTERSECT_CLOSEST = 5 ∧
      (enqueue_path_iteration_kernel sampleKernels miscountingEnvironment get_max_num_paths
        miscountState sampleKernels.INTEGRATOR_INTERSECT_CLOSEST).aborted = false ∧
      fatal_errors (enqueue_path_iteration_kernel sampleKernels miscountingEnvironment
        get_max_num_paths miscountState sampleKernels.INTEGRATOR_INTERSECT_CLOSEST).trace = [] ∧
      kernel_launches (enqueue_path_iteration_kernel sampleKernels miscountingEnvironment
        get_max_num_paths miscountState sampleKernels.INTEGRATOR_INTERSECT_CLOSEST).trace =
        [(sampleKernels.INTEGRATOR_QUEUED_PATHS_ARRAY, 12, KernelArgs.queued_paths 12 1),
         (sampleKernels.INTEGRATOR_INTERSECT_CLOSEST, 5, KernelArgs.intersect (some 0) 5)] := by
  decide

/-- C12 (amended): `enqueue_path_iteration(kernel)` never reads the count a compaction writes to
`num_queued_paths_`. When it compacts for a path kernel or the megakernel and the count `produced`
by that compaction differs from the counter of the phase, no `LOG(FATAL)` is reached, the
scheduler is not aborted, and the kernel is launched once over the compacted list with the
counter, not the produced count, as its batch size. -/
theorem enqueue_path_iteration_kernel_ignores_produced_count (K : DeviceKernelEnum)
    (E : Environment W) (max_num_paths : Int) (st : PathTraceWorkGPU W) (kernel : Nat)
    (produced : W → Int) (hk : kernel ∈ K.phases ∨ kernel = K.INTEGRATOR_MEGAKERNEL)
    (hcompact : st.num_queued (if kernel = K.INTEGRATOR_MEGAKERNEL then
      K.INTEGRATOR_INTERSECT_CLOSEST else kernel) < st.max_active_path_index_)
    (hmismatch : produced (compute_queued_paths K E max_num_paths st
        (if kernel = K.INTEGRATOR_INTERSECT_SHADOW ∨ kernel = K.INTEGRATOR_SHADE_SHADOW then
          K.INTEGRATOR_QUEUED_SHADOW_PATHS_ARRAY else K.INTEGRATOR_QUEUED_PATHS_ARRAY)
        ((if kernel = K.INTEGRATOR_MEGAKERNEL then K.INTEGRATOR_INTERSECT_CLOSEST
          else kernel : Nat) : Int)).world ≠
      st.num_queued (if kernel = K.INTEGRATOR_MEGAKERNEL then K.INTEGRATOR_INTERSECT_CLOSEST
        else kernel)) :
    (enqueue_path_iteration_kernel K E max_num_paths st kernel).aborted = st.aborted ∧
    ∃ new batch, (enqueue_path_iteration_kernel K E max_num_paths st kernel).trace =
        st.trace ++ new ∧
      fatal_errors new = [] ∧ phase_launches new = [(kernel, batch, some 0)] ∧
      batch = st.num_queued (if kernel = K.INTEGRATOR_MEGAKERNEL then
        K.INTEGRATOR_INTERSECT_CLOSEST else kernel) ∧
      batch ≠ produced (compute_queued_paths K E max_num_paths st
        (if kernel = K.INTEGRATOR_INTERSECT_SHADOW ∨ kernel = K.INTEGRATOR_SHADE_SHADOW then
          K.INTEGRATOR_QUEUED_SHADOW_PATHS_ARRAY else K.INTEGRATOR_QUEUED_PATHS_ARRAY)
        ((if kernel = K.INTEGRATOR_MEGAKERNEL then K.INTEGRATOR_INTERSECT_CLOSEST
          else kernel : Nat) : Int)).world := by
  obtain ⟨new, h, ha, hf, hyes, -⟩ :=
    enqueue_path_iteration_kernel_launches K E max_num_paths st kernel hk _ rfl
  exact ⟨ha, new, _, h, hf, (hyes hcompact).2, rfl, fun e => hmismatch e.symm⟩

/-- Witness of C12 (amended): the miscounting device, 5 paths queued at closest intersection,
12 slots in use. -/
theorem enqueue_path_iteration_kernel_ignores_produced_count_witness :
    (enqueue_path_iteration_kernel sampleKernels miscountingEnvironment get_max_num_paths
        miscountState sampleKernels.INTEGRATOR_INTERSECT_CLOSEST).aborted = false ∧
    ∃ new batch, (enqueue_path_iteration_kernel sampleKernels miscountingEnvironment
        get_max_num_paths miscountState sampleKernels.INTEGRATOR_INTERSECT_CLOSEST).trace =
        miscountState.trace ++ new ∧
      fatal_errors new = [] ∧
      phase_launches new = [(sampleKernels.INTEGRATOR_INTERSECT_CLOSEST, batch, some 0)] ∧
      batch = 5 ∧ batch ≠ 6 :=
  enqueue_path_iteration_kernel_ignores_produced_count sampleKernels miscountingEnvironment
    get_max_num_paths miscountState sampleKernels.INTEGRATOR_INTERSECT_CLOSEST
    CompactionWorld.num_queued_paths (by decide) (by decide) (by decide)

end PathTraceWorkGPU


namespace PathTraceWorkGPU

variable {W : Type}

/-! ### Shadow work when the megakernel is dispatched -/

/-- C18, as stated, fails: with 300 paths at shadow intersection and 500 counted at the
megakernel's own counter (capacity 1000), the counters are non-negative, the megakernel is
dispatched and shadow work is pending. -/
theorem enqueue_path_iteration_megakernel_no_shadow_counterexample :
    (∀ i, i < sampleKernels.INTEGRATOR_NUM →
      0 ≤ (sampleState ⟨[], fun _ => 0, true, false⟩
        (countersOf [0, 0, 300, 0, 0, 0, 0, 0, 0, 500]) 800).num_queued i) ∧
    dispatched (enqueue_path_iteration sampleKernels (sampleEnvironment sampleKernels) 1000
        (sampleState ⟨[], fun _ => 0, true, false⟩
          (countersOf [0, 0, 300, 0, 0, 0, 0, 0, 0, 500]) 800)).2.trace =
      [sampleKernels.INTEGRATOR_MEGAKERNEL] ∧
    (sampleState ⟨[], fun _ => 0, true, false⟩
        (countersOf [0, 0, 300, 0, 0, 0, 0, 0, 0, 500]) 800).num_queued
      sampleKernels.INTEGRATOR_INTERSECT_SHADOW ≠ 0 := by
  decide

/-- C18 (amended): whenever `enqueue_path_iteration()` dispatches the megakernel and the
counters are non-negative, no path is queued at shadow intersection and none at shadow shading,
unless the maximum search designates the megakernel's own counter and the active count is not
below the megakernel threshold. In particular no shadow work is pending when the megakernel's
own counter is zero, and none when the megakernel rule applies, that is when the dispatch comes
from the megakernel test. -/
theorem enqueue_path_iteration_megakernel_no_shadow (K : DeviceKernelEnum)
    (E : Environment W) (max_num_paths : Int) (st : PathTraceWorkGPU W) (hK : K.WellFormed)
    (hnonneg : ∀ i, i < K.INTEGRATOR_NUM → 0 ≤ st.num_queued i)
    (hdisp : dispatched (enqueue_path_iteration K E max_num_paths st).2.trace =
      dispatched st.trace ++ [K.INTEGRATOR_MEGAKERNEL]) :
    ((st.num_queued K.INTEGRATOR_INTERSECT_SHADOW = 0 ∧
        st.num_queued K.INTEGRATOR_SHADE_SHADOW = 0) ∨
      (IsSelected K st.num_queued K.INTEGRATOR_MEGAKERNEL ∧
        below_threshold megakernel_threshold (get_num_active_paths K st) max_num_paths =
          false)) ∧
    ((K.INTEGRATOR_MEGAKERNEL < K.INTEGRATOR_NUM → st.num_queued K.INTEGRATOR_MEGAKERNEL = 0) →
      st.num_queued K.INTEGRATOR_INTERSECT_SHADOW = 0 ∧
        st.num_queued K.INTEGRATOR_SHADE_SHADOW = 0) ∧
    ((∃ k, IsSelected K st.num_queued k ∧ MegakernelRule K max_num_paths st k) →
      st.num_queued K.INTEGRATOR_INTERSECT_SHADOW = 0 ∧
        st.num_queued K.INTEGRATOR_SHADE_SHADOW = 0) := by
  have hne : (find_kernel K st.num_queued).max_num_queued ≠ 0 := by
    intro h0
    unfold enqueue_path_iteration at hdisp
    simp only [h0, if_true] at hdisp
    have := congrArg List.length hdisp
    simp at this
  have hcases := (enqueue_path_iteration_megakernel_cases K E max_num_paths st hK hne).1 hdisp
  rw [find_kernel_num_paths] at hcases
  have hnd : K.phases.Nodup := (List.nodup_cons.1 hK.1).2
  simp only [DeviceKernelEnum.phases, List.nodup_cons, List.mem_cons, List.mem_singleton,
    not_or, List.not_mem_nil, not_false_eq_true, List.nodup_nil, and_true] at hnd
  have hIC : K.INTEGRATOR_INTERSECT_CLOSEST < K.INTEGRATOR_NUM :=
    hK.2 _ (by simp [DeviceKernelEnum.phases])
  have hIS : K.INTEGRATOR_INTERSECT_SHADOW < K.INTEGRATOR_NUM :=
    hK.2 _ (by simp [DeviceKernelEnum.phases])
  have hSS : K.INTEGRATOR_SHADE_SHADOW < K.INTEGRATOR_NUM :=
    hK.2 _ (by simp [DeviceKernelEnum.phases])
  have hrule : get_num_active_paths K st = st.num_queued K.INTEGRATOR_INTERSECT_CLOSEST →
      st.num_queued K.INTEGRATOR_INTERSECT_SHADOW = 0 ∧
        st.num_queued K.INTEGRATOR_SHADE_SHADOW = 0 := by
    intro hall
    rw [get_num_active_paths_eq_sum] at hall
    have h1 := add_le_sum_counters st.num_queued K.INTEGRATOR_NUM hnonneg hIC hIS hnd.1.1
    have h2 := add_le_sum_counters st.num_queued K.INTEGRATOR_NUM hnonneg hIC hSS
      hnd.1.2.2.2.2.1
    have h3 := hnonneg _ hIS
    have h4 := hnonneg _ hSS
    constructor <;> omega
  have hsel : (find_kernel K st.num_queued).kernel = K.INTEGRATOR_MEGAKERNEL →
      IsSelected K st.num_queued K.INTEGRATOR_MEGAKERNEL :=
    fun h => h ▸ (find_kernel_selected K st.num_queued hne).1
  refine ⟨?_, ?_, fun ⟨k, _, _, hk, hall⟩ => hrule (by rw [hall, hk])⟩
  · rcases hcases with ⟨-, h2, h3⟩ | ⟨h1, h2⟩
    · exact Or.inl (hrule (by rw [h3, h2]))
    · by_cases hb : below_threshold megakernel_threshold (get_num_active_paths K st)
          max_num_paths = true
      · left
        by_contra hcon
        apply h2
        refine ⟨hb, ?_⟩
        by_contra hcon'
        push_neg at hcon'
        exact hcon hcon'
      · exact Or.inr ⟨hsel h1, by simpa using hb⟩
  · intro hmega
    rcases hcases with ⟨-, h2, h3⟩ | ⟨h1, -⟩
    · exact hrule (by rw [h3, h2])
    · obtain ⟨hlt, hq, -, -⟩ := hsel h1
      have := hmega hlt
      omega

/-- Witness of C18, capacity 1000: 90 active paths, all at closest intersection; the megakernel
is dispatched and both shadow counters are zero. -/
theorem enqueue_path_iteration_megakernel_no_shadow_witness :
    (sampleState ⟨[], fun _ => 0, true, false⟩ (countersOf [0, 90]) 90).num_queued
        sampleKernels.INTEGRATOR_INTERSECT_SHADOW = 0 ∧
      (sampleState ⟨[], fun _ => 0, true, false⟩ (countersOf [0, 90]) 90).num_queued
        sampleKernels.INTEGRATOR_SHADE_SHADOW = 0 :=
  (enqueue_path_iteration_megakernel_no_shadow sampleKernels (sampleEnvironment sampleKernels)
    1000 (sampleState ⟨[], fun _ => 0, true, false⟩ (countersOf [0, 90]) 90)
    (by decide) (by decide) (by decide)).2.1 (by decide)

/-! ### The high-water mark after tile initialization -/

/-- C19: after `enqueue_work_tiles(kernel, work_tiles, num_work_tiles)` the member
`max_active_path_index_` is the minimum of its old value plus the sum of the volumes
`w * h * num_samples` of the tiles and the capacity; so it is for the capacity of the source,
`get_max_num_paths()`. -/
theorem enqueue_work_tiles_kernel_max_active (K : DeviceKernelEnum) (E : Environment W)
    (st : PathTraceWorkGPU W) (kernel : Nat) (tiles : List KernelWorkTile) :
    (∀ max_num_paths : Int,
      (enqueue_work_tiles_kernel K E max_num_paths st kernel tiles tiles.length
        ).max_active_path_index_ =
        min (st.max_active_path_index_ + (tiles.map (fun t => t.w * t.h * t.num_samples)).sum)
          max_num_paths) ∧
    (enqueue_work_tiles_kernel K E get_max_num_paths st kernel tiles tiles.length
      ).max_active_path_index_ =
      min (st.max_active_path_index_ + (tiles.map (fun t => t.w * t.h * t.num_samples)).sum)
        1048576 :=
  ⟨fun max_num_paths =>
      (enqueue_work_tiles_kernel_spec K E max_num_paths st kernel tiles).2.1,
    (enqueue_work_tiles_kernel_spec K E get_max_num_paths st kernel tiles).2.1⟩

end PathTraceWorkGPU


namespace PathTraceWorkGPU

variable {W : Type}

/-! ### When `enqueue_work_tiles(finished)` asks for tiles -/

theorem get_work_requests_append (a b : List Event) :
    get_work_requests (a ++ b) = get_work_requests a ++ get_work_requests b := by
  induction a with
  | nil => rfl
  | cons e es ih => cases e <;> simp [get_work_requests, ih]

theorem kernel_launches_append (a b : List Event) :
    kernel_launches (a ++ b) = kernel_launches a ++ kernel_launches b := by
  induction a with
  | nil => rfl
  | cons e es ih => cases e <;> simp [kernel_launches, ih]

/-- The gathering loop calls `get_work` first with the free slots, whenever it is entered. -/
theorem gather_work_tiles_requests (E : Environment W) (max_num_paths : Int) :
    ∀ (fuel : Nat) (g g' : GatherTiles W), gather_work_tiles E max_num_paths fuel g = some g' →
      ∃ new, g'.st.trace = g.st.trace ++ new ∧
        (g.num_paths < max_num_paths →
          ∃ rest, get_work_requests new = (max_num_paths - g.num_paths) :: rest) := by
  intro fuel
  induction fuel with
  | zero =>
    intro g g' h
    unfold gather_work_tiles at h
    split_ifs at h with hlt
    cases h
    exact ⟨[], by simp, fun h => absurd h hlt⟩
  | succ fuel ih =>
    intro g g' h
    unfold gather_work_tiles at h
    split_ifs at h with hlt
    · rcases hgw : E.get_work g.st.world (max_num_paths - g.num_paths) with ⟨_ | t, w⟩
      · rw [hgw] at h
        cases h
        exact ⟨[Event.get_work (max_num_paths - g.num_paths) none], rfl, fun _ => ⟨[], rfl⟩⟩
      · rw [hgw] at h
        obtain ⟨new, h1, -⟩ := ih _ _ h
        exact ⟨Event.get_work (max_num_paths - g.num_paths) (some t) :: new,
          by rw [h1]; simp, fun _ => ⟨get_work_requests new, rfl⟩⟩
    · cases h
      exact ⟨[], by simp, fun h => absurd h hlt⟩

/-- Tile initialization extends the trace. -/
theorem enqueue_work_tiles_kernel_trace (K : DeviceKernelEnum) (E : Environment W)
    (max_num_paths : Int) (st : PathTraceWorkGPU W) (kernel : Nat)
    (tiles : List KernelWorkTile) :
    ∃ new, (enqueue_work_tiles_kernel K E max_num_paths st kernel tiles tiles.length).trace =
      st.trace ++ new :=
  let ⟨new, h, _⟩ := (enqueue_work_tiles_kernel_spec K E max_num_paths st kernel tiles).1
  ⟨new, h⟩

/-- With the cancel flag clear, `enqueue_work_tiles(finished)` enters the gathering loop when the
scheduling test holds and free slots remain, and its first call of `get_work` asks for the free
slots; when the test fails it returns false with `finished` false and the object untouched. -/
theorem enqueue_work_tiles_requests (K : DeviceKernelEnum) (E : Environment W)
    (max_num_paths : Int) (fuel : Nat) (st : PathTraceWorkGPU W) (finished : Bool)
    (r : WorkTilesResult W) (hcancel : E.is_cancel_requested st.world = false)
    (h : enqueue_work_tiles K E max_num_paths fuel st finished = some r) :
    ∃ new, r.st.trace = st.trace ++ new ∧
      ((get_num_active_paths K st = 0 ∨
          below_threshold regenerate_threshold (get_num_active_paths K st) max_num_paths = true) →
        get_num_active_paths K st < max_num_paths →
        ∃ rest, get_work_requests new = (max_num_paths - get_num_active_paths K st) :: rest) ∧
      (¬ (get_num_active_paths K st = 0 ∨
          below_threshold regenerate_threshold (get_num_active_paths K st) max_num_paths = true) →
        new = [] ∧ r = { enqueued := false, finished := false, st := st }) := by
  have hst' : (if get_num_active_paths K st = 0 then { st with max_active_path_index_ := 0 }
      else st) = { st with max_active_path_index_ :=
        if get_num_active_paths K st = 0 then 0 else st.max_active_path_index_ } := by
    split_ifs <;> rfl
  unfold enqueue_work_tiles at h
  simp only [hst', hcancel, Bool.false_eq_true, if_false] at h
  by_cases hcond : get_num_active_paths K st = 0 ∨
      below_threshold regenerate_threshold (get_num_active_paths K st) max_num_paths = true
  · rw [if_pos hcond] at h
    generalize (if get_num_active_paths K st = 0 then 0 else st.max_active_path_index_) = mx
      at h
    rcases hg : gather_work_tiles E max_num_paths fuel
        { st := { st with max_active_path_index_ := mx },
          num_paths := get_num_active_paths K st, work_tiles := [] } with _ | g
    · rw [hg] at h; cases h
    · rw [hg] at h
      dsimp only at h
      obtain ⟨new, h1, h2⟩ := gather_work_tiles_requests E max_num_paths fuel _ _ hg
      dsimp only at h1 h2
      split_ifs at h with hfin
      · cases h
        exact ⟨new, h1, fun _ hlt => h2 hlt, fun hn => absurd hcond hn⟩
      · cases h
        unfold initialize_paths
        split_ifs with hl
        · exact ⟨new, h1, fun _ hlt => h2 hlt, fun hn => absurd hcond hn⟩
        · obtain ⟨new', h'⟩ := enqueue_work_tiles_kernel_trace K E max_num_paths g.st
            K.INTEGRATOR_INIT_FROM_CAMERA g.work_tiles
          refine ⟨new ++ new', ?_, fun _ hlt => ?_, fun hn => absurd hcond hn⟩
          · dsimp only
            rw [h', h1, List.append_assoc]
          · obtain ⟨rest, hr⟩ := h2 hlt
            exact ⟨rest ++ get_work_requests new', by
              rw [get_work_requests_append, hr]; rfl⟩
  · rw [if_neg hcond] at h
    simp only [Option.some.injEq] at h
    subst h
    have hz : get_num_active_paths K st ≠ 0 := fun hz => hcond (Or.inl hz)
    refine ⟨[], by simp [initialize_paths, hz], fun hc => absurd hc hcond, fun _ => ⟨rfl, ?_⟩⟩
    simp [initialize_paths, hz]

/-- C17: with the cancel flag clear, `enqueue_work_tiles(finished)` calls `get_work` if and only
if the active path count is zero or its double is below the capacity (that is, the count is below
0.5 times the capacity); its first request then asks for the free slots. Otherwise `get_work`
is not called, nothing is enqueued, the object is untouched, false is returned and `finished`
is false. The capacity is positive and in the range where single precision decides the
threshold test exactly. With a scheduler that makes progress the call returns. -/
theorem enqueue_work_tiles_requests_iff (K : DeviceKernelEnum) (E : Environment W)
    (max_num_paths : Int) (st : PathTraceWorkGPU W) (finished : Bool)
    (hcancel : E.is_cancel_requested st.world = false)
    (hcap : 0 < max_num_paths) (hcap' : max_num_paths < 16777216)
    (hnonneg : 0 ≤ get_num_active_paths K st) :
    (∀ fuel r, enqueue_work_tiles K E max_num_paths fuel st finished = some r →
      ∃ new, r.st.trace = st.trace ++ new ∧
        (get_work_requests new ≠ [] ↔
          (get_num_active_paths K st = 0 ∨ 2 * get_num_active_paths K st < max_num_paths)) ∧
        (get_work_requests new ≠ [] →
          (get_work_requests new).head? = some (max_num_paths - get_num_active_paths K st)) ∧
        (¬ (get_num_active_paths K st = 0 ∨ 2 * get_num_active_paths K st < max_num_paths) →
          get_work_requests new = [] ∧ kernel_launches new = [] ∧ r.st = st ∧
          r.enqueued = false ∧ r.finished = false)) ∧
    (E.Progress → ∀ fuel, (max_num_paths - get_num_active_paths K st).toNat ≤ fuel →
      ∃ r, enqueue_work_tiles K E max_num_paths fuel st finished = some r) := by
  refine ⟨fun fuel r h => ?_, fun hprog fuel hfuel =>
    enqueue_work_tiles_terminates K E max_num_paths fuel st finished hprog hfuel⟩
  obtain ⟨new, htrace, hyes, hno⟩ :=
    enqueue_work_tiles_requests K E max_num_paths fuel st finished r hcancel h
  rw [below_regenerate_threshold_iff _ _ hnonneg hcap hcap'] at hyes hno
  have hiff : get_work_requests new ≠ [] ↔
      (get_num_active_paths K st = 0 ∨ 2 * get_num_active_paths K st < max_num_paths) := by
    constructor
    · intro hne
      by_contra hc
      rw [(hno hc).1] at hne
      exact hne rfl
    · intro hc
      obtain ⟨rest, hr⟩ := hyes hc (by omega)
      rw [hr]; simp
  refine ⟨new, htrace, hiff, fun hne => ?_, fun hc => ?_⟩
  · obtain ⟨rest, hr⟩ := hyes (hiff.1 hne) (by have := hiff.1 hne; omega)
    rw [hr]; rfl
  · obtain ⟨hn, hr⟩ := hno hc
    subst hn hr
    exact ⟨rfl, rfl, rfl, rfl, rfl⟩

/-- Witness of C17, capacity 1000: with 600 active paths no tile is requested although the
scheduler holds tiles. -/
theorem enqueue_work_tiles_requests_iff_witness :
    ∃ r, enqueue_work_tiles sampleKernels (sampleEnvironment sampleKernels) 1000 1000
        (sampleState ⟨sampleTiles, fun _ => 0, true, false⟩ (countersOf [0, 600]) 600) true =
        some r ∧
      ∃ new, r.st.trace =
          (sampleState ⟨sampleTiles, fun _ => 0, true, false⟩ (countersOf [0, 600]) 600).trace ++
            new ∧
        get_work_requests new = [] ∧ r.enqueued = false ∧ r.finished = false :=
  ⟨_, rfl,
    let ⟨new, h, _, _, hno⟩ := (enqueue_work_tiles_requests_iff sampleKernels
      (sampleEnvironment sampleKernels) 1000
      (sampleState ⟨sampleTiles, fun _ => 0, true, false⟩ (countersOf [0, 600]) 600) true
      rfl (by decide) (by decide) (by decide)).1 1000 _ rfl
    ⟨new, h, (hno (by decide)).1, (hno (by decide)).2.2.2⟩⟩

end PathTraceWorkGPU


namespace PathTraceWorkGPU

variable {W : Type}

/-! ### The display update -/

theorem interop_probes_append (a b : List Event) :
    interop_probes (a ++ b) = interop_probes a ++ interop_probes b := by
  induction a with
  | nil => rfl
  | cons e es ih => cases e <;> simp [interop_probes, ih]

theorem interop_maps_append (a b : List Event) :
    interop_maps (a ++ b) = interop_maps a ++ interop_maps b := by
  induction a with
  | nil => rfl
  | cons e es ih => cases e <;> simp [interop_maps, ih]

theorem texture_uploads_append (a b : List Event) :
    texture_uploads (a ++ b) = texture_uploads a + texture_uploads b := by
  induction a with
  | nil => simp [texture_uploads]
  | cons e es ih =>
    cases e <;> simp [texture_uploads, ih]
    omega

/-- The naive display update: no probe, no mapping, one upload of the pixels. -/
theorem Full.copy_to_gpu_display_naive_spec (K : DeviceKernelEnum) (E : Environment W)
    (o : Full W) (sample_scale : Float32) :
    ∃ new, (Full.copy_to_gpu_display_naive K E o sample_scale).trace = o.trace ++ new ∧
      interop_probes new = [] ∧ interop_maps new = [] ∧ texture_uploads new = 1 ∧
      (Full.copy_to_gpu_display_naive K E o sample_scale).interop_use_ = o.interop_use_ ∧
      (Full.copy_to_gpu_display_naive K E o sample_scale).interop_use_checked_ =
        o.interop_use_checked_ ∧
      (Full.copy_to_gpu_display_naive K E o sample_scale).max_active_path_index_ =
        o.max_active_path_index_ := by
  unfold Full.copy_to_gpu_display_naive
  simp only [Full.enqueue_film_convert, Full.synchronize, Full.emit, queue_enqueue,
    queue_synchronize]
  split_ifs <;> simp only [List.append_assoc] <;>
    exact ⟨_, rfl, rfl, rfl, rfl, trivial, trivial, trivial⟩

/-- The interop display update: no probe, one mapping, no upload of the pixels; it returns
whether the mapping succeeded. -/
theorem Full.copy_to_gpu_display_interop_spec (K : DeviceKernelEnum) (E : Environment W)
    (D : DisplayEnvironment W) (o : Full W) (sample_scale : Float32) :
    ∃ new, (Full.copy_to_gpu_display_interop K E D o sample_scale).2.trace = o.trace ++ new ∧
      interop_probes new = [] ∧
      interop_maps new = [(Full.copy_to_gpu_display_interop K E D o sample_scale).1] ∧
      texture_uploads new = 0 ∧
      (Full.copy_to_gpu_display_interop K E D o sample_scale).1 =
        (D.graphics_interop_map o.world).1 ∧
      (Full.copy_to_gpu_display_interop K E D o sample_scale).2.interop_use_ =
        o.interop_use_ ∧
      (Full.copy_to_gpu_display_interop K E D o sample_scale).2.interop_use_checked_ =
        o.interop_use_checked_ ∧
      (Full.copy_to_gpu_display_interop K E D o sample_scale).2.max_active_path_index_ =
        o.max_active_path_index_ := by
  unfold Full.copy_to_gpu_display_interop
  simp only [Full.enqueue_film_convert, Full.synchronize, Full.emit, queue_enqueue,
    queue_synchronize]
  by_cases hi : o.device_graphics_interop_ = true <;>
  by_cases hm : (D.graphics_interop_map o.world).1 = true <;>
    simp only [hi, hm, not_true_eq_false, not_false_eq_true, if_true, if_false,
      Bool.false_eq_true, List.append_assoc] <;>
    exact ⟨_, rfl, rfl, rfl, rfl, trivial, trivial, trivial, trivial⟩

/-- One call of `copy_to_gpu_display` once the probe is done: it maps when the cached decision
is to use interop, and uploads the pixels through the naive path when interop is not used or
the mapping failed. -/
theorem Full.copy_to_gpu_display_checked (K : DeviceKernelEnum) (E : Environment W)
    (D : DisplayEnvironment W) (o : Full W) (sample_scale : Float32)
    (hc : o.interop_use_checked_ = true) :
    ∃ new, (Full.copy_to_gpu_display K E D o sample_scale).trace = o.trace ++ new ∧
      interop_probes new = [] ∧
      interop_maps new =
        (if o.interop_use_ then [(D.graphics_interop_map o.world).1] else []) ∧
      texture_uploads new =
        (if o.interop_use_ && (D.graphics_interop_map o.world).1 then 0 else 1) ∧
      (Full.copy_to_gpu_display K E D o sample_scale).interop_use_ =
        (o.interop_use_ && (D.graphics_interop_map o.world).1) ∧
      (Full.copy_to_gpu_display K E D o sample_scale).interop_use_checked_ = true ∧
      (Full.copy_to_gpu_display K E D o sample_scale).max_active_path_index_ =
        o.max_active_path_index_ := by
  unfold Full.copy_to_gpu_display
  simp only [hc, not_true_eq_false, if_false, if_true]
  by_cases hu : o.interop_use_ = true
  · rw [if_pos hu]
    obtain ⟨new, h1, h2, h3, h4, h5, h6, h7, h8⟩ :=
      Full.copy_to_gpu_display_interop_spec K E D o sample_scale
    rw [h5] at h3 ⊢
    by_cases hm : (D.graphics_interop_map o.world).1 = true
    · rw [if_pos hm]
      exact ⟨new, h1, h2, by simp [h3, hu], by simp [h4, hu, hm], by simp [h6, hu, hm],
        by rw [h7, hc], h8⟩
    · rw [if_neg hm]
      obtain ⟨new', g1, g2, g3, g4, g5, g6, g7⟩ := Full.copy_to_gpu_display_naive_spec K E
        { (Full.copy_to_gpu_display_interop K E D o sample_scale).2 with interop_use_ := false }
        sample_scale
      refine ⟨new ++ new', ?_, ?_, ?_, ?_, ?_, ?_, ?_⟩
      · rw [g1]; dsimp only; rw [h1, List.append_assoc]
      · rw [interop_probes_append, h2, g2]; rfl
      · rw [interop_maps_append, h3, g3]; simp [hu]
      · rw [texture_uploads_append, h4, g4]; simp [hm]
      · rw [g5]; simp [hm]
      · rw [g6]; dsimp only; rw [h7, hc]
      · rw [g7]; exact h8
  · rw [if_neg hu]
    obtain ⟨new', g1, g2, g3, g4, g5, g6, g7⟩ :=
      Full.copy_to_gpu_display_naive_spec K E o sample_scale
    exact ⟨new', g1, g2, by simp [g3, hu], by simp [g4, hu], by simp [g5, hu],
      by rw [g6, hc], g7⟩

/-- The first call of `copy_to_gpu_display`: it probes once, caches the decision, and goes on
as a call with that decision cached. -/
theorem Full.copy_to_gpu_display_unchecked (K : DeviceKernelEnum) (E : Environment W)
    (D : DisplayEnvironment W) (o : Full W) (sample_scale : Float32)
    (hc : o.interop_use_checked_ = false) :
    ∃ new, (Full.copy_to_gpu_display K E D o sample_scale).trace = o.trace ++ new ∧
      interop_probes new = [D.should_use_graphics_interop o.world] ∧
      interop_maps new =
        (if D.should_use_graphics_interop o.world then [(D.graphics_interop_map o.world).1]
          else []) ∧
      texture_uploads new =
        (if D.should_use_graphics_interop o.world && (D.graphics_interop_map o.world).1 then 0
          else 1) ∧
      (Full.copy_to_gpu_display K E D o sample_scale).interop_use_ =
        (D.should_use_graphics_interop o.world && (D.graphics_interop_map o.world).1) ∧
      (Full.copy_to_gpu_display K E D o sample_scale).interop_use_checked_ = true ∧
      (Full.copy_to_gpu_display K E D o sample_scale).max_active_path_index_ =
        o.max_active_path_index_ := by
  have hstep : Full.copy_to_gpu_display K E D o sample_scale =
      Full.copy_to_gpu_display K E D
        { o.emit (Event.should_use_graphics_interop (D.should_use_graphics_interop o.world)) with
          interop_use_ := D.should_use_graphics_interop o.world, interop_use_checked_ := true }
        sample_scale := by
    unfold Full.copy_to_gpu_display
    simp only [hc, Bool.false_eq_true, not_false_eq_true, not_true_eq_false, if_true, if_false]
  obtain ⟨new, h1, h2, h3, h4, h5, h6, h7⟩ := Full.copy_to_gpu_display_checked K E D
    { o.emit (Event.should_use_graphics_interop (D.should_use_graphics_interop o.world)) with
      interop_use_ := D.should_use_graphics_interop o.world, interop_use_checked_ := true }
    sample_scale rfl
  rw [← hstep] at h1 h5 h6 h7
  refine ⟨Event.should_use_graphics_interop (D.should_use_graphics_interop o.world) :: new,
    ?_, ?_, ?_, ?_, h5, h6, h7⟩
  · rw [h1]; simp [Full.emit]
  · simp [interop_probes, h2]
  · simpa [interop_maps] using h3
  · simpa [texture_uploads] using h4

end PathTraceWorkGPU


namespace PathTraceWorkGPU

variable {W : Type}

/-! ### Where the high-water mark changes -/

/-- The high-water mark after `enqueue_work_tiles(finished)`: the reset value when no tile was
returned, and the value after tile initialization from the reset value otherwise. -/
theorem enqueue_work_tiles_max_active (K : DeviceKernelEnum) (E : Environment W)
    (max_num_paths : Int) (fuel : Nat) (st : PathTraceWorkGPU W) (finished : Bool)
    (r : WorkTilesResult W)
    (h : enqueue_work_tiles K E max_num_paths fuel st finished = some r) :
    ∃ new, r.st.trace = st.trace ++ new ∧
      r.st.max_active_path_index_ =
        (if tiles_returned new = [] then
          (if get_num_active_paths K st = 0 then 0 else st.max_active_path_index_)
        else min ((if get_num_active_paths K st = 0 then 0 else st.max_active_path_index_) +
          volume_sum (tiles_returned new)) max_num_paths) ∧
      (tiles_returned new ≠ [] → camera_launches new ≠ []) ∧
      (E.NonnegTiles → ∀ t ∈ tiles_returned new, 0 ≤ t.volume) := by
  by_cases hcancel : E.is_cancel_requested st.world = true
  · rw [enqueue_work_tiles_of_cancel K E max_num_paths fuel st finished hcancel] at h
    cases h
    exact ⟨[], by simp, by simp [tiles_returned], fun h => absurd rfl h,
      fun _ t ht => by simp [tiles_returned] at ht⟩
  · obtain ⟨new, world, hc, -, -, -, -, -, hst, -, -, -, -, htiles⟩ :=
      enqueue_work_tiles_spec K E max_num_paths fuel st finished r (by simpa using hcancel) h
    generalize (if get_num_active_paths K st = 0 then 0 else st.max_active_path_index_) = mx
      at hst ⊢
    by_cases ht : tiles_returned new = []
    · rw [if_pos ht] at hst
      exact ⟨new, by rw [hst], by rw [hst, if_pos ht], fun h => absurd ht h, htiles⟩
    · rw [if_neg ht] at hst
      obtain ⟨⟨new', h1, h2, h3, -⟩, h4, -⟩ := enqueue_work_tiles_kernel_spec K E max_num_paths
        { st with world := world, max_active_path_index_ := mx, trace := st.trace ++ new }
        K.INTEGRATOR_INIT_FROM_CAMERA (tiles_returned new)
      have hret : tiles_returned (new ++ new') = tiles_returned new := by
        rw [tiles_returned_append, h2, List.append_nil]
      refine ⟨new ++ new', by rw [hst, h1, List.append_assoc], ?_, fun _ => ?_, ?_⟩
      · rw [hret, if_neg ht, hst, h4]
      · rw [camera_launches_append, hc, h3, List.nil_append]
        simpa using ht
      · rw [hret]; exact htiles

theorem Full.copy_to_gpu_display_max_active (K : DeviceKernelEnum) (E : Environment W)
    (D : DisplayEnvironment W) (o : Full W) (sample_scale : Float32) :
    (Full.copy_to_gpu_display K E D o sample_scale).max_active_path_index_ =
      o.max_active_path_index_ := by
  by_cases hc : o.interop_use_checked_ = true
  · obtain ⟨_, -, -, -, -, -, -, h⟩ := Full.copy_to_gpu_display_checked K E D o sample_scale hc
    exact h
  · obtain ⟨_, -, -, -, -, -, -, h⟩ := Full.copy_to_gpu_display_unchecked K E D o sample_scale
      (by simpa using hc)
    exact h

theorem Full.adaptive_sampling_converge_and_filter_max_active (K : DeviceKernelEnum)
    (E : Environment W) (o : Full W) (sample : Int) :
    (Full.adaptive_sampling_converge_and_filter K E o sample).2.max_active_path_index_ =
      o.max_active_path_index_ := rfl

/-- C20: `compute_queued_paths`, both `enqueue_path_iteration`, `copy_to_gpu_display` and
`adaptive_sampling_converge_and_filter` leave `max_active_path_index_` unchanged. For a mark
within the pool and tiles of non-negative volume, tile initialization does not decrease it, and
over a call of `enqueue_work_tiles(finished)` it decreases only when the active path count is
zero, it is then the value tile initialization reaches from 0 with the tiles returned (0 when
there are none), and it increases only when tiles were initialized. -/
theorem max_active_path_index_changes (K : DeviceKernelEnum) (E : Environment W)
    (D : DisplayEnvironment W) (max_num_paths : Int) (o : Full W) (hcap : 0 ≤ max_num_paths)
    (hnn : E.NonnegTiles) (hinv : MaxActiveInBounds max_num_paths o.toPathTraceWorkGPU) :
    (∀ kernel queued_kernel,
      (compute_queued_paths K E max_num_paths o.toPathTraceWorkGPU kernel queued_kernel
        ).max_active_path_index_ = o.max_active_path_index_) ∧
    (∀ kernel,
      (enqueue_path_iteration_kernel K E max_num_paths o.toPathTraceWorkGPU kernel
        ).max_active_path_index_ = o.max_active_path_index_) ∧
    (enqueue_path_iteration K E max_num_paths o.toPathTraceWorkGPU).2.max_active_path_index_ =
      o.max_active_path_index_ ∧
    (∀ sample_scale, (Full.copy_to_gpu_display K E D o sample_scale).max_active_path_index_ =
      o.max_active_path_index_) ∧
    (∀ sample,
      (Full.adaptive_sampling_converge_and_filter K E o sample).2.max_active_path_index_ =
        o.max_active_path_index_) ∧
    (∀ kernel tiles, (∀ t ∈ tiles, 0 ≤ KernelWorkTile.volume t) →
      o.max_active_path_index_ ≤
        (enqueue_work_tiles_kernel K E max_num_paths o.toPathTraceWorkGPU kernel tiles
          tiles.length).max_active_path_index_) ∧
    (∀ fuel finished r,
      enqueue_work_tiles K E max_num_paths fuel o.toPathTraceWorkGPU finished = some r →
      ∃ new, r.st.trace = o.trace ++ new ∧
        (r.st.max_active_path_index_ < o.max_active_path_index_ →
          get_num_active_paths K o.toPathTraceWorkGPU = 0) ∧
        (get_num_active_paths K o.toPathTraceWorkGPU = 0 →
          r.st.max_active_path_index_ =
            min (volume_sum (tiles_returned new)) max_num_paths) ∧
        (o.max_active_path_index_ < r.st.max_active_path_index_ →
          camera_launches new ≠ [])) := by
  refine ⟨fun kernel queued_kernel =>
      (compute_queued_paths_frame K E max_num_paths _ kernel queued_kernel).1,
    fun kernel => (enqueue_path_iteration_kernel_eq K E max_num_paths _ kernel).2.1,
    (enqueue_path_iteration_eq K E max_num_paths _).2.1,
    fun sample_scale => Full.copy_to_gpu_display_max_active K E D o sample_scale,
    fun sample => Full.adaptive_sampling_converge_and_filter_max_active K E o sample,
    fun kernel tiles htiles => ?_, fun fuel finished r h => ?_⟩
  · rw [(enqueue_work_tiles_kernel_spec K E max_num_paths _ kernel tiles).2.1]
    have hv := volume_sum_nonneg tiles htiles
    exact le_min (by omega) hinv.2
  · obtain ⟨new, htrace, hmax, hcam, htiles⟩ :=
      enqueue_work_tiles_max_active K E max_num_paths fuel _ finished r h
    have hv := volume_sum_nonneg _ (htiles hnn)
    obtain ⟨h0, h1⟩ := hinv
    refine ⟨new, htrace, fun hlt => ?_, fun hz => ?_, fun hlt => ?_⟩
    · by_contra hz
      rw [hmax, if_neg hz] at hlt
      split_ifs at hlt with ht
      · omega
      · rcases min_choice (o.max_active_path_index_ + volume_sum (tiles_returned new))
          max_num_paths with hm | hm <;> rw [hm] at hlt <;> omega
    · rw [hmax, if_pos hz]
      split_ifs with ht
      · rw [ht]; simp [volume_sum, hcap]
      · rw [zero_add]
    · apply hcam
      intro ht
      rw [hmax, if_pos ht] at hlt
      split_ifs at hlt <;> omega

/-- Witness of C20: from 3 slots in use and no active path, a call of
`enqueue_work_tiles(finished)` that gets the two sample tiles ends with 14 slots in use. -/
theorem max_active_path_index_changes_witness :
    ∃ r, enqueue_work_tiles sampleKernels (sampleEnvironment sampleKernels) get_max_num_paths 3
        (sampleState ⟨sampleTiles, fun _ => 0, true, false⟩ (countersOf []) 3) false = some r ∧
      r.st.max_active_path_index_ = 14 ∧
      ∃ new, r.st.trace =
          (sampleState ⟨sampleTiles, fun _ => 0, true, false⟩ (countersOf []) 3).trace ++ new ∧
        r.st.max_active_path_index_ = min (volume_sum (tiles_returned new)) get_max_num_paths ∧
        ((3 : Int) < r.st.max_active_path_index_ → camera_launches new ≠ []) :=
  ⟨_, rfl, by decide,
    let ⟨new, h, _, hz, hinc⟩ := (max_active_path_index_changes sampleKernels
      (sampleEnvironment sampleKernels) (sampleDisplay true true) get_max_num_paths
      { sampleObject ⟨sampleTiles, fun _ => 0, true, false⟩ with
        toPathTraceWorkGPU :=
          sampleState ⟨sampleTiles, fun _ => 0, true, false⟩ (countersOf []) 3 }
      (by decide) (nonnegTiles_of_tilesFit (sampleEnvironment_tilesFit sampleKernels))
      ⟨by decide, by decide⟩).2.2.2.2.2.2 3 false _ rfl
    ⟨new, h, hz (by decide), hinc⟩⟩

end PathTraceWorkGPU


namespace PathTraceWorkGPU

variable {W : Type}

/-- Calls of `copy_to_gpu_display` after the probe do not probe again. -/
theorem Full.copy_to_gpu_display_calls_checked (K : DeviceKernelEnum) (E : Environment W)
    (D : DisplayEnvironment W) (calls : List Float32) :
    ∀ o : Full W, o.interop_use_checked_ = true →
      ∃ later, (Full.copy_to_gpu_display_calls K E D o calls).trace = o.trace ++ later ∧
        interop_probes later = [] ∧
        (Full.copy_to_gpu_display_calls K E D o calls).interop_use_checked_ = true := by
  induction calls with
  | nil => intro o hc; exact ⟨[], by simp [Full.copy_to_gpu_display_calls], rfl, hc⟩
  | cons s calls ih =>
    intro o hc
    obtain ⟨new, h1, h2, -, -, -, h6, -⟩ := Full.copy_to_gpu_display_checked K E D o s hc
    obtain ⟨later, g1, g2, g3⟩ := ih _ h6
    refine ⟨new ++ later, ?_, ?_, g3⟩
    · unfold Full.copy_to_gpu_display_calls at g1 ⊢
      rw [List.foldl_cons, g1, h1, List.append_assoc]
    · rw [interop_probes_append, h2, g2]; rfl

/-- Calls of `copy_to_gpu_display` with the decision against interop cached all take the naive
path, and the decision stays. -/
theorem Full.copy_to_gpu_display_calls_naive (K : DeviceKernelEnum) (E : Environment W)
    (D : DisplayEnvironment W) (calls : List Float32) :
    ∀ o : Full W, o.interop_use_checked_ = true → o.interop_use_ = false →
      ∃ later, (Full.copy_to_gpu_display_calls K E D o calls).trace = o.trace ++ later ∧
        interop_probes later = [] ∧ interop_maps later = [] ∧
        texture_uploads later = calls.length ∧
        (Full.copy_to_gpu_display_calls K E D o calls).interop_use_ = false := by
  induction calls with
  | nil => intro o _ hu; exact ⟨[], by simp [Full.copy_to_gpu_display_calls], rfl, rfl, rfl, hu⟩
  | cons s calls ih =>
    intro o hc hu
    obtain ⟨new, h1, h2, h3, h4, h5, h6, -⟩ := Full.copy_to_gpu_display_checked K E D o s hc
    rw [hu] at h3 h4 h5
    obtain ⟨later, g1, g2, g3, g4, g5⟩ := ih _ h6 (by simpa using h5)
    refine ⟨new ++ later, ?_, ?_, ?_, ?_, g5⟩
    · unfold Full.copy_to_gpu_display_calls at g1 ⊢
      rw [List.foldl_cons, g1, h1, List.append_assoc]
    · rw [interop_probes_append, h2, g2]; rfl
    · rw [interop_maps_append, h3, g3]; rfl
    · rw [texture_uploads_append, h4, g4]; simp; omega

/-- C14: when the interop mapping fails in a call of `copy_to_gpu_display`, that call uploads the
pixels through the naive path and leaves `interop_use_` false; every sequence of later calls on
the instance then maps nothing, probes nothing, takes the naive path once per call and leaves
`interop_use_` false. -/
theorem copy_to_gpu_display_interop_failure (K : DeviceKernelEnum) (E : Environment W)
    (D : DisplayEnvironment W) (o : Full W) (sample_scale : Float32) (new : List Event)
    (htrace : (Full.copy_to_gpu_display K E D o sample_scale).trace = o.trace ++ new)
    (hfail : interop_maps new = [false]) :
    texture_uploads new = 1 ∧
    (Full.copy_to_gpu_display K E D o sample_scale).interop_use_ = false ∧
    ∀ calls : List Float32, ∃ later,
      (Full.copy_to_gpu_display_calls K E D (Full.copy_to_gpu_display K E D o sample_scale)
        calls).trace = (Full.copy_to_gpu_display K E D o sample_scale).trace ++ later ∧
      interop_probes later = [] ∧ interop_maps later = [] ∧
      texture_uploads later = calls.length ∧
      (Full.copy_to_gpu_display_calls K E D (Full.copy_to_gpu_display K E D o sample_scale)
        calls).interop_use_ = false := by
  have key : ∀ use : Bool, ∀ new', o.trace ++ new = o.trace ++ new' →
      interop_maps new' = (if use then [(D.graphics_interop_map o.world).1] else []) →
      texture_uploads new' = (if use && (D.graphics_interop_map o.world).1 then 0 else 1) →
      (Full.copy_to_gpu_display K E D o sample_scale).interop_use_ =
        (use && (D.graphics_interop_map o.world).1) →
      texture_uploads new = 1 ∧
        (Full.copy_to_gpu_display K E D o sample_scale).interop_use_ = false := by
    intro use new' heq h3 h4 h5
    have := List.append_cancel_left heq
    subst this
    rw [hfail] at h3
    cases use
    · simp at h3
    · simp only [if_true, List.cons.injEq, and_true] at h3
      rw [← h3] at h4 h5
      exact ⟨by simpa using h4, by simpa using h5⟩
  have hchecked : (Full.copy_to_gpu_display K E D o sample_scale).interop_use_checked_ = true ∧
      texture_uploads new = 1 ∧
      (Full.copy_to_gpu_display K E D o sample_scale).interop_use_ = false := by
    by_cases hc : o.interop_use_checked_ = true
    · obtain ⟨new', h1, -, h3, h4, h5, h6, -⟩ :=
        Full.copy_to_gpu_display_checked K E D o sample_scale hc
      exact ⟨h6, key _ new' (by rw [← htrace, h1]) h3 h4 h5⟩
    · obtain ⟨new', h1, -, h3, h4, h5, h6, -⟩ :=
        Full.copy_to_gpu_display_unchecked K E D o sample_scale (by simpa using hc)
      exact ⟨h6, key _ new' (by rw [← htrace, h1]) h3 h4 h5⟩
  exact ⟨hchecked.2.1, hchecked.2.2, fun calls =>
    Full.copy_to_gpu_display_calls_naive K E D calls _ hchecked.1 hchecked.2.2⟩

/-- Witness of C14: interop is supported and the mapping fails; the first call falls back to
the naive path and two later calls take it without mapping. -/
theorem copy_to_gpu_display_interop_failure_witness :
    interop_maps (Full.copy_to_gpu_display sampleKernels (sampleEnvironment sampleKernels)
        (sampleDisplay true false) (sampleObject ⟨[], fun _ => 0, true, false⟩)
        (Float32.ofInt 1)).trace = [false] ∧
    ∃ later,
      (Full.copy_to_gpu_display_calls sampleKernels (sampleEnvironment sampleKernels)
        (sampleDisplay true false)
        (Full.copy_to_gpu_display sampleKernels (sampleEnvironment sampleKernels)
          (sampleDisplay true false) (sampleObject ⟨[], fun _ => 0, true, false⟩)
          (Float32.ofInt 1))
        [Float32.ofInt 1, Float32.ofInt 1]).trace =
        (Full.copy_to_gpu_display sampleKernels (sampleEnvironment sampleKernels)
          (sampleDisplay true false) (sampleObject ⟨[], fun _ => 0, true, false⟩)
          (Float32.ofInt 1)).trace ++ later ∧
      interop_probes later = [] ∧ interop_maps later = [] ∧ texture_uploads later = 2 :=
  ⟨by decide,
    let ⟨later, h1, h2, h3, h4, _⟩ := (copy_to_gpu_display_interop_failure sampleKernels
      (sampleEnvironment sampleKernels) (sampleDisplay true false)
      (sampleObject ⟨[], fun _ => 0, true, false⟩) (Float32.ofInt 1)
      (Full.copy_to_gpu_display sampleKernels (sampleEnvironment sampleKernels)
        (sampleDisplay true false) (sampleObject ⟨[], fun _ => 0, true, false⟩)
        (Float32.ofInt 1)).trace rfl (by decide)).2.2 [Float32.ofInt 1, Float32.ofInt 1]
    ⟨later, h1, h2, h3, h4⟩⟩

/-- C15: on an instance that has not probed yet, the first call of `copy_to_gpu_display` calls
`should_use_graphics_interop` once and caches the decision, and no sequence of later calls
probes again; every call on an instance that has probed maps exactly when the cached decision
is to use interop, whatever the probe or earlier mappings returned. -/
theorem copy_to_gpu_display_probes_once (K : DeviceKernelEnum) (E : Environment W)
    (D : DisplayEnvironment W) (o : Full W) (sample_scale : Float32) (calls : List Float32)
    (hfresh : o.interop_use_checked_ = false) :
    (∃ first later,
      (Full.copy_to_gpu_display K E D o sample_scale).trace = o.trace ++ first ∧
      (Full.copy_to_gpu_display_calls K E D (Full.copy_to_gpu_display K E D o sample_scale)
        calls).trace = (Full.copy_to_gpu_display K E D o sample_scale).trace ++ later ∧
      interop_probes first = [D.should_use_graphics_interop o.world] ∧
      interop_probes later = [] ∧
      (Full.copy_to_gpu_display_calls K E D o (sample_scale :: calls)).trace =
        o.trace ++ (first ++ later)) ∧
    (Full.copy_to_gpu_display K E D o sample_scale).interop_use_checked_ = true ∧
    (∀ (o' : Full W) (s : Float32), o'.interop_use_checked_ = true →
      ∃ new, (Full.copy_to_gpu_display K E D o' s).trace = o'.trace ++ new ∧
        interop_probes new = [] ∧
        (interop_maps new ≠ [] ↔ o'.interop_use_ = true) ∧
        (Full.copy_to_gpu_display K E D o' s).interop_use_checked_ = true) := by
  obtain ⟨first, h1, h2, -, -, -, h6, -⟩ :=
    Full.copy_to_gpu_display_unchecked K E D o sample_scale hfresh
  obtain ⟨later, g1, g2, -⟩ := Full.copy_to_gpu_display_calls_checked K E D calls _ h6
  refine ⟨⟨first, later, h1, g1, h2, g2, ?_⟩, h6, fun o' s hc => ?_⟩
  · unfold Full.copy_to_gpu_display_calls at g1 ⊢
    rw [List.foldl_cons, g1, h1, List.append_assoc]
  · obtain ⟨new, k1, k2, k3, -, -, k6, -⟩ := Full.copy_to_gpu_display_checked K E D o' s hc
    refine ⟨new, k1, k2, ?_, k6⟩
    rw [k3]
    cases o'.interop_use_ <;> simp

/-- Witness of C15: three calls on a fresh instance with interop supported and mapping
successfully probe once. -/
theorem copy_to_gpu_display_probes_once_witness :
    interop_probes (Full.copy_to_gpu_display_calls sampleKernels
        (sampleEnvironment sampleKernels) (sampleDisplay true true)
        (sampleObject ⟨[], fun _ => 0, true, false⟩)
        [Float32.ofInt 1, Float32.ofInt 1, Float32.ofInt 1]).trace = [true] ∧
    ∃ first later,
      (Full.copy_to_gpu_display sampleKernels (sampleEnvironment sampleKernels)
        (sampleDisplay true true) (sampleObject ⟨[], fun _ => 0, true, false⟩)
        (Float32.ofInt 1)).trace =
        (sampleObject ⟨[], fun _ => 0, true, false⟩).trace ++ first ∧
      (Full.copy_to_gpu_display_calls sampleKernels (sampleEnvironment sampleKernels)
        (sampleDisplay true true)
        (Full.copy_to_gpu_display sampleKernels (sampleEnvironment sampleKernels)
          (sampleDisplay true true) (sampleObject ⟨[], fun _ => 0, true, false⟩)
          (Float32.ofInt 1))
        [Float32.ofInt 1, Float32.ofInt 1]).trace =
        (Full.copy_to_gpu_display sampleKernels (sampleEnvironment sampleKernels)
          (sampleDisplay true true) (sampleObject ⟨[], fun _ => 0, true, false⟩)
          (Float32.ofInt 1)).trace ++ later ∧
      interop_probes first = [true] ∧ interop_probes later = [] :=
  ⟨by decide,
    let ⟨first, later, h1, h2, h3, h4, _⟩ := (copy_to_gpu_display_probes_once sampleKernels
      (sampleEnvironment sampleKernels) (sampleDisplay true true)
      (sampleObject ⟨[], fun _ => 0, true, false⟩) (Float32.ofInt 1)
      [Float32.ofInt 1, Float32.ofInt 1] rfl).1
    ⟨first, later, h1, h2, h3, h4⟩⟩

/-! ### Adaptive sampling -/

/-- C16: `adaptive_sampling_converge_and_filter(sample)` extends the trace by exactly four calls,
in this order: the launch of the convergence check over `width * height` items, the launch of
the X filter over `height` items, the launch of the Y filter over `width` items, and
`synchronize`; then it returns true. -/
theorem adaptive_sampling_converge_and_filter_order (K : DeviceKernelEnum) (E : Environment W)
    (o : Full W) (sample : Int) :
    (Full.adaptive_sampling_converge_and_filter K E o sample).1 = true ∧
    ∃ ok, (Full.adaptive_sampling_converge_and_filter K E o sample).2.trace = o.trace ++
      [Event.enqueue K.ADAPTIVE_SAMPLING_CONVERGENCE_CHECK
        (o.effective_buffer_params_.width * o.effective_buffer_params_.height)
        (KernelArgs.convergence_check o.effective_buffer_params_.full_x
          o.effective_buffer_params_.full_y o.effective_buffer_params_.width
          o.effective_buffer_params_.height sample o.effective_buffer_params_.offset
          o.effective_buffer_params_.stride),
       Event.enqueue K.ADAPTIVE_SAMPLING_CONVERGENCE_FILTER_X o.effective_buffer_params_.height
        (KernelArgs.convergence_filter o.effective_buffer_params_.full_x
          o.effective_buffer_params_.full_y o.effective_buffer_params_.width
          o.effective_buffer_params_.height o.effective_buffer_params_.offset
          o.effective_buffer_params_.stride),
       Event.enqueue K.ADAPTIVE_SAMPLING_CONVERGENCE_FILTER_Y o.effective_buffer_params_.width
        (KernelArgs.convergence_filter o.effective_buffer_params_.full_x
          o.effective_buffer_params_.full_y o.effective_buffer_params_.width
          o.effective_buffer_params_.height o.effective_buffer_params_.offset
          o.effective_buffer_params_.stride),
       Event.synchronize ok] := by
  refine ⟨rfl, ?_⟩
  simp only [Full.adaptive_sampling_converge_and_filter, Full.synchronize,
    Full.enqueue_adaptive_sampling_filter_y, Full.enqueue_adaptive_sampling_filter_x,
    Full.enqueue_adaptive_sampling_convergence_check, queue_enqueue, queue_synchronize,
    List.append_assoc]
  exact ⟨_, rfl⟩

end PathTraceWorkGPU


namespace PathTraceWorkGPU

variable {W : Type}

/-! ### Pool allocation -/

theorem device_allocations_append (a b : List Event) :
    device_allocations (a ++ b) = device_allocations a ++ device_allocations b := by
  induction a with
  | nil => rfl
  | cons e es ih => cases e <;> simp [device_allocations, ih]

/-- The expansion of the state template allocates one device array for each name, in order. -/
theorem Full.foldl_alloc_member (max_num_paths : Int) (names : List String) :
    ∀ s : Full W × Nat,
      (names.foldl (Full.alloc_member max_num_paths) s).1.integrator_state_soa_ =
        s.1.integrator_state_soa_ ++ names ∧
      (names.foldl (Full.alloc_member max_num_paths) s).2 = s.2 + names.length ∧
      ∃ new, (names.foldl (Full.alloc_member max_num_paths) s).1.trace = s.1.trace ++ new ∧
        device_allocations new =
          names.map (fun name => (Buffer.integrator_state name, max_num_paths)) := by
  induction names with
  | nil => intro s; exact ⟨by simp, by simp, [], by simp, rfl⟩
  | cons name names ih =>
    intro s
    obtain ⟨h1, h2, new, h3, h4⟩ := ih (Full.alloc_member max_num_paths s name)
    rw [List.foldl_cons]
    refine ⟨?_, ?_, [Event.alloc_to_device (Buffer.integrator_state name) max_num_paths,
      Event.zero_to_device (Buffer.integrator_state name)] ++ new, ?_, ?_⟩
    · rw [h1]; simp [Full.alloc_member, Full.emit]
    · rw [h2]; simp [Full.alloc_member]; omega
    · rw [h3]; simp [Full.alloc_member, Full.emit]
    · rw [device_allocations_append, h4]; rfl

/-- A call of `alloc_integrator_state` on an instance that holds state arrays returns at once. -/
theorem Full.alloc_integrator_state_of_allocated (template : List KernelStruct)
    (max_num_paths : Int) (o : Full W) (h : o.integrator_state_soa_ ≠ []) :
    Full.alloc_integrator_state template max_num_paths o = o := by
  unfold Full.alloc_integrator_state
  rw [if_pos (by simpa using h)]

/-- A call of `alloc_integrator_state` on an instance without state arrays allocates one array
for each member of the template. -/
theorem Full.alloc_integrator_state_of_empty (template : List KernelStruct)
    (max_num_paths : Int) (o : Full W) (h : o.integrator_state_soa_ = []) :
    (Full.alloc_integrator_state template max_num_paths o).integrator_state_soa_ =
      template_arrays template ∧
    ∃ new, (Full.alloc_integrator_state template max_num_paths o).trace = o.trace ++ new ∧
      device_allocations new =
        (template_arrays template).map
          (fun name => (Buffer.integrator_state name, max_num_paths)) := by
  obtain ⟨h1, -, new, h3, h4⟩ :=
    Full.foldl_alloc_member max_num_paths (template_arrays template) (o, 0)
  unfold Full.alloc_integrator_state
  rw [if_neg (by simp [h])]
  refine ⟨?_, new ++ [Event.const_copy_to "__integrator_state"
    ((template_arrays template).foldl (Full.alloc_member max_num_paths) (o, 0)).2], ?_, ?_⟩
  · simp only [Full.emit]
    rw [h1, h, List.nil_append]
  · simp only [Full.emit]
    rw [h3, List.append_assoc]
  · rw [device_allocations_append, h4]; simp [device_allocations]

/-- C13: a second call of `alloc_integrator_state` leaves the list of state arrays as the first
call left it and allocates no device array; when the template has a member it changes nothing
at all. A second call of `alloc_integrator_queue` changes nothing at all. -/
theorem alloc_integrator_state_idempotent (template : List KernelStruct) (max_num_paths : Int)
    (o : Full W) :
    ((Full.alloc_integrator_state template max_num_paths
        (Full.alloc_integrator_state template max_num_paths o)).integrator_state_soa_ =
      (Full.alloc_integrator_state template max_num_paths o).integrator_state_soa_ ∧
    device_allocations (Full.alloc_integrator_state template max_num_paths
        (Full.alloc_integrator_state template max_num_paths o)).trace =
      device_allocations (Full.alloc_integrator_state template max_num_paths o).trace) ∧
    (template_arrays template ≠ [] →
      Full.alloc_integrator_state template max_num_paths
          (Full.alloc_integrator_state template max_num_paths o) =
        Full.alloc_integrator_state template max_num_paths o) ∧
    Full.alloc_integrator_queue (Full.alloc_integrator_queue o) =
      Full.alloc_integrator_queue o := by
  refine ⟨?_, fun hT => ?_, ?_⟩
  · by_cases h1 : (Full.alloc_integrator_state template max_num_paths o).integrator_state_soa_
        = []
    · obtain ⟨g1, new, g2, g3⟩ := Full.alloc_integrator_state_of_empty template max_num_paths
        (Full.alloc_integrator_state template max_num_paths o) h1
      have hT : template_arrays template = [] := by
        by_cases h0 : o.integrator_state_soa_ = []
        · rw [(Full.alloc_integrator_state_of_empty template max_num_paths o h0).1] at h1
          exact h1
        · rw [Full.alloc_integrator_state_of_allocated template max_num_paths o h0] at h1
          exact absurd h1 h0
      rw [g1, h1, hT, g2, device_allocations_append, g3, hT]
      simp
    · rw [Full.alloc_integrator_state_of_allocated template max_num_paths _ h1]
      exact ⟨rfl, rfl⟩
  · apply Full.alloc_integrator_state_of_allocated
    by_cases h0 : o.integrator_state_soa_ = []
    · rw [(Full.alloc_integrator_state_of_empty template max_num_paths o h0).1]
      exact hT
    · rw [Full.alloc_integrator_state_of_allocated template max_num_paths o h0]
      exact h0
  · by_cases hq : o.integrator_path_queue_size = 0
    · have h1 : (Full.alloc_integrator_queue o).integrator_path_queue_size ≠ 0 := by
        unfold Full.alloc_integrator_queue
        rw [if_neg (by simp [hq])]
        simp [Full.emit]
      generalize Full.alloc_integrator_queue o = o1 at h1 ⊢
      unfold Full.alloc_integrator_queue
      rw [if_pos h1]
    · have h1 : Full.alloc_integrator_queue o = o := by
        unfold Full.alloc_integrator_queue
        rw [if_pos hq]
      rw [h1, h1]

/-- Witness of C13: the sample template has four arrays; after the first call the instance holds
them, and the second call returns the instance unchanged. -/
theorem alloc_integrator_state_idempotent_witness :
    (Full.alloc_integrator_state sampleTemplate get_max_num_paths
        (sampleObject ⟨[], fun _ => 0, true, false⟩)).integrator_state_soa_.length = 4 ∧
    Full.alloc_integrator_state sampleTemplate get_max_num_paths
        (Full.alloc_integrator_state sampleTemplate get_max_num_paths
          (sampleObject ⟨[], fun _ => 0, true, false⟩)) =
      Full.alloc_integrator_state sampleTemplate get_max_num_paths
        (sampleObject ⟨[], fun _ => 0, true, false⟩) :=
  ⟨by decide, (alloc_integrator_state_idempotent sampleTemplate get_max_num_paths
    (sampleObject ⟨[], fun _ => 0, true, false⟩)).2.1 (by decide)⟩

end PathTraceWorkGPU


namespace PathTraceWorkGPU

variable {W : Type}

/-! ### The gathering loop ends -/

/-- With a scheduler that makes progress, the gathering loop gets at most
`max_num_paths - num_paths` tiles. -/
theorem gather_work_tiles_bound (E : Environment W) (max_num_paths : Int)
    (hprog : E.Progress) :
    ∀ (fuel : Nat) (g g' : GatherTiles W), gather_work_tiles E max_num_paths fuel g = some g' →
      ∃ new, g'.st.trace = g.st.trace ++ new ∧
        (tiles_returned new).length ≤ (max_num_paths - g.num_paths).toNat := by
  intro fuel
  induction fuel with
  | zero =>
    intro g g' h
    unfold gather_work_tiles at h
    split_ifs at h with hlt
    cases h
    exact ⟨[], by simp, by simp [tiles_returned]⟩
  | succ fuel ih =>
    intro g g' h
    unfold gather_work_tiles at h
    split_ifs at h with hlt
    · rcases hgw : E.get_work g.st.world (max_num_paths - g.num_paths) with ⟨_ | t, w⟩
      · rw [hgw] at h
        cases h
        exact ⟨[Event.get_work (max_num_paths - g.num_paths) none], rfl,
          by simp [tiles_returned]⟩
      · rw [hgw] at h
        obtain ⟨new, h1, h2⟩ := ih _ _ h
        have hv := hprog _ _ _ _ hgw
        simp only [KernelWorkTile.volume] at hv
        dsimp only at h1 h2
        refine ⟨Event.get_work (max_num_paths - g.num_paths) (some t) :: new,
          by rw [h1]; simp, ?_⟩
        simp only [tiles_returned, List.length_cons]
        omega
    · cases h
      exact ⟨[], by simp, by simp [tiles_returned]⟩

/-- More fuel does not change what the gathering loop returns. -/
theorem gather_work_tiles_fuel_mono (E : Environment W) (max_num_paths : Int) :
    ∀ (fuel fuel' : Nat) (g g' : GatherTiles W), fuel ≤ fuel' →
      gather_work_tiles E max_num_paths fuel g = some g' →
      gather_work_tiles E max_num_paths fuel' g = some g' := by
  intro fuel
  induction fuel with
  | zero =>
    intro fuel' g g' _ h
    unfold gather_work_tiles at h
    split_ifs at h with hlt
    cases h
    cases fuel' with
    | zero => unfold gather_work_tiles; rw [if_neg hlt]
    | succ n => unfold gather_work_tiles; rw [if_neg hlt]
  | succ fuel ih =>
    intro fuel' g g' hle h
    obtain ⟨n, rfl⟩ : ∃ n, fuel' = n + 1 := ⟨fuel' - 1, by omega⟩
    unfold gather_work_tiles at h ⊢
    split_ifs at h ⊢ with hlt
    · rcases hgw : E.get_work g.st.world (max_num_paths - g.num_paths) with ⟨_ | t, w⟩
      · rw [hgw] at h; exact h
      · rw [hgw] at h
        exact ih n _ _ (by omega) h
    · exact h

/-- More fuel does not change what `enqueue_work_tiles(finished)` returns. -/
theorem enqueue_work_tiles_fuel_mono (K : DeviceKernelEnum) (E : Environment W)
    (max_num_paths : Int) (st : PathTraceWorkGPU W) (finished : Bool) (fuel fuel' : Nat)
    (hle : fuel ≤ fuel') (r : WorkTilesResult W)
    (h : enqueue_work_tiles K E max_num_paths fuel st finished = some r) :
    enqueue_work_tiles K E max_num_paths fuel' st finished = some r := by
  have hst' : (if get_num_active_paths K st = 0 then { st with max_active_path_index_ := 0 }
      else st) = { st with max_active_path_index_ :=
        if get_num_active_paths K st = 0 then 0 else st.max_active_path_index_ } := by
    split_ifs <;> rfl
  unfold enqueue_work_tiles at h ⊢
  simp only [hst'] at h ⊢
  generalize (if get_num_active_paths K st = 0 then 0 else st.max_active_path_index_) = mx
    at h ⊢
  by_cases hc : E.is_cancel_requested st.world = true
  · rw [if_pos hc] at h ⊢; exact h
  · rw [if_neg hc] at h ⊢
    by_cases hcond : get_num_active_paths K st = 0 ∨
        below_threshold regenerate_threshold (get_num_active_paths K st) max_num_paths = true
    · rw [if_pos hcond] at h ⊢
      rcases hg : gather_work_tiles E max_num_paths fuel
          { st := { st with max_active_path_index_ := mx },
            num_paths := get_num_active_paths K st, work_tiles := [] } with _ | g
      · rw [hg] at h; cases h
      · rw [hg] at h
        rw [gather_work_tiles_fuel_mono E max_num_paths fuel fuel' _ g hle hg]
        exact h
    · rw [if_neg hcond] at h ⊢; exact h

/-- With a scheduler that makes progress, a call of `enqueue_work_tiles(finished)` gets at most
`max_num_paths - num_paths` tiles from it. -/
theorem enqueue_work_tiles_bound (K : DeviceKernelEnum) (E : Environment W)
    (max_num_paths : Int) (fuel : Nat) (st : PathTraceWorkGPU W) (finished : Bool)
    (r : WorkTilesResult W) (hprog : E.Progress)
    (h : enqueue_work_tiles K E max_num_paths fuel st finished = some r) :
    ∃ new, r.st.trace = st.trace ++ new ∧
      (tiles_returned new).length ≤ (max_num_paths - get_num_active_paths K st).toNat := by
  by_cases hcancel : E.is_cancel_requested st.world = true
  · rw [enqueue_work_tiles_of_cancel K E max_num_paths fuel st finished hcancel] at h
    cases h
    exact ⟨[], by simp, by simp [tiles_returned]⟩
  have hst' : (if get_num_active_paths K st = 0 then { st with max_active_path_index_ := 0 }
      else st) = { st with max_active_path_index_ :=
        if get_num_active_paths K st = 0 then 0 else st.max_active_path_index_ } := by
    split_ifs <;> rfl
  unfold enqueue_work_tiles at h
  simp only [hst', hcancel, Bool.false_eq_true, if_false] at h
  by_cases hcond : get_num_active_paths K st = 0 ∨
      below_threshold regenerate_threshold (get_num_active_paths K st) max_num_paths = true
  · rw [if_pos hcond] at h
    generalize (if get_num_active_paths K st = 0 then 0 else st.max_active_path_index_) = mx
      at h
    rcases hg : gather_work_tiles E max_num_paths fuel
        { st := { st with max_active_path_index_ := mx },
          num_paths := get_num_active_paths K st, work_tiles := [] } with _ | g
    · rw [hg] at h; cases h
    · rw [hg] at h
      dsimp only at h
      obtain ⟨new, h1, h2⟩ := gather_work_tiles_bound E max_num_paths hprog fuel _ _ hg
      dsimp only at h1 h2
      split_ifs at h with hfin
      · cases h
        exact ⟨new, h1, h2⟩
      · cases h
        unfold initialize_paths
        split_ifs with hl
        · exact ⟨new, h1, h2⟩
        · obtain ⟨⟨new', h', ht, -⟩, -⟩ := enqueue_work_tiles_kernel_spec K E max_num_paths g.st
            K.INTEGRATOR_INIT_FROM_CAMERA g.work_tiles
          refine ⟨new ++ new', ?_, ?_⟩
          · dsimp only
            rw [h', h1, List.append_assoc]
          · rw [tiles_returned_append, ht, List.append_nil]; exact h2
  · rw [if_neg hcond] at h
    simp only [Option.some.injEq] at h
    subst h
    have hz : get_num_active_paths K st ≠ 0 := fun hz => hcond (Or.inl hz)
    exact ⟨[], by simp [initialize_paths, hz], by simp [tiles_returned]⟩

/-- C21: with a scheduler that never hands out a tile of volume below 1, the gathering loop of
`enqueue_work_tiles(finished)` ends: given fuel for `max_num_paths - num_paths` iterations the
call returns, the successful calls of `get_work` in it number at most the capacity minus the
active path count, and more fuel does not change what it returns. So it is for the capacity of
the source, `get_max_num_paths()`. -/
theorem enqueue_work_tiles_gathering_terminates (K : DeviceKernelEnum) (E : Environment W)
    (st : PathTraceWorkGPU W) (finished : Bool) (hprog : E.Progress) :
    (∀ (max_num_paths : Int) (fuel : Nat),
      (max_num_paths - get_num_active_paths K st).toNat ≤ fuel →
      ∃ r, enqueue_work_tiles K E max_num_paths fuel st finished = some r ∧
        (∀ fuel', fuel ≤ fuel' →
          enqueue_work_tiles K E max_num_paths fuel' st finished = some r) ∧
        ∃ new, r.st.trace = st.trace ++ new ∧
          (tiles_returned new).length ≤
            (max_num_paths - get_num_active_paths K st).toNat) ∧
    (∀ fuel : Nat, (get_max_num_paths - get_num_active_paths K st).toNat ≤ fuel →
      ∃ r, enqueue_work_tiles K E get_max_num_paths fuel st finished = some r ∧
        ∃ new, r.st.trace = st.trace ++ new ∧
          (tiles_returned new).length ≤ (1048576 - get_num_active_paths K st).toNat) := by
  have key : ∀ (max_num_paths : Int) (fuel : Nat),
      (max_num_paths - get_num_active_paths K st).toNat ≤ fuel →
      ∃ r, enqueue_work_tiles K E max_num_paths fuel st finished = some r ∧
        (∀ fuel', fuel ≤ fuel' →
          enqueue_work_tiles K E max_num_paths fuel' st finished = some r) ∧
        ∃ new, r.st.trace = st.trace ++ new ∧
          (tiles_returned new).length ≤
            (max_num_paths - get_num_active_paths K st).toNat := by
    intro max_num_paths fuel hfuel
    obtain ⟨r, hr⟩ :=
      enqueue_work_tiles_terminates K E max_num_paths fuel st finished hprog hfuel
    refine ⟨r, hr, fun fuel' hle => ?_,
      enqueue_work_tiles_bound K E max_num_paths fuel st finished r hprog hr⟩
    exact enqueue_work_tiles_fuel_mono K E max_num_paths st finished fuel fuel' hle r hr
  refine ⟨key, fun fuel hfuel => ?_⟩
  obtain ⟨r, hr, -, hb⟩ := key get_max_num_paths fuel hfuel
  exact ⟨r, hr, hb⟩

/-- Witness of C21, capacity 10: the scheduler holds the two sample tiles of volumes 6 and 8;
the call returns after one successful call of `get_work`, the second tile not fitting the 4
slots that are left. -/
theorem enqueue_work_tiles_gathering_terminates_witness :
    ∃ r, enqueue_work_tiles sampleKernels (sampleEnvironment sampleKernels) 10 10
        (sampleState ⟨sampleTiles, fun _ => 0, true, false⟩ (fun _ => 0) 0) false = some r ∧
      ∃ new, r.st.trace =
          (sampleState ⟨sampleTiles, fun _ => 0, true, false⟩ (fun _ => 0) 0).trace ++ new ∧
        (tiles_returned new).length ≤ 10 :=
  let ⟨r, hr, _, hb⟩ := (enqueue_work_tiles_gathering_terminates sampleKernels
    (sampleEnvironment sampleKernels)
    (sampleState ⟨sampleTiles, fun _ => 0, true, false⟩ (fun _ => 0) 0) false
    (sampleEnvironment_progress sampleKernels)).1 10 10 (by decide)
  ⟨r, hr, hb⟩

end PathTraceWorkGPU


namespace PathTraceWorkGPU

variable {W : Type}

/-! ### The launches of tile initialization -/

theorem compute_queued_paths_kernel_launches (K : DeviceKernelEnum) (E : Environment W)
    (max_num_paths : Int) (st : PathTraceWorkGPU W) (kernel : Nat) (queued_kernel : Int) :
    ∃ new, (compute_queued_paths K E max_num_paths st kernel queued_kernel).trace =
        st.trace ++ new ∧
      kernel_launches new =
        [(kernel, if kernel = K.INTEGRATOR_TERMINATED_PATHS_ARRAY then max_num_paths
          else st.max_active_path_index_,
          KernelArgs.queued_paths (if kernel = K.INTEGRATOR_TERMINATED_PATHS_ARRAY then
            max_num_paths else st.max_active_path_index_) queued_kernel)] := by
  unfold compute_queued_paths
  simp only [queue_enqueue, emit]
  split_ifs <;> simp only [List.append_assoc] <;>
    exact ⟨_, rfl, by simp [kernel_launches, *]⟩

theorem copy_work_tiles_launches (st : PathTraceWorkGPU W) (tiles : List KernelWorkTile)
    (n : Nat) :
    ∃ new, (copy_work_tiles st tiles n).trace = st.trace ++ new ∧
      kernel_launches new = [] ∧ compaction_launches new = [] := by
  unfold copy_work_tiles
  simp only [emit]
  split_ifs <;> (try simp only [List.append_assoc]) <;> exact ⟨_, rfl, rfl, rfl⟩

theorem launch_events_launches (max_num_paths : Int) (kernel : Nat)
    (tiles : List KernelWorkTile) (d_path_index : Option Int) (n : Nat) :
    kernel_launches ((List.range n).flatMap (fun i =>
        [Event.enqueue kernel (tiles.getD i default).volume
          (KernelArgs.init_from_camera
            (d_path_index.map (fun p => p + volume_sum (tiles.take i))) i
            (tiles.getD i default) (tiles.getD i default).volume
            (volume_sum (tiles.take i))),
         Event.dcheck_le (volume_sum (tiles.take (i + 1))) max_num_paths])) =
      (List.range n).map (fun i => (kernel, (tiles.getD i default).volume,
        KernelArgs.init_from_camera
          (d_path_index.map (fun p => p + volume_sum (tiles.take i))) i
          (tiles.getD i default) (tiles.getD i default).volume
          (volume_sum (tiles.take i)))) ∧
    compaction_launches ((List.range n).flatMap (fun i =>
        [Event.enqueue kernel (tiles.getD i default).volume
          (KernelArgs.init_from_camera
            (d_path_index.map (fun p => p + volume_sum (tiles.take i))) i
            (tiles.getD i default) (tiles.getD i default).volume
            (volume_sum (tiles.take i))),
         Event.dcheck_le (volume_sum (tiles.take (i + 1))) max_num_paths])) = [] := by
  induction n with
  | zero => simp [kernel_launches, compaction_launches]
  | succ n ih =>
    obtain ⟨h1, h2⟩ := ih
    rw [List.range_succ, List.flatMap_append, kernel_launches_append, compaction_launches_append,
      h1, h2, List.map_append]
    simp [kernel_launches, compaction_launches]

/-- The kernels that `enqueue_work_tiles(kernel, work_tiles, num_work_tiles)` launches, in
order: the terminated-paths compaction over the whole pool when `max_active_path_index_` is
not zero, then one launch per tile; `d_path_index` and `num_paths` of tile `i` are advanced by
the volumes of the tiles before it. -/
theorem enqueue_work_tiles_kernel_launches (K : DeviceKernelEnum) (E : Environment W)
    (max_num_paths : Int) (st : PathTraceWorkGPU W) (kernel : Nat)
    (tiles : List KernelWorkTile) :
    ∃ new, (enqueue_work_tiles_kernel K E max_num_paths st kernel tiles tiles.length).trace =
        st.trace ++ new ∧
      kernel_launches new =
        (if st.max_active_path_index_ ≠ 0 then
          [(K.INTEGRATOR_TERMINATED_PATHS_ARRAY, max_num_paths,
            KernelArgs.queued_paths max_num_paths 0)]
        else []) ++
        (List.range tiles.length).map (fun i => (kernel, (tiles.getD i default).volume,
          KernelArgs.init_from_camera
            (if st.max_active_path_index_ ≠ 0 then some (volume_sum (tiles.take i)) else none) i
            (tiles.getD i default) (tiles.getD i default).volume
            (volume_sum (tiles.take i)))) ∧
      compaction_launches new =
        (if st.max_active_path_index_ ≠ 0 then
          [(K.INTEGRATOR_TERMINATED_PATHS_ARRAY, max_num_paths, 0)]
        else []) := by
  obtain ⟨new1, size, data, h1, hdata, -⟩ := copy_work_tiles_eq st tiles
  obtain ⟨new1', g1, g2, g3⟩ := copy_work_tiles_launches st tiles tiles.length
  have e1 : new1' = new1 := by
    rw [h1] at g1
    exact (List.append_cancel_left g1).symm
  subst e1
  have hmax : (copy_work_tiles st tiles tiles.length).max_active_path_index_ =
      st.max_active_path_index_ := by rw [h1]
  unfold enqueue_work_tiles_kernel
  simp only [hmax]
  by_cases hc : st.max_active_path_index_ ≠ 0
  · have hd : decide (st.max_active_path_index_ ≠ 0) = true := decide_eq_true hc
    simp only [hd, if_true, if_pos hc]
    obtain ⟨new2, world, qsize, nsize, h2, -⟩ := compute_queued_paths_eq K E
      max_num_paths (copy_work_tiles st tiles tiles.length) K.INTEGRATOR_TERMINATED_PATHS_ARRAY 0
    obtain ⟨new2', k1, k2⟩ := compute_queued_paths_kernel_launches K E
      max_num_paths (copy_work_tiles st tiles tiles.length) K.INTEGRATOR_TERMINATED_PATHS_ARRAY 0
    obtain ⟨new2'', l1, l2, -⟩ := compute_queued_paths_launches K E
      max_num_paths (copy_work_tiles st tiles tiles.length) K.INTEGRATOR_TERMINATED_PATHS_ARRAY 0
    have e2 : new2' = new2 := by
      rw [h2] at k1
      exact (List.append_cancel_left k1).symm
    have e2' : new2'' = new2 := by
      rw [h2] at l1
      exact (List.append_cancel_left l1).symm
    subst e2 e2'
    rw [if_pos rfl] at k2 l2
    obtain ⟨world', h3⟩ := launch_tiles_eq E max_num_paths kernel tiles
      (compute_queued_paths K E max_num_paths (copy_work_tiles st tiles tiles.length)
        K.INTEGRATOR_TERMINATED_PATHS_ARRAY 0) (some 0)
      (by rw [h2, h1]; exact hdata) tiles.length le_rfl
    rw [h3, h2, h1]
    obtain ⟨hl1, hl2⟩ := launch_events_launches max_num_paths kernel tiles (some 0) tiles.length
    refine ⟨_, by simp only [List.append_assoc]; rfl, ?_, ?_⟩
    · rw [kernel_launches_append, kernel_launches_append, g2, k2, hl1]
      simp
    · rw [compaction_launches_append, compaction_launches_append, g3, l2, hl2]
      simp
  · have hd : decide (st.max_active_path_index_ ≠ 0) = false := decide_eq_false hc
    simp only [hd, Bool.false_eq_true, if_false, if_neg hc]
    obtain ⟨world', h3⟩ := launch_tiles_eq E max_num_paths kernel tiles
      (copy_work_tiles st tiles tiles.length) none (by rw [h1]; exact hdata) tiles.length le_rfl
    rw [h3, h1]
    obtain ⟨hl1, hl2⟩ := launch_events_launches max_num_paths kernel tiles none tiles.length
    refine ⟨_, by simp only [List.append_assoc]; rfl, ?_, ?_⟩
    · rw [kernel_launches_append, g2, hl1]
      simp
    · rw [compaction_launches_append, g3, hl2]; rfl

/-! ### The launch of a path kernel -/

/-- All that `enqueue_path_iteration(kernel)` hands to the device for a path kernel or the
megakernel: the assertion on the batch size, the compaction launch when the counter is below the
high-water mark, and the launch of the kernel. -/
theorem enqueue_path_iteration_kernel_events (K : DeviceKernelEnum) (E : Environment W)
    (max_num_paths : Int) (st : PathTraceWorkGPU W) (kernel : Nat)
    (hk : kernel ∈ K.phases ∨ kernel = K.INTEGRATOR_MEGAKERNEL) (queue_kernel array_kernel : Nat)
    (hq : queue_kernel =
      if kernel = K.INTEGRATOR_MEGAKERNEL then K.INTEGRATOR_INTERSECT_CLOSEST else kernel)
    (ha : array_kernel =
      if kernel = K.INTEGRATOR_INTERSECT_SHADOW ∨ kernel = K.INTEGRATOR_SHADE_SHADOW then
        K.INTEGRATOR_QUEUED_SHADOW_PATHS_ARRAY else K.INTEGRATOR_QUEUED_PATHS_ARRAY) :
    ∃ new, (enqueue_path_iteration_kernel K E max_num_paths st kernel).trace = st.trace ++ new ∧
      dchecks new =
        [(min (st.num_queued queue_kernel) st.max_active_path_index_, max_num_paths)] ∧
      phase_launches new =
        [(kernel, min (st.num_queued queue_kernel) st.max_active_path_index_,
          if st.num_queued queue_kernel < st.max_active_path_index_ then some 0 else none)] ∧
      compaction_launches new =
        (if st.num_queued queue_kernel < st.max_active_path_index_ then
          [(array_kernel,
            if array_kernel = K.INTEGRATOR_TERMINATED_PATHS_ARRAY then max_num_paths
            else st.max_active_path_index_, (queue_kernel : Int))]
        else []) := by
  unfold enqueue_path_iteration_kernel
  simp only [queue_enqueue, emit]
  rw [← hq, ← ha]
  obtain ⟨new, h, h1, h2, -⟩ := compute_queued_paths_launches K E
    max_num_paths st array_kernel queue_kernel
  obtain ⟨new', world, qsize, nsize, h', -, -, hd, -, -⟩ := compute_queued_paths_eq K E
    max_num_paths st array_kernel queue_kernel
  have hnew : dchecks new = [] := by
    have e : (compute_queued_paths K E max_num_paths st array_kernel queue_kernel).trace =
        st.trace ++ new' := by rw [h']
    rw [h] at e
    rw [List.append_cancel_left e]; exact hd
  simp only [DeviceKernelEnum.phases, List.mem_cons, List.mem_singleton, List.not_mem_nil,
    or_false] at hk
  generalize (if array_kernel = K.INTEGRATOR_TERMINATED_PATHS_ARRAY then max_num_paths
    else st.max_active_path_index_) = scan at h1 ⊢
  by_cases hc : st.num_queued queue_kernel < st.max_active_path_index_
  · have hmin : min (st.num_queued queue_kernel) st.max_active_path_index_ =
        st.num_queued queue_kernel := min_eq_left hc.le
    simp only [hc, decide_True, if_true, h, hmin]
    split_ifs with hi hs
    · exact ⟨_, by simp only [List.append_assoc]; rfl,
        by rw [dchecks_append, hnew]; rfl, by rw [phase_launches_append, h2]; rfl,
        by rw [compaction_launches_append, h1]; rfl⟩
    · exact ⟨_, by simp only [List.append_assoc]; rfl,
        by rw [dchecks_append, hnew]; rfl, by rw [phase_launches_append, h2]; rfl,
        by rw [compaction_launches_append, h1]; rfl⟩
    · exfalso; tauto
  · have hmin : min (st.num_queued queue_kernel) st.max_active_path_index_ =
        st.max_active_path_index_ := min_eq_right (not_lt.1 hc)
    simp only [hc, decide_False, Bool.false_eq_true, if_false, hmin]
    split_ifs with hi hs
    · exact ⟨_, by simp only [List.append_assoc]; rfl, by rfl, by rfl, by rfl⟩
    · exact ⟨_, by simp only [List.append_assoc]; rfl, by rfl, by rfl, by rfl⟩
    · exfalso; tauto

/-- C22: for a path kernel or the megakernel, `enqueue_path_iteration(kernel)` launches the
kernel once with batch size `min(num_queued[queue_kernel], max_active_path_index_)`, where
`queue_kernel` is closest intersection for the megakernel and the kernel itself otherwise. It
launches a compaction and passes the index list exactly when `num_queued[queue_kernel]` is below
`max_active_path_index_`, and passes a null list otherwise. When `max_active_path_index_` is
at most the capacity, the one `DCHECK_LE(work_size, get_max_num_paths())` holds. -/
theorem enqueue_path_iteration_kernel_launch (K : DeviceKernelEnum) (E : Environment W)
    (max_num_paths : Int) (st : PathTraceWorkGPU W) (kernel : Nat)
    (hk : kernel ∈ K.phases ∨ kernel = K.INTEGRATOR_MEGAKERNEL) :
    ∃ new d_path_index,
      (enqueue_path_iteration_kernel K E max_num_paths st kernel).trace = st.trace ++ new ∧
      phase_launches new =
        [(kernel, min (st.num_queued (if kernel = K.INTEGRATOR_MEGAKERNEL then
            K.INTEGRATOR_INTERSECT_CLOSEST else kernel)) st.max_active_path_index_,
          d_path_index)] ∧
      (compaction_launches new ≠ [] ↔
        st.num_queued (if kernel = K.INTEGRATOR_MEGAKERNEL then K.INTEGRATOR_INTERSECT_CLOSEST
          else kernel) < st.max_active_path_index_) ∧
      (d_path_index ≠ none ↔
        st.num_queued (if kernel = K.INTEGRATOR_MEGAKERNEL then K.INTEGRATOR_INTERSECT_CLOSEST
          else kernel) < st.max_active_path_index_) ∧
      (∃ work_size, dchecks new = [(work_size, max_num_paths)] ∧
        (MaxActiveInBounds max_num_paths st → work_size ≤ max_num_paths)) := by
  obtain ⟨new, h, hd, hp, hc⟩ :=
    enqueue_path_iteration_kernel_events K E max_num_paths st kernel hk _ _ rfl rfl
  refine ⟨new, _, h, hp, ?_, ?_, _, hd, fun hinv => ?_⟩
  · rw [hc]
    by_cases hlt : st.num_queued (if kernel = K.INTEGRATOR_MEGAKERNEL then
        K.INTEGRATOR_INTERSECT_CLOSEST else kernel) < st.max_active_path_index_
    · rw [if_pos hlt]; exact iff_of_true (by simp) hlt
    · rw [if_neg hlt]; exact iff_of_false (by simp) hlt
  · by_cases hlt : st.num_queued (if kernel = K.INTEGRATOR_MEGAKERNEL then
        K.INTEGRATOR_INTERSECT_CLOSEST else kernel) < st.max_active_path_index_
    · rw [if_pos hlt]; exact iff_of_true (by simp) hlt
    · rw [if_neg hlt]; exact iff_of_false (by simp) hlt
  · exact le_trans (min_le_right _ _) hinv.2

/-- Witness of C22, capacity 20: 5 paths queued at surface shading, 12 slots in use. -/
theorem enqueue_path_iteration_kernel_launch_witness :
    ∃ new d_path_index,
      (enqueue_path_iteration_kernel sampleKernels (sampleEnvironment sampleKernels) 20
        (sampleState ⟨[], fun _ => 0, true, false⟩ (countersOf [0, 0, 0, 0, 0, 0, 0, 5]) 12)
        sampleKernels.INTEGRATOR_SHADE_SURFACE).trace =
        (sampleState ⟨[], fun _ => 0, true, false⟩
          (countersOf [0, 0, 0, 0, 0, 0, 0, 5]) 12).trace ++ new ∧
      phase_launches new = [(sampleKernels.INTEGRATOR_SHADE_SURFACE, 5, d_path_index)] ∧
      d_path_index ≠ none ∧
      ∃ work_size, dchecks new = [(work_size, 20)] ∧ work_size ≤ 20 :=
  let ⟨new, d, h, hp, _, hi, w, hd, hle⟩ := enqueue_path_iteration_kernel_launch sampleKernels
    (sampleEnvironment sampleKernels) 20
    (sampleState ⟨[], fun _ => 0, true, false⟩ (countersOf [0, 0, 0, 0, 0, 0, 0, 5]) 12)
    sampleKernels.INTEGRATOR_SHADE_SURFACE (by decide)
  ⟨new, d, h, hp, hi.2 (by decide), w, hd, hle ⟨by decide, by decide⟩⟩

/-! ### The slots a compaction scans -/

/-- C25: `compute_queued_paths` launches the compaction kernel it is given once, over
`max_active_path_index_` slots, except for the terminated-paths kernel, which it launches over
the whole pool. `enqueue_path_iteration(kernel)` compacts with the queued-shadow-paths kernel
for shadow intersection and shadow shading and with the queued-paths kernel for every other
path kernel, in both cases over `max_active_path_index_` slots, and tile initialization
compacts with the terminated-paths kernel over the whole pool. The three compaction kernels
have different values in the enumeration. -/
theorem compute_queued_paths_scan_size (K : DeviceKernelEnum) (E : Environment W)
    (max_num_paths : Int) (st : PathTraceWorkGPU W)
    (hq : K.INTEGRATOR_QUEUED_PATHS_ARRAY ≠ K.INTEGRATOR_TERMINATED_PATHS_ARRAY)
    (hs : K.INTEGRATOR_QUEUED_SHADOW_PATHS_ARRAY ≠ K.INTEGRATOR_TERMINATED_PATHS_ARRAY) :
    (∀ (kernel : Nat) (queued_kernel : Int),
      ∃ new, (compute_queued_paths K E max_num_paths st kernel queued_kernel).trace =
          st.trace ++ new ∧
        (kernel ≠ K.INTEGRATOR_TERMINATED_PATHS_ARRAY →
          compaction_launches new = [(kernel, st.max_active_path_index_, queued_kernel)]) ∧
        (kernel = K.INTEGRATOR_TERMINATED_PATHS_ARRAY →
          compaction_launches new = [(kernel, max_num_paths, queued_kernel)])) ∧
    (∀ kernel, kernel ∈ K.phases ∨ kernel = K.INTEGRATOR_MEGAKERNEL →
      ∃ new, (enqueue_path_iteration_kernel K E max_num_paths st kernel).trace =
          st.trace ++ new ∧
        compaction_launches new =
          (if st.num_queued (if kernel = K.INTEGRATOR_MEGAKERNEL then
              K.INTEGRATOR_INTERSECT_CLOSEST else kernel) < st.max_active_path_index_ then
            [(if kernel = K.INTEGRATOR_INTERSECT_SHADOW ∨ kernel = K.INTEGRATOR_SHADE_SHADOW then
                K.INTEGRATOR_QUEUED_SHADOW_PATHS_ARRAY else K.INTEGRATOR_QUEUED_PATHS_ARRAY,
              st.max_active_path_index_,
              ((if kernel = K.INTEGRATOR_MEGAKERNEL then K.INTEGRATOR_INTERSECT_CLOSEST
                else kernel : Nat) : Int))]
          else [])) ∧
    (∀ (kernel : Nat) (tiles : List KernelWorkTile),
      ∃ new, (enqueue_work_tiles_kernel K E max_num_paths st kernel tiles tiles.length).trace =
          st.trace ++ new ∧
        compaction_launches new =
          (if st.max_active_path_index_ ≠ 0 then
            [(K.INTEGRATOR_TERMINATED_PATHS_ARRAY, max_num_paths, 0)]
          else [])) := by
  refine ⟨fun kernel queued_kernel => ?_, fun kernel hk => ?_, fun kernel tiles => ?_⟩
  · obtain ⟨new, h, h1, -⟩ :=
      compute_queued_paths_launches K E max_num_paths st kernel queued_kernel
    exact ⟨new, h, fun hne => by rw [h1, if_neg hne], fun he => by rw [h1, if_pos he]⟩
  · obtain ⟨new, h, -, -, hc⟩ :=
      enqueue_path_iteration_kernel_events K E max_num_paths st kernel hk _ _ rfl rfl
    refine ⟨new, h, ?_⟩
    rw [hc]
    have hne : (if kernel = K.INTEGRATOR_INTERSECT_SHADOW ∨ kernel = K.INTEGRATOR_SHADE_SHADOW
        then K.INTEGRATOR_QUEUED_SHADOW_PATHS_ARRAY else K.INTEGRATOR_QUEUED_PATHS_ARRAY) ≠
        K.INTEGRATOR_TERMINATED_PATHS_ARRAY := by
      split_ifs
      · exact hs
      · exact hq
    rw [if_neg hne]
  · obtain ⟨new, h, hl⟩ := enqueue_work_tiles_kernel_launches K E max_num_paths st kernel tiles
    exact ⟨new, h, hl.2⟩

/-- Witness of C25: compaction for shadow intersection with 5 paths queued and 12 slots in use
runs the queued-shadow-paths kernel over 12 slots. -/
theorem compute_queued_paths_scan_size_witness :
    ∃ new, (enqueue_path_iteration_kernel sampleKernels (sampleEnvironment sampleKernels)
        get_max_num_paths
        (sampleState ⟨[], fun _ => 0, true, false⟩ (countersOf [0, 0, 5]) 12)
        sampleKernels.INTEGRATOR_INTERSECT_SHADOW).trace =
        (sampleState ⟨[], fun _ => 0, true, false⟩ (countersOf [0, 0, 5]) 12).trace ++ new ∧
      compaction_launches new =
        [(sampleKernels.INTEGRATOR_QUEUED_SHADOW_PATHS_ARRAY, 12, 2)] :=
  (compute_queued_paths_scan_size sampleKernels (sampleEnvironment sampleKernels)
    get_max_num_paths (sampleState ⟨[], fun _ => 0, true, false⟩ (countersOf [0, 0, 5]) 12)
    (by decide) (by decide)).2.1 sampleKernels.INTEGRATOR_INTERSECT_SHADOW (by decide)

/-! ### The slots handed to the tiles of one call -/

/-- C24: tile initialization launches, in order, the terminated-paths compaction over the whole
pool exactly when `max_active_path_index_` is not zero on entry, and then one kernel per tile.
Tile `i` is launched with `num_paths` equal to the sum of the volumes of the tiles before it,
and with the index list advanced by that sum when the compaction ran and a null list
otherwise. So the run of tile `i + 1` starts where the run of tile `i` ends, and for tiles of
non-negative volume the runs of two tiles of a call do not overlap. -/
theorem enqueue_work_tiles_kernel_offsets (K : DeviceKernelEnum) (E : Environment W)
    (max_num_paths : Int) (st : PathTraceWorkGPU W) (kernel : Nat)
    (tiles : List KernelWorkTile) :
    (∃ new, (enqueue_work_tiles_kernel K E max_num_paths st kernel tiles tiles.length).trace =
        st.trace ++ new ∧
      kernel_launches new =
        (if st.max_active_path_index_ ≠ 0 then
          [(K.INTEGRATOR_TERMINATED_PATHS_ARRAY, max_num_paths,
            KernelArgs.queued_paths max_num_paths 0)]
        else []) ++
        (List.range tiles.length).map (fun i => (kernel, (tiles.getD i default).volume,
          KernelArgs.init_from_camera
            (if st.max_active_path_index_ ≠ 0 then some (volume_sum (tiles.take i)) else none) i
            (tiles.getD i default) (tiles.getD i default).volume
            (volume_sum (tiles.take i))))) ∧
    (∀ i, i < tiles.length →
      volume_sum (tiles.take (i + 1)) =
        volume_sum (tiles.take i) + (tiles.getD i default).volume) ∧
    ((∀ t ∈ tiles, 0 ≤ KernelWorkTile.volume t) → ∀ i j, i < j → j < tiles.length →
      volume_sum (tiles.take i) + (tiles.getD i default).volume ≤
        volume_sum (tiles.take j)) := by
  obtain ⟨new, h, hl, -⟩ := enqueue_work_tiles_kernel_launches K E max_num_paths st kernel tiles
  refine ⟨⟨new, h, hl⟩, fun i hi => volume_sum_take_succ tiles i hi, fun hnn i j hij hj => ?_⟩
  rw [← volume_sum_take_succ tiles i (by omega)]
  have := volume_sum_take_le (tiles.take j)
    (fun t ht => hnn t (List.mem_of_mem_take ht)) (i + 1)
  rw [List.take_take, min_eq_left (by omega)] at this
  exact this

/-- Witness of C24: the two sample tiles, of volumes 6 and 4, with 3 slots in use on entry; the
second tile starts at offset 6. -/
theorem enqueue_work_tiles_kernel_offsets_witness :
    (∃ new, (enqueue_work_tiles_kernel sampleKernels (sampleEnvironment sampleKernels) 20
        (sampleState ⟨[], fun _ => 0, true, false⟩ (fun _ => 0) 3)
        sampleKernels.INTEGRATOR_INIT_FROM_CAMERA sampleTiles sampleTiles.length).trace =
        (sampleState ⟨[], fun _ => 0, true, false⟩ (fun _ => 0) 3).trace ++ new ∧
      (kernel_launches new).map (fun l => l.1) =
        [sampleKernels.INTEGRATOR_TERMINATED_PATHS_ARRAY,
          sampleKernels.INTEGRATOR_INIT_FROM_CAMERA,
          sampleKernels.INTEGRATOR_INIT_FROM_CAMERA]) ∧
    volume_sum (sampleTiles.take 0) + (sampleTiles.getD 0 default).volume ≤
      volume_sum (sampleTiles.take 1) :=
  let ⟨⟨new, h, hl⟩, _, hd⟩ := enqueue_work_tiles_kernel_offsets sampleKernels
    (sampleEnvironment sampleKernels) 20
    (sampleState ⟨[], fun _ => 0, true, false⟩ (fun _ => 0) 3)
    sampleKernels.INTEGRATOR_INIT_FROM_CAMERA sampleTiles
  ⟨⟨new, h, by rw [hl]; decide⟩, hd (by decide) 0 1 (by decide) (by decide)⟩

end PathTraceWorkGPU


namespace PathTraceWorkGPU

variable {W : Type}

/-! ### Shadow kernels before the maximum phase -/

end PathTraceWorkGPU


namespace PathTraceWorkGPU

variable {W : Type}

/-! ### Every iteration of the render loop issues work or ends -/

/-- `enqueue_work_tiles(finished)` leaves the counters as they are. -/
theorem enqueue_work_tiles_num_queued (K : DeviceKernelEnum) (E : Environment W)
    (max_num_paths : Int) (fuel : Nat) (st : PathTraceWorkGPU W) (finished : Bool)
    (r : WorkTilesResult W)
    (h : enqueue_work_tiles K E max_num_paths fuel st finished = some r) :
    r.st.num_queued = st.num_queued := by
  by_cases hcancel : E.is_cancel_requested st.world = true
  · rw [enqueue_work_tiles_of_cancel K E max_num_paths fuel st finished hcancel] at h
    cases h
    rfl
  · obtain ⟨new, world, -, -, -, -, -, -, hst, -⟩ :=
      enqueue_work_tiles_spec K E max_num_paths fuel st finished r (by simpa using hcancel) h
    generalize (if get_num_active_paths K st = 0 then 0 else st.max_active_path_index_) = mx
      at hst
    rw [hst]
    by_cases ht : tiles_returned new = []
    · rw [if_pos ht]
    · rw [if_neg ht, (enqueue_work_tiles_kernel_spec K E max_num_paths _ _ _).2.2.1]

/-- For a kernel that is neither a path kernel nor the megakernel, the `switch` of
`enqueue_path_iteration(kernel)` reaches `LOG(FATAL)` and launches no path kernel. -/
theorem enqueue_path_iteration_kernel_fatal (K : DeviceKernelEnum) (E : Environment W)
    (max_num_paths : Int) (st : PathTraceWorkGPU W) (kernel : Nat)
    (hk : ¬ (kernel ∈ K.phases ∨ kernel = K.INTEGRATOR_MEGAKERNEL)) :
    (enqueue_path_iteration_kernel K E max_num_paths st kernel).aborted = true ∧
      fatal_errors (enqueue_path_iteration_kernel K E max_num_paths st kernel).trace =
        fatal_errors st.trace ++ [kernel] ∧
      dispatched (enqueue_path_iteration_kernel K E max_num_paths st kernel).trace =
        dispatched st.trace := by
  refine ⟨?_, ?_, by rw [enqueue_path_iteration_kernel_dispatched, if_neg hk, List.append_nil]⟩
  all_goals
    unfold enqueue_path_iteration_kernel
    simp only [queue_enqueue, emit]
    generalize (if kernel = K.INTEGRATOR_MEGAKERNEL then K.INTEGRATOR_INTERSECT_CLOSEST
      else kernel) = queue_kernel
    generalize (if kernel = K.INTEGRATOR_INTERSECT_SHADOW ∨ kernel = K.INTEGRATOR_SHADE_SHADOW
      then K.INTEGRATOR_QUEUED_SHADOW_PATHS_ARRAY else K.INTEGRATOR_QUEUED_PATHS_ARRAY) =
      array_kernel
    obtain ⟨new, h, -, -, h3⟩ := compute_queued_paths_launches K E
      max_num_paths st array_kernel queue_kernel
    simp only [DeviceKernelEnum.phases, List.mem_cons, List.mem_singleton, List.not_mem_nil,
      or_false] at hk
    by_cases hc : st.num_queued queue_kernel < st.max_active_path_index_
    · simp only [hc, decide_True, if_true, h]
      split_ifs with hi hs
      · exfalso; tauto
      · exfalso; tauto
      · simp [fatal_errors_append, h3, fatal_errors]
    · simp only [hc, decide_False, Bool.false_eq_true, if_false]
      split_ifs with hi hs
      · exfalso; tauto
      · exfalso; tauto
      · simp [fatal_errors_append, fatal_errors]

/-- With a positive counter, `enqueue_path_iteration()` calls `enqueue_path_iteration(kernel)`
for the phase that the maximum search designates, for a shadow kernel or for the megakernel. It
dispatches a path kernel or the megakernel when the designated kernel is one of them or the
shadow-priority rule applies; otherwise it reaches `LOG(FATAL)`. -/
theorem enqueue_path_iteration_outcome (K : DeviceKernelEnum) (E : Environment W)
    (max_num_paths : Int) (st : PathTraceWorkGPU W)
    (hpos : ∃ i, i < K.INTEGRATOR_NUM ∧ 0 < st.num_queued i) :
    ∃ s, IsSelected K st.num_queued s ∧
      ((s ∈ K.phases ∨ s = K.INTEGRATOR_MEGAKERNEL ∨ ShadowRule K max_num_paths st s) →
        (enqueue_path_iteration K E max_num_paths st).1 = true ∧
        (enqueue_path_iteration K E max_num_paths st).2.aborted = st.aborted ∧
        ∃ k, (k ∈ K.phases ∨ k = K.INTEGRATOR_MEGAKERNEL) ∧
          dispatched (enqueue_path_iteration K E max_num_paths st).2.trace =
            dispatched st.trace ++ [k]) ∧
      (¬ (s ∈ K.phases ∨ s = K.INTEGRATOR_MEGAKERNEL ∨ ShadowRule K max_num_paths st s) →
        (enqueue_path_iteration K E max_num_paths st).2.aborted = true ∧
        fatal_errors (enqueue_path_iteration K E max_num_paths st).2.trace =
          fatal_errors st.trace ++ [s] ∧
        dispatched (enqueue_path_iteration K E max_num_paths st).2.trace =
          dispatched st.trace) := by
  have hne : (find_kernel K st.num_queued).max_num_queued ≠ 0 := by
    obtain ⟨i, hi, hqi⟩ := hpos
    have := (find_kernel_upto st.num_queued K.INTEGRATOR_NUM K.INTEGRATOR_NUM).2.1 i hi
    unfold find_kernel; omega
  have hsel := (find_kernel_selected K st.num_queued hne).1
  have hIS : K.INTEGRATOR_INTERSECT_SHADOW ∈ K.phases := by simp [DeviceKernelEnum.phases]
  have hSS : K.INTEGRATOR_SHADE_SHADOW ∈ K.phases := by simp [DeviceKernelEnum.phases]
  have hIC : K.INTEGRATOR_INTERSECT_CLOSEST ∈ K.phases := by simp [DeviceKernelEnum.phases]
  have hSU : K.INTEGRATOR_SHADE_SURFACE ∈ K.phases := by simp [DeviceKernelEnum.phases]
  have hSV : K.INTEGRATOR_SHADE_VOLUME ∈ K.phases := by simp [DeviceKernelEnum.phases]
  have hdisp : ∀ k, k ∈ K.phases ∨ k = K.INTEGRATOR_MEGAKERNEL →
      (enqueue_path_iteration_kernel K E max_num_paths st k).aborted = st.aborted ∧
      ∃ k', (k' ∈ K.phases ∨ k' = K.INTEGRATOR_MEGAKERNEL) ∧
        dispatched (enqueue_path_iteration_kernel K E max_num_paths st k).trace =
          dispatched st.trace ++ [k'] := by
    intro k hk
    obtain ⟨new, -, ha, -⟩ := enqueue_path_iteration_kernel_launches K E max_num_paths st k hk
      _ rfl
    exact ⟨ha, k, hk, by rw [enqueue_path_iteration_kernel_dispatched, if_pos hk]⟩
  refine ⟨_, hsel, ?_, ?_⟩
  · intro hcase
    unfold ShadowRule at hcase
    rw [← find_kernel_num_paths] at hcase
    unfold enqueue_path_iteration
    simp only [hne, if_false]
    generalize find_kernel K st.num_queued = f at hcase
    by_cases hrule : below_threshold megakernel_threshold f.num_paths max_num_paths = true ∧
        (f.kernel = K.INTEGRATOR_INTERSECT_CLOSEST ∧ f.num_paths = st.num_queued f.kernel)
    · rw [if_pos hrule]
      exact ⟨rfl, hdisp _ (Or.inr rfl)⟩
    · rw [if_neg hrule]
      by_cases hc : below_threshold megakernel_threshold f.num_paths max_num_paths = true ∨
          f.kernel = K.INTEGRATOR_SHADE_SURFACE ∨ f.kernel = K.INTEGRATOR_SHADE_VOLUME
      · rw [if_pos hc]
        by_cases hs1 : st.num_queued K.INTEGRATOR_INTERSECT_SHADOW ≠ 0
        · rw [if_pos hs1]
          exact ⟨rfl, hdisp _ (Or.inl hIS)⟩
        · rw [if_neg hs1]
          by_cases hs2 : st.num_queued K.INTEGRATOR_SHADE_SHADOW ≠ 0
          · rw [if_pos hs2]
            exact ⟨rfl, hdisp _ (Or.inl hSS)⟩
          · rw [if_neg hs2]
            refine ⟨rfl, hdisp _ ?_⟩
            rcases hcase with h | h | ⟨-, h | h⟩
            · exact Or.inl h
            · exact Or.inr h
            · exact absurd h hs1
            · exact absurd h hs2
      · rw [if_neg hc]
        refine ⟨rfl, hdisp _ ?_⟩
        rcases hcase with h | h | ⟨h, -⟩
        · exact Or.inl h
        · exact Or.inr h
        · exact absurd h hc
  · intro hcase
    unfold ShadowRule at hcase
    rw [← find_kernel_num_paths] at hcase
    unfold enqueue_path_iteration
    simp only [hne, if_false]
    generalize find_kernel K st.num_queued = f at hcase
    push_neg at hcase
    obtain ⟨hn1, hn2, hn3⟩ := hcase
    have hfatal := enqueue_path_iteration_kernel_fatal K E max_num_paths st f.kernel
      (by rintro (h | h); exact hn1 h; exact hn2 h)
    have hrule : ¬ (below_threshold megakernel_threshold f.num_paths max_num_paths = true ∧
        (f.kernel = K.INTEGRATOR_INTERSECT_CLOSEST ∧ f.num_paths = st.num_queued f.kernel)) :=
      fun h => hn1 (h.2.1 ▸ hIC)
    rw [if_neg hrule]
    by_cases hc : below_threshold megakernel_threshold f.num_paths max_num_paths = true ∨
        f.kernel = K.INTEGRATOR_SHADE_SURFACE ∨ f.kernel = K.INTEGRATOR_SHADE_VOLUME
    · obtain ⟨h1, h2⟩ := hn3 hc
      rw [if_pos hc, if_neg (by simpa using h1), if_neg (by simpa using h2)]
      exact hfatal
    · rw [if_neg hc]
      exact hfatal

/-- C29, as stated, fails: 5 paths are counted at the counter of camera initialization and the
scheduler has no tile left (capacity 1000). The counters are non-negative and the active count
is positive, `enqueue_work_tiles(finished)` returns false, and the call of
`enqueue_path_iteration()` that follows launches no kernel (the trace holds 0 launches): it
reaches `LOG(FATAL)`. -/
theorem render_samples_issues_work_counterexample :
    (∀ i, i < sampleKernels.INTEGRATOR_NUM →
      0 ≤ (sampleState ⟨[], countersOf [5], true, false⟩ (countersOf [5]) 5).num_queued i) ∧
    0 < get_num_active_paths sampleKernels
      (sampleState ⟨[], countersOf [5], true, false⟩ (countersOf [5]) 5) ∧
    (enqueue_work_tiles sampleKernels (sampleEnvironment sampleKernels) 1000 10
        (sampleState ⟨[], countersOf [5], true, false⟩ (countersOf [5]) 5) false).map
      (fun r => (r.enqueued,
        (kernel_launches (enqueue_path_iteration sampleKernels
          (sampleEnvironment sampleKernels) 1000 r.st).2.trace).length,
        fatal_errors (enqueue_path_iteration sampleKernels (sampleEnvironment sampleKernels)
          1000 r.st).2.trace,
        (enqueue_path_iteration sampleKernels (sampleEnvironment sampleKernels)
          1000 r.st).2.aborted)) =
      some (false, 0, [sampleKernels.INTEGRATOR_INIT_FROM_CAMERA], true) := by
  decide

/-- C29 (amended): when `enqueue_work_tiles(finished)` returns false and the active path count
is positive, some counter is positive and the maximum search of the `enqueue_path_iteration()`
that follows in `render_samples` designates a kernel. When that kernel is a path kernel or the
megakernel, or the shadow-priority rule applies, the call dispatches a path kernel or the
megakernel and returns true; otherwise it reaches `LOG(FATAL)` for the designated kernel and
dispatches nothing. With the cancel flag clear, `enqueue_work_tiles(finished)` returns false
with no active path only with `finished` true. -/
theorem render_samples_issues_work (K : DeviceKernelEnum) (E : Environment W)
    (max_num_paths : Int) (fuel : Nat) (st : PathTraceWorkGPU W) (finished : Bool)
    (r : WorkTilesResult W)
    (h : enqueue_work_tiles K E max_num_paths fuel st finished = some r)
    (hidle : r.enqueued = false) :
    (0 < get_num_active_paths K st →
      (∃ i, i < K.INTEGRATOR_NUM ∧ 0 < st.num_queued i) ∧
      ∃ s, IsSelected K st.num_queued s ∧
        ((s ∈ K.phases ∨ s = K.INTEGRATOR_MEGAKERNEL ∨ ShadowRule K max_num_paths st s) →
          (enqueue_path_iteration K E max_num_paths r.st).1 = true ∧
          (enqueue_path_iteration K E max_num_paths r.st).2.aborted = r.st.aborted ∧
          ∃ k, (k ∈ K.phases ∨ k = K.INTEGRATOR_MEGAKERNEL) ∧
            dispatched (enqueue_path_iteration K E max_num_paths r.st).2.trace =
              dispatched r.st.trace ++ [k]) ∧
        (¬ (s ∈ K.phases ∨ s = K.INTEGRATOR_MEGAKERNEL ∨ ShadowRule K max_num_paths st s) →
          (enqueue_path_iteration K E max_num_paths r.st).2.aborted = true ∧
          fatal_errors (enqueue_path_iteration K E max_num_paths r.st).2.trace =
            fatal_errors r.st.trace ++ [s] ∧
          dispatched (enqueue_path_iteration K E max_num_paths r.st).2.trace =
            dispatched r.st.trace)) ∧
    (E.is_cancel_requested st.world = false → get_num_active_paths K st = 0 →
      r.finished = true) := by
  have hq := enqueue_work_tiles_num_queued K E max_num_paths fuel st finished r h
  constructor
  · intro hA
    have hpos : ∃ i, i < K.INTEGRATOR_NUM ∧ 0 < st.num_queued i := by
      by_contra hn
      push_neg at hn
      rw [get_num_active_paths_eq_sum] at hA
      have := Finset.sum_nonpos (fun i hi => hn i (Finset.mem_range.1 hi))
      omega
    have hrule : ∀ s, ShadowRule K max_num_paths r.st s ↔ ShadowRule K max_num_paths st s := by
      intro s
      unfold ShadowRule get_num_active_paths
      rw [hq]
    obtain ⟨s, hs, h1, h2⟩ := enqueue_path_iteration_outcome K E max_num_paths r.st
      (by rw [hq]; exact hpos)
    rw [hq] at hs
    rw [hrule] at h1 h2
    exact ⟨hpos, s, hs, h1, h2⟩
  · intro hcancel hz
    obtain ⟨new, world, -, -, -, -, hfin, henq, -⟩ :=
      enqueue_work_tiles_spec K E max_num_paths fuel st finished r hcancel h
    rw [hfin]
    rw [henq] at hidle
    exact ⟨by simpa using hidle, hz⟩

/-- Witness of C29: the scheduler has no tile left and 7 paths wait at background shading;
`enqueue_work_tiles(finished)` returns false, and `enqueue_path_iteration()` returns true and
dispatches a path kernel. -/
theorem render_samples_issues_work_witness :
    ∃ r, enqueue_work_tiles sampleKernels (sampleEnvironment sampleKernels) 1000 1000
        (sampleState ⟨[], fun _ => 0, true, false⟩ (countersOf [0, 0, 0, 0, 7]) 7) false =
        some r ∧
      r.enqueued = false ∧
      (enqueue_path_iteration sampleKernels (sampleEnvironment sampleKernels) 1000 r.st).1 =
        true ∧
      ∃ k, dispatched (enqueue_path_iteration sampleKernels (sampleEnvironment sampleKernels)
        1000 r.st).2.trace = dispatched r.st.trace ++ [k] := by
  refine ⟨_, rfl, rfl, ?_⟩
  obtain ⟨s, hs, h1, -⟩ := ((render_samples_issues_work sampleKernels
    (sampleEnvironment sampleKernels) 1000 1000
    (sampleState ⟨[], fun _ => 0, true, false⟩ (countersOf [0, 0, 0, 0, 7]) 7) false
    _ rfl rfl).1 (by decide)).2
  have hs4 : s = 4 := IsSelected.unique hs (by decide)
  subst hs4
  obtain ⟨h2, -, k, -, h3⟩ := h1 (Or.inl (by decide))
  exact ⟨h2, k, h3⟩

/-! ### The value of `finished` when cancellation is requested -/

/-- Counterexample to C28: the cancel flag is set and one path waits at closest intersection.
Two calls of `enqueue_work_tiles(finished)` that differ only in what the caller's variable held
return different values of `finished`, and `render_samples` stops at once or goes on
accordingly. -/
theorem enqueue_work_tiles_finished_unassigned_counterexample :
    (enqueue_work_tiles sampleKernels (sampleEnvironment sampleKernels) get_max_num_paths 10
        (sampleState ⟨[], countersOf [0, 1], true, true⟩ (countersOf [0, 1]) 1) true).map
        (fun r => r.finished) = some true ∧
    (enqueue_work_tiles sampleKernels (sampleEnvironment sampleKernels) get_max_num_paths 10
        (sampleState ⟨[], countersOf [0, 1], true, true⟩ (countersOf [0, 1]) 1) false).map
        (fun r => r.finished) = some false ∧
    (render_samples sampleKernels (sampleEnvironment sampleKernels) get_max_num_paths 10
        (fun _ => true) 10
        (sampleState ⟨[], countersOf [0, 1], true, true⟩ (countersOf [0, 1]) 1) 0 1).map
        (fun st => dispatched st.trace) = some [] ∧
    (render_samples sampleKernels (sampleEnvironment sampleKernels) get_max_num_paths 10
        (fun _ => false) 10
        (sampleState ⟨[], countersOf [0, 1], true, true⟩ (countersOf [0, 1]) 1) 0 1).map
        (fun st => dispatched st.trace) = some [sampleKernels.INTEGRATOR_MEGAKERNEL] := by
  decide

/-- What `enqueue_work_tiles(finished)` leaves in `finished` when cancellation is requested:
true when no path is active, and otherwise the value the caller's variable held, which is not
assigned. -/
theorem enqueue_work_tiles_finished_unassigned (K : DeviceKernelEnum) (E : Environment W)
    (max_num_paths : Int) (fuel : Nat) (st : PathTraceWorkGPU W) (finished : Bool)
    (hcancel : E.is_cancel_requested st.world = true) :
    ∃ r, enqueue_work_tiles K E max_num_paths fuel st finished = some r ∧
      r.enqueued = false ∧
      r.finished = (if get_num_active_paths K st = 0 then true else finished) := by
  rw [enqueue_work_tiles_of_cancel K E max_num_paths fuel st finished hcancel]
  exact ⟨_, rfl, rfl, rfl⟩

/-- Witness: the cancel flag is set and one path is active; `finished` comes back as it went
in. -/
theorem enqueue_work_tiles_finished_unassigned_witness :
    ∃ r, enqueue_work_tiles sampleKernels (sampleEnvironment sampleKernels) get_max_num_paths 10
        (sampleState ⟨[], countersOf [0, 1], true, true⟩ (countersOf [0, 1]) 1) false =
        some r ∧
      r.enqueued = false ∧ r.finished = false :=
  enqueue_work_tiles_finished_unassigned sampleKernels (sampleEnvironment sampleKernels)
    get_max_num_paths 10
    (sampleState ⟨[], countersOf [0, 1], true, true⟩ (countersOf [0, 1]) 1) false rfl

end PathTraceWorkGPU


namespace PathTraceWorkGPU

variable {W : Type}

/-! ### The size of the display buffer -/

/-- Counterexample to C27: the effective frame is 2 x 2 pixels and the final render buffer
4 x 4. After a call of `copy_to_gpu_display_naive` the display buffer is 2 x 2, not 4 x 4, and a
second call with the same parameters allocates and zeroes the buffer again. -/
theorem copy_to_gpu_display_naive_allocation_counterexample :
    (Full.copy_to_gpu_display_naive sampleKernels (sampleEnvironment sampleKernels)
        dividerObject (Float32.ofInt 1)).gpu_display_rgba_half_data_width = 2 ∧
    (Full.copy_to_gpu_display_naive sampleKernels (sampleEnvironment sampleKernels)
        dividerObject (Float32.ofInt 1)).gpu_display_rgba_half_data_height = 2 ∧
    (Full.copy_to_gpu_display_naive sampleKernels (sampleEnvironment sampleKernels)
        dividerObject (Float32.ofInt 1)).render_buffers_params.width = 4 ∧
    (Full.copy_to_gpu_display_naive sampleKernels (sampleEnvironment sampleKernels)
        dividerObject (Float32.ofInt 1)).render_buffers_params.height = 4 ∧
    display_allocations (Full.copy_to_gpu_display_naive sampleKernels
        (sampleEnvironment sampleKernels) dividerObject (Float32.ofInt 1)).trace = [(2, 2)] ∧
    display_allocations (Full.copy_to_gpu_display_naive sampleKernels
        (sampleEnvironment sampleKernels)
        (Full.copy_to_gpu_display_naive sampleKernels (sampleEnvironment sampleKernels)
          dividerObject (Float32.ofInt 1)) (Float32.ofInt 1)).trace = [(2, 2), (2, 2)] ∧
    zeroed_buffers (Full.copy_to_gpu_display_naive sampleKernels
        (sampleEnvironment sampleKernels)
        (Full.copy_to_gpu_display_naive sampleKernels (sampleEnvironment sampleKernels)
          dividerObject (Float32.ofInt 1)) (Float32.ofInt 1)).trace =
      [Buffer.gpu_display_rgba_half_, Buffer.gpu_display_rgba_half_] := by
  decide

theorem display_allocations_append (a b : List Event) :
    display_allocations (a ++ b) = display_allocations a ++ display_allocations b := by
  induction a with
  | nil => rfl
  | cons e es ih => cases e <;> simp [display_allocations, ih]

/-- What `copy_to_gpu_display_naive` does to the display buffer: it allocates exactly when the
size of the buffer differs from the final resolution, and then to the effective resolution. -/
theorem copy_to_gpu_display_naive_allocation (K : DeviceKernelEnum) (E : Environment W)
    (o : Full W) (sample_scale : Float32) :
    ∃ new, (Full.copy_to_gpu_display_naive K E o sample_scale).trace = o.trace ++ new ∧
      display_allocations new =
        (if o.gpu_display_rgba_half_data_width ≠ o.render_buffers_params.width ∨
            o.gpu_display_rgba_half_data_height ≠ o.render_buffers_params.height then
          [(o.effective_buffer_params_.width, o.effective_buffer_params_.height)]
        else []) ∧
      (Full.copy_to_gpu_display_naive K E o sample_scale).gpu_display_rgba_half_data_width =
        (if o.gpu_display_rgba_half_data_width ≠ o.render_buffers_params.width ∨
            o.gpu_display_rgba_half_data_height ≠ o.render_buffers_params.height then
          o.effective_buffer_params_.width
        else o.gpu_display_rgba_half_data_width) ∧
      (Full.copy_to_gpu_display_naive K E o sample_scale).gpu_display_rgba_half_data_height =
        (if o.gpu_display_rgba_half_data_width ≠ o.render_buffers_params.width ∨
            o.gpu_display_rgba_half_data_height ≠ o.render_buffers_params.height then
          o.effective_buffer_params_.height
        else o.gpu_display_rgba_half_data_height) ∧
      (Full.copy_to_gpu_display_naive K E o sample_scale).render_buffers_params =
        o.render_buffers_params ∧
      (Full.copy_to_gpu_display_naive K E o sample_scale).effective_buffer_params_ =
        o.effective_buffer_params_ := by
  unfold Full.copy_to_gpu_display_naive
  simp only [Full.enqueue_film_convert, Full.synchronize, Full.emit, queue_enqueue,
    queue_synchronize]
  by_cases h : o.gpu_display_rgba_half_data_width ≠ o.render_buffers_params.width ∨
      o.gpu_display_rgba_half_data_height ≠ o.render_buffers_params.height
  · rw [if_pos h, if_pos h, if_pos h, if_pos h]
    simp only [List.append_assoc]
    exact ⟨_, rfl, rfl, trivial, trivial, trivial, trivial⟩
  · rw [if_neg h, if_neg h, if_neg h, if_neg h]
    simp only [List.append_assoc]
    exact ⟨_, rfl, rfl, trivial, trivial, trivial, trivial⟩

end PathTraceWorkGPU

/-! ### The arguments of `light_tree_node_importance` -/

/-- Counterexample to C30: for a node whose bounding cone points along the z axis,
`light_tree_cluster_importance` hands the axis (0, 0, 0) to `light_tree_node_importance`, not
(0, 0, 1). -/
theorem light_tree_cluster_importance_axis_counterexample :
    (light_tree_cluster_importance record_node_importance () (make_float3 0 0 0)
        (make_float3 0 0 1) sampleNode).bcone_axis = make_float3 0 0 0 ∧
    make_float3 (sampleNode.bounding_cone_axis 0) (sampleNode.bounding_cone_axis 1)
        (sampleNode.bounding_cone_axis 2) = make_float3 0 0 1 ∧
    (light_tree_cluster_importance record_node_importance () (make_float3 0 0 0)
        (make_float3 0 0 1) sampleNode).bcone_axis ≠
      make_float3 (sampleNode.bounding_cone_axis 0) (sampleNode.bounding_cone_axis 1)
        (sampleNode.bounding_cone_axis 2) := by
  decide

/-- What `light_tree_cluster_importance` calls `light_tree_node_importance` with: `P`, `N`, the
corners of the bounding box componentwise, the axis
`(bounding_cone_axis[0], bounding_cone_axis[1], bounding_cone_axis[1])`, whose last component
repeats the second, and `theta_o`, `theta_e`, `energy` unchanged. -/
theorem light_tree_cluster_importance_args {F KG R : Type}
    (node_importance : float3 F → float3 F → float3 F → float3 F → float3 F → F → F → F → R)
    (kg : KG) (P N : float3 F) (knode : KernelLightTreeNode F) :
    light_tree_cluster_importance node_importance kg P N knode =
      node_importance P N
        { x := knode.bounding_box_min 0, y := knode.bounding_box_min 1,
          z := knode.bounding_box_min 2 }
        { x := knode.bounding_box_max 0, y := knode.bounding_box_max 1,
          z := knode.bounding_box_max 2 }
        { x := knode.bounding_cone_axis 0, y := knode.bounding_cone_axis 1,
          z := knode.bounding_cone_axis 1 }
        knode.theta_o knode.theta_e knode.energy :=
  rfl


namespace PathTraceWorkGPU

variable {W : Type}

/-! ### The high-water mark is sound -/

/-- The entry at position `k` of the ascending list of the indices below `n` that satisfy `p`:
exactly `k` indices below it satisfy `p`. -/
theorem filter_range_getElem (p : Nat → Bool) :
    ∀ (n k i : Nat), ((List.range n).filter p)[k]? = some i →
      ((List.range i).filter p).length = k ∧ i < n := by
  intro n
  induction n with
  | zero => intro k i h; simp at h
  | succ n ih =>
    intro k i h
    rw [List.range_succ, List.filter_append] at h
    by_cases hk : k < ((List.range n).filter p).length
    · rw [List.getElem?_append_left hk] at h
      obtain ⟨h1, h2⟩ := ih k i h
      exact ⟨h1, by omega⟩
    · rw [List.getElem?_append_right (by omega)] at h
      by_cases hp : p n = true
      · rw [List.filter_cons_of_pos hp, List.filter_nil] at h
        rcases hz : k - ((List.range n).filter p).length with _ | m
        · rw [hz] at h
          simp only [List.getElem?_cons_zero, Option.some.injEq] at h
          subst h
          exact ⟨by omega, by omega⟩
        · rw [hz] at h
          simp at h
      · rw [List.filter_cons_of_neg hp, List.filter_nil] at h
        simp at h

/-- When every index from `m` up to `i` satisfies `p`, at least `i - m` indices below `i` do. -/
theorem le_length_filter_range (p : Nat → Bool) (m : Nat) :
    ∀ i : Nat, (∀ j, m ≤ j → j < i → p j = true) →
      i - m ≤ ((List.range i).filter p).length := by
  intro i
  induction i with
  | zero => intro _; simp
  | succ i ih =>
    intro h
    have := ih (fun j hj hlt => h j hj (by omega))
    rw [List.range_succ, List.filter_append, List.length_append]
    by_cases hm : m ≤ i
    · rw [List.filter_cons_of_pos (h i hm (by omega))]
      simp only [List.filter_nil, List.length_singleton]
      omega
    · omega

/-- The `k`-th free slot is at most `k` above a sound high-water mark `m`. -/
theorem free_slot_le (p : Nat → Bool) (n m k i : Nat)
    (hfree : ∀ j, m ≤ j → j < n → p j = true)
    (h : ((List.range n).filter p)[k]? = some i) : i ≤ m + k ∧ i < n := by
  obtain ⟨h1, h2⟩ := filter_range_getElem p n k i h
  have := le_length_filter_range p m i (fun j hj hlt => hfree j hj (by omega))
  exact ⟨by omega, h2⟩

theorem compute_queued_paths_world (K : DeviceKernelEnum) (E : Environment W)
    (max_num_paths : Int) (st : PathTraceWorkGPU W) (kernel : Nat) (queued_kernel : Int) :
    (compute_queued_paths K E max_num_paths st kernel queued_kernel).world =
      E.enqueue st.world kernel
        (if kernel = K.INTEGRATOR_TERMINATED_PATHS_ARRAY then max_num_paths
          else st.max_active_path_index_)
        (KernelArgs.queued_paths
          (if kernel = K.INTEGRATOR_TERMINATED_PATHS_ARRAY then max_num_paths
            else st.max_active_path_index_) queued_kernel) := by
  unfold compute_queued_paths
  simp only [queue_enqueue, emit]
  split_ifs <;> rfl

/-- A path kernel and the compaction before it start no path. -/
theorem enqueue_path_iteration_kernel_occupied (K : DeviceKernelEnum) (E : Environment W)
    (max_num_paths : Int) (occupied : W → Nat → Bool) (free_list : W → List Nat)
    (hdev : PoolDevice K E max_num_paths occupied free_list) (st : PathTraceWorkGPU W)
    (kernel : Nat) (i : Nat)
    (h : occupied (enqueue_path_iteration_kernel K E max_num_paths st kernel).world i = true) :
    occupied st.world i = true := by
  unfold enqueue_path_iteration_kernel at h
  simp only [queue_enqueue, emit] at h
  generalize (if kernel = K.INTEGRATOR_MEGAKERNEL then K.INTEGRATOR_INTERSECT_CLOSEST
    else kernel) = queue_kernel at h
  generalize (if kernel = K.INTEGRATOR_INTERSECT_SHADOW ∨ kernel = K.INTEGRATOR_SHADE_SHADOW then
      K.INTEGRATOR_QUEUED_SHADOW_PATHS_ARRAY else K.INTEGRATOR_QUEUED_PATHS_ARRAY) = array_kernel
    at h
  have hw := compute_queued_paths_world K E max_num_paths st array_kernel queue_kernel
  generalize (if array_kernel = K.INTEGRATOR_TERMINATED_PATHS_ARRAY then max_num_paths
    else st.max_active_path_index_) = scan at hw
  by_cases hc : st.num_queued queue_kernel < st.max_active_path_index_
  · simp only [hc, decide_True, if_true] at h
    split_ifs at h
    · simp only [hw] at h
      exact hdev.compaction _ _ _ _ _ _ (hdev.intersect _ _ _ _ _ _ h)
    · simp only [hw] at h
      exact hdev.compaction _ _ _ _ _ _ (hdev.shade _ _ _ _ _ _ h)
    · simp only [hw] at h
      exact hdev.compaction _ _ _ _ _ _ h
  · simp only [hc, decide_False, Bool.false_eq_true, if_false] at h
    split_ifs at h
    · exact hdev.intersect _ _ _ _ _ _ h
    · exact hdev.shade _ _ _ _ _ _ h
    · exact h

theorem enqueue_path_iteration_occupied (K : DeviceKernelEnum) (E : Environment W)
    (max_num_paths : Int) (occupied : W → Nat → Bool) (free_list : W → List Nat)
    (hdev : PoolDevice K E max_num_paths occupied free_list) (st : PathTraceWorkGPU W)
    (i : Nat)
    (h : occupied (enqueue_path_iteration K E max_num_paths st).2.world i = true) :
    occupied st.world i = true := by
  unfold enqueue_path_iteration at h
  simp only [] at h
  split_ifs at h
  · exact h
  all_goals
    exact enqueue_path_iteration_kernel_occupied K E max_num_paths occupied free_list hdev st _
      i h

/-- After `copy_from_device` the host counters are those of the device: when they add up to
zero the pool is empty. -/
theorem copy_stats_idle (K : DeviceKernelEnum) (E : Environment W)
    (max_num_paths : Int) (occupied : W → Nat → Bool) (free_list : W → List Nat)
    (hdev : PoolDevice K E max_num_paths occupied free_list) (st : PathTraceWorkGPU W) :
    PoolIdle K occupied (copy_stats E st) := by
  intro hz i
  rw [get_num_active_paths_eq_sum] at hz
  have hex := hdev.counters_exact st.world
  change (∑ k in Finset.range K.INTEGRATOR_NUM, E.copy_from_device st.world k) = 0 at hz
  rw [hz] at hex
  have hlen : ((List.range max_num_paths.toNat).filter (occupied st.world)).length = 0 := by
    omega
  by_contra hocc
  have hocc' : occupied st.world i = true := by simpa using hocc
  have hlt := hdev.pool_size st.world i hocc'
  have hmem : i ∈ (List.range max_num_paths.toNat).filter (occupied st.world) :=
    List.mem_filter.2 ⟨List.mem_range.2 (by omega), hocc'⟩
  rw [List.length_eq_zero] at hlen
  rw [hlen] at hmem
  simp at hmem

end PathTraceWorkGPU


namespace PathTraceWorkGPU

variable {W : Type}

/-- The launch loop of tile initialization with a null index list: a path starts only in a slot
below the running sum of the volumes. -/
theorem launch_tiles_null (K : DeviceKernelEnum) (E : Environment W)
    (max_num_paths : Int) (occupied : W → Nat → Bool) (free_list : W → List Nat)
    (hdev : PoolDevice K E max_num_paths occupied free_list) (kernel : Nat)
    (st : PathTraceWorkGPU W) :
    ∀ n : Nat, (∀ i, i < n → 0 ≤ (st.work_tiles_data i).volume) →
      0 ≤ ((List.range n).foldl (launch_tile E max_num_paths kernel)
        { st := st, num_paths := 0, d_work_tile := 0, d_path_index := none }).num_paths ∧
      ((List.range n).foldl (launch_tile E max_num_paths kernel)
        { st := st, num_paths := 0, d_work_tile := 0, d_path_index := none }).st.work_tiles_data
        = st.work_tiles_data ∧
      ((List.range n).foldl (launch_tile E max_num_paths kernel)
        { st := st, num_paths := 0, d_work_tile := 0, d_path_index := none }
        ).st.max_active_path_index_ = st.max_active_path_index_ ∧
      ((List.range n).foldl (launch_tile E max_num_paths kernel)
        { st := st, num_paths := 0, d_work_tile := 0, d_path_index := none }).d_path_index
        = none ∧
      ∀ i, occupied ((List.range n).foldl (launch_tile E max_num_paths kernel)
          { st := st, num_paths := 0, d_work_tile := 0, d_path_index := none }).st.world i
          = true →
        occupied st.world i = true ∨
          (i : Int) < ((List.range n).foldl (launch_tile E max_num_paths kernel)
            { st := st, num_paths := 0, d_work_tile := 0, d_path_index := none }).num_paths := by
  intro n
  induction n with
  | zero => intro _; exact ⟨le_rfl, rfl, rfl, rfl, fun i h => Or.inl h⟩
  | succ n ih =>
    intro hvol
    obtain ⟨h1, h2, h3, h4, h5⟩ := ih (fun i hi => hvol i (by omega))
    rw [List.range_succ, List.foldl_append]
    generalize (List.range n).foldl (launch_tile E max_num_paths kernel)
      { st := st, num_paths := 0, d_work_tile := 0, d_path_index := none } = s at h1 h2 h3 h4 h5
    have hv := hvol n (by omega)
    simp only [KernelWorkTile.volume] at hv
    simp only [List.foldl_cons, List.foldl_nil, launch_tile, queue_enqueue, emit, h2, h4]
    refine ⟨by omega, trivial, h3, rfl, fun i hi => ?_⟩
    rcases hdev.init_null _ _ _ _ _ _ _ _ hi with h | h
    · rcases h5 i h with h' | h'
      · exact Or.inl h'
      · exact Or.inr (by omega)
    · exact Or.inr h.2

/-- The launch loop of tile initialization with the free list: a path starts only in a slot
listed at a position below the running sum of the volumes. -/
theorem launch_tiles_list (K : DeviceKernelEnum) (E : Environment W)
    (max_num_paths : Int) (occupied : W → Nat → Bool) (free_list : W → List Nat)
    (hdev : PoolDevice K E max_num_paths occupied free_list) (kernel : Nat)
    (st : PathTraceWorkGPU W) :
    ∀ n : Nat, (∀ i, i < n → 0 ≤ (st.work_tiles_data i).volume) →
      0 ≤ ((List.range n).foldl (launch_tile E max_num_paths kernel)
        { st := st, num_paths := 0, d_work_tile := 0, d_path_index := some 0 }).num_paths ∧
      ((List.range n).foldl (launch_tile E max_num_paths kernel)
        { st := st, num_paths := 0, d_work_tile := 0, d_path_index := some 0 }
        ).st.work_tiles_data = st.work_tiles_data ∧
      ((List.range n).foldl (launch_tile E max_num_paths kernel)
        { st := st, num_paths := 0, d_work_tile := 0, d_path_index := some 0 }
        ).st.max_active_path_index_ = st.max_active_path_index_ ∧
      ((List.range n).foldl (launch_tile E max_num_paths kernel)
        { st := st, num_paths := 0, d_work_tile := 0, d_path_index := some 0 }).d_path_index
        = some ((List.range n).foldl (launch_tile E max_num_paths kernel)
          { st := st, num_paths := 0, d_work_tile := 0, d_path_index := some 0 }).num_paths ∧
      free_list ((List.range n).foldl (launch_tile E max_num_paths kernel)
        { st := st, num_paths := 0, d_work_tile := 0, d_path_index := some 0 }).st.world
        = free_list st.world ∧
      ∀ i, occupied ((List.range n).foldl (launch_tile E max_num_paths kernel)
          { st := st, num_paths := 0, d_work_tile := 0, d_path_index := some 0 }).st.world i
          = true →
        occupied st.world i = true ∨
          ∃ k : Nat, (k : Int) < ((List.range n).foldl (launch_tile E max_num_paths kernel)
              { st := st, num_paths := 0, d_work_tile := 0, d_path_index := some 0 }).num_paths ∧
            (free_list st.world)[k]? = some i := by
  intro n
  induction n with
  | zero => intro _; exact ⟨le_rfl, rfl, rfl, rfl, rfl, fun i h => Or.inl h⟩
  | succ n ih =>
    intro hvol
    obtain ⟨h1, h2, h3, h4, h5, h6⟩ := ih (fun i hi => hvol i (by omega))
    rw [List.range_succ, List.foldl_append]
    generalize (List.range n).foldl (launch_tile E max_num_paths kernel)
      { st := st, num_paths := 0, d_work_tile := 0, d_path_index := some 0 } = s
      at h1 h2 h3 h4 h5 h6
    have hv := hvol n (by omega)
    simp only [KernelWorkTile.volume] at hv
    simp only [List.foldl_cons, List.foldl_nil, launch_tile, queue_enqueue, emit, h2, h4,
      Option.map_some']
    refine ⟨by omega, trivial, h3, trivial, ?_, fun i hi => ?_⟩
    · rw [hdev.init_keeps_list, h5]
    · rcases hdev.init_list _ _ _ _ _ _ _ _ _ hi with h | ⟨k, hk1, hk2, hk3⟩
      · rcases h6 i h with h' | ⟨k, hk, hk'⟩
        · exact Or.inl h'
        · exact Or.inr ⟨k, by omega, hk'⟩
      · rw [h5] at hk3
        exact Or.inr ⟨k, hk2, hk3⟩

/-- Tile initialization keeps the high-water mark sound. -/
theorem enqueue_work_tiles_kernel_sound (K : DeviceKernelEnum) (E : Environment W)
    (max_num_paths : Int) (occupied : W → Nat → Bool) (free_list : W → List Nat)
    (hdev : PoolDevice K E max_num_paths occupied free_list) (hcap : 0 ≤ max_num_paths)
    (st : PathTraceWorkGPU W) (kernel : Nat) (tiles : List KernelWorkTile)
    (htiles : ∀ t ∈ tiles, 0 ≤ KernelWorkTile.volume t) (hs : PoolSound occupied st) :
    PoolSound occupied
      (enqueue_work_tiles_kernel K E max_num_paths st kernel tiles tiles.length) := by
  obtain ⟨new1, size, data, h1, hdata, -⟩ := copy_work_tiles_eq st tiles
  obtain ⟨hm0, hfree⟩ := hs
  have hvol : ∀ i, i < tiles.length → 0 ≤ (data i).volume := by
    intro i hi
    rw [hdata i hi]
    apply htiles
    simp [List.getD, List.getElem?_eq_getElem hi]
  unfold enqueue_work_tiles_kernel
  rw [h1]
  simp only []
  by_cases hc : st.max_active_path_index_ ≠ 0
  · have hd : decide (st.max_active_path_index_ ≠ 0) = true := decide_eq_true hc
    simp only [hd, if_true]
    obtain ⟨new2, world, qsize, nsize, h2, -⟩ := compute_queued_paths_eq K E max_num_paths
      { st with work_tiles_size := size, work_tiles_data := data, trace := st.trace ++ new1 }
      K.INTEGRATOR_TERMINATED_PATHS_ARRAY 0
    have hw := compute_queued_paths_world K E max_num_paths
      { st with work_tiles_size := size, work_tiles_data := data, trace := st.trace ++ new1 }
      K.INTEGRATOR_TERMINATED_PATHS_ARRAY 0
    rw [if_pos rfl] at hw
    rw [h2] at hw ⊢
    simp only [] at hw
    obtain ⟨g1, g2, g3, g4, g5, g6⟩ := launch_tiles_list K E max_num_paths occupied free_list
      hdev kernel
      { st with world := world, queued_paths_size := qsize, num_queued_paths_size := nsize,
                work_tiles_size := size, work_tiles_data := data,
                trace := st.trace ++ new1 ++ new2 } tiles.length hvol
    generalize (List.range tiles.length).foldl (launch_tile E max_num_paths kernel)
      { st := { st with world := world, queued_paths_size := qsize,
                        num_queued_paths_size := nsize, work_tiles_size := size,
                        work_tiles_data := data, trace := st.trace ++ new1 ++ new2 },
        num_paths := 0, d_work_tile := 0, d_path_index := some 0 } = s
      at g1 g2 g3 g4 g5 g6 ⊢
    simp only [] at g3 g5 g6
    refine ⟨le_min (by rw [g3]; omega) hcap, fun i hi => ?_⟩
    simp only [] at hi ⊢
    rw [g3] at hi
    by_contra hocc
    have hocc' : occupied s.st.world i = true := by simpa using hocc
    have hlt := hdev.pool_size _ _ hocc'
    rcases g6 i hocc' with h | ⟨k, hk, hk'⟩
    · rw [hw] at h
      have h' := hdev.compaction _ _ _ _ _ _ h
      have : ¬ st.max_active_path_index_ ≤ (i : Int) := by
        intro hle
        rw [hfree i hle] at h'
        exact Bool.false_ne_true h'
      have := min_le_iff.1 hi
      omega
    · rw [hw, hdev.terminated_paths] at hk'
      have hfl := free_slot_le (fun j => !occupied st.world j) max_num_paths.toNat
        st.max_active_path_index_.toNat k i
        (fun j hj _ => by
          have : occupied st.world j = false := hfree j (by omega)
          simp [this]) hk'
      have := min_le_iff.1 hi
      omega
  · have hd : decide (st.max_active_path_index_ ≠ 0) = false := decide_eq_false hc
    simp only [hd, Bool.false_eq_true, if_false]
    have hz : st.max_active_path_index_ = 0 := by simpa using hc
    obtain ⟨g1, g2, g3, g4, g6⟩ := launch_tiles_null K E max_num_paths occupied free_list
      hdev kernel
      { st with work_tiles_size := size, work_tiles_data := data, trace := st.trace ++ new1 }
      tiles.length hvol
    generalize (List.range tiles.length).foldl (launch_tile E max_num_paths kernel)
      { st := { st with work_tiles_size := size, work_tiles_data := data,
                        trace := st.trace ++ new1 },
        num_paths := 0, d_work_tile := 0, d_path_index := none } = s
      at g1 g2 g3 g4 g6 ⊢
    simp only [] at g3 g6
    refine ⟨le_min (by rw [g3]; omega) hcap, fun i hi => ?_⟩
    simp only [] at hi ⊢
    rw [g3] at hi
    by_contra hocc
    have hocc' : occupied s.st.world i = true := by simpa using hocc
    have hlt := hdev.pool_size _ _ hocc'
    rcases g6 i hocc' with h | h
    · rw [hfree i (by omega)] at h
      exact Bool.false_ne_true h
    · have := min_le_iff.1 hi
      omega

end PathTraceWorkGPU


namespace PathTraceWorkGPU

variable {W : Type}

/-- The gathering loop does not touch the pool. -/
theorem gather_work_tiles_occupied (K : DeviceKernelEnum) (E : Environment W)
    (max_num_paths : Int) (occupied : W → Nat → Bool) (free_list : W → List Nat)
    (hdev : PoolDevice K E max_num_paths occupied free_list) :
    ∀ (fuel : Nat) (g g' : GatherTiles W), gather_work_tiles E max_num_paths fuel g = some g' →
      ∀ i, occupied g'.st.world i = occupied g.st.world i := by
  intro fuel
  induction fuel with
  | zero =>
    intro g g' h
    unfold gather_work_tiles at h
    split_ifs at h with hlt
    cases h
    exact fun i => rfl
  | succ fuel ih =>
    intro g g' h i
    unfold gather_work_tiles at h
    split_ifs at h with hlt
    · have hgw := hdev.get_work g.st.world (max_num_paths - g.num_paths) i
      rcases hgw' : E.get_work g.st.world (max_num_paths - g.num_paths) with ⟨_ | t, w⟩
      · rw [hgw'] at h hgw
        cases h
        exact hgw
      · rw [hgw'] at h hgw
        rw [ih _ _ h i]
        exact hgw
    · cases h
      rfl

/-- A call of `enqueue_work_tiles(finished)` keeps the high-water mark sound, and when it
enqueues nothing the host counters stay level with the device. -/
theorem enqueue_work_tiles_sound (K : DeviceKernelEnum) (E : Environment W)
    (max_num_paths : Int) (occupied : W → Nat → Bool) (free_list : W → List Nat)
    (hdev : PoolDevice K E max_num_paths occupied free_list) (hcap : 0 ≤ max_num_paths)
    (hnn : E.NonnegTiles) (fuel : Nat) (st : PathTraceWorkGPU W) (finished : Bool)
    (r : WorkTilesResult W) (hs : PoolSound occupied st) (hidle : PoolIdle K occupied st)
    (h : enqueue_work_tiles K E max_num_paths fuel st finished = some r) :
    PoolSound occupied r.st ∧ (r.enqueued = false → PoolIdle K occupied r.st) := by
  have hst' : (if get_num_active_paths K st = 0 then { st with max_active_path_index_ := 0 }
      else st) = { st with max_active_path_index_ :=
        if get_num_active_paths K st = 0 then 0 else st.max_active_path_index_ } := by
    split_ifs <;> rfl
  have hmx : 0 ≤ (if get_num_active_paths K st = 0 then 0 else st.max_active_path_index_) ∧
      ∀ i : Nat, (if get_num_active_paths K st = 0 then 0 else st.max_active_path_index_) ≤
        (i : Int) → occupied st.world i = false := by
    split_ifs with hz
    · exact ⟨le_rfl, fun i _ => hidle hz i⟩
    · exact hs
  unfold enqueue_work_tiles at h
  simp only [hst'] at h
  generalize (if get_num_active_paths K st = 0 then 0 else st.max_active_path_index_) = mx
    at h hmx
  by_cases hcancel : E.is_cancel_requested st.world = true
  · rw [if_pos hcancel] at h
    cases h
    exact ⟨hmx, fun _ => hidle⟩
  rw [if_neg hcancel] at h
  by_cases hcond : get_num_active_paths K st = 0 ∨
      below_threshold regenerate_threshold (get_num_active_paths K st) max_num_paths = true
  · rw [if_pos hcond] at h
    rcases hg : gather_work_tiles E max_num_paths fuel
        { st := { st with max_active_path_index_ := mx },
          num_paths := get_num_active_paths K st, work_tiles := [] } with _ | g
    · rw [hg] at h; cases h
    · rw [hg] at h
      dsimp only at h
      obtain ⟨new, h1, h2, -, -, -, -, -, -, -, -, h10⟩ :=
        gather_work_tiles_spec E max_num_paths fuel _ _ hg
      have hocc := gather_work_tiles_occupied K E max_num_paths occupied free_list hdev
        fuel _ _ hg
      dsimp only at h1 hocc
      simp only [List.nil_append] at h2
      have hsg : PoolSound occupied g.st := by
        rw [h1]
        exact ⟨hmx.1, fun i hi => by rw [hocc i]; exact hmx.2 i hi⟩
      have hig : PoolIdle K occupied g.st := by
        intro hz i
        rw [hocc i]
        apply hidle _ i
        rw [h1] at hz
        exact hz
      split_ifs at h with hfin
      · cases h
        exact ⟨hsg, fun _ => hig⟩
      · cases h
        unfold initialize_paths
        split_ifs with hl
        · exact ⟨hsg, fun _ => hig⟩
        · refine ⟨?_, fun he => by simp at he⟩
          apply enqueue_work_tiles_kernel_sound K E max_num_paths occupied free_list hdev hcap
            _ _ _ _ hsg
          rw [h2]
          exact h10 hnn
  · rw [if_neg hcond] at h
    simp only [Option.some.injEq] at h
    subst h
    simp only [initialize_paths, List.length_nil, if_true]
    exact ⟨hmx, fun _ => hidle⟩

/-- The loop of `render_samples` keeps the high-water mark sound. -/
theorem render_loop_sound (K : DeviceKernelEnum) (E : Environment W)
    (max_num_paths : Int) (occupied : W → Nat → Bool) (free_list : W → List Nat)
    (hdev : PoolDevice K E max_num_paths occupied free_list) (hcap : 0 ≤ max_num_paths)
    (hnn : E.NonnegTiles) (tile_fuel : Nat) (uninit : Nat → Bool) :
    ∀ (fuel : Nat) (st st' : PathTraceWorkGPU W), PoolSound occupied st →
      PoolIdle K occupied st →
      render_loop K E max_num_paths tile_fuel uninit fuel st = some st' →
      PoolSound occupied st' := by
  intro fuel
  induction fuel with
  | zero => intro st st' _ _ h; simp [render_loop] at h
  | succ fuel ih =>
    intro st st' hs hidle h
    unfold render_loop at h
    rcases hr : enqueue_work_tiles K E max_num_paths tile_fuel st (uninit fuel) with _ | r
    · rw [hr] at h; simp at h
    rw [hr] at h
    simp only [] at h
    obtain ⟨hrs, hri⟩ := enqueue_work_tiles_sound K E max_num_paths occupied free_list hdev
      hcap hnn tile_fuel st _ r hs hidle hr
    have hsync : ∀ s : PathTraceWorkGPU W, PoolSound occupied s →
        PoolSound occupied (queue_synchronize E s).2 :=
      fun s hs' => ⟨hs'.1, fun i hi => by
        show occupied (E.synchronize s.world).2 i = false
        rw [hdev.synchronize]; exact hs'.2 i hi⟩
    have hcopy : ∀ s : PathTraceWorkGPU W, PoolSound occupied s →
        PoolSound occupied (copy_stats E s) := fun s hs' => hs'
    obtain ⟨s1, hs1⟩ : ∃ s1, s1 = (if r.enqueued = true then queue_synchronize E r.st
      else (true, r.st)) := ⟨_, rfl⟩
    rw [← hs1] at h
    have hs1' : PoolSound occupied s1.2 := by
      rw [hs1]; split_ifs
      · exact hsync _ hrs
      · exact hrs
    obtain ⟨st2, hst2⟩ : ∃ st2, st2 = (if r.enqueued = true then copy_stats E s1.2 else s1.2) :=
      ⟨_, rfl⟩
    rw [← hst2] at h
    have hst2' : PoolSound occupied st2 ∧ PoolIdle K occupied st2 := by
      rw [hst2]
      by_cases he : r.enqueued = true
      · rw [if_pos he]
        exact ⟨hcopy _ hs1', copy_stats_idle K E max_num_paths occupied free_list hdev _⟩
      · rw [if_neg he]
        refine ⟨hs1', ?_⟩
        rw [hs1, if_neg he]
        exact hri (by simpa using he)
    have hp : PoolSound occupied (enqueue_path_iteration K E max_num_paths st2).2 ∧
        PoolIdle K occupied (enqueue_path_iteration K E max_num_paths st2).2 := by
      have hocc := enqueue_path_iteration_occupied K E max_num_paths occupied free_list hdev st2
      obtain ⟨-, hmax, hq⟩ := enqueue_path_iteration_eq K E max_num_paths st2
      have hnone : ∀ i, occupied st2.world i = false →
          occupied (enqueue_path_iteration K E max_num_paths st2).2.world i = false := by
        intro i hf
        by_contra hc
        have := hocc i (by simpa using hc)
        rw [hf] at this
        exact Bool.false_ne_true this
      refine ⟨⟨by rw [hmax]; exact hst2'.1.1, fun i hi => ?_⟩, fun hz i => ?_⟩
      · rw [hmax] at hi
        exact hnone i (hst2'.1.2 i hi)
      · apply hnone i
        apply hst2'.2 _ i
        unfold get_num_active_paths at hz ⊢
        rw [hq] at hz
        exact hz
    generalize enqueue_path_iteration K E max_num_paths st2 = p at h hp
    split_ifs at h
    · cases h; exact hs1'
    · cases h; exact hst2'.1
    · cases h; exact hp.1
    · cases h; exact hsync _ hp.1
    · exact ih _ _ (hcopy _ (hsync _ hp.1))
        (copy_stats_idle K E max_num_paths occupied free_list hdev _) h
    · exact ih _ _ hp.1 hp.2 h

/-- The dispatcher starts no path and leaves the host counters as they are: counters that are
level with the device stay so. -/
theorem enqueue_path_iteration_idle (K : DeviceKernelEnum) (E : Environment W)
    (max_num_paths : Int) (occupied : W → Nat → Bool) (free_list : W → List Nat)
    (hdev : PoolDevice K E max_num_paths occupied free_list) (st : PathTraceWorkGPU W)
    (hi : PoolIdle K occupied st) :
    PoolIdle K occupied (enqueue_path_iteration K E max_num_paths st).2 := by
  intro hz i
  obtain ⟨-, -, hq⟩ := enqueue_path_iteration_eq K E max_num_paths st
  have hocc := enqueue_path_iteration_occupied K E max_num_paths occupied free_list hdev st i
  have hf : occupied st.world i = false := by
    apply hi _ i
    unfold get_num_active_paths at hz ⊢
    rw [hq] at hz
    exact hz
  by_contra hc
  have := hocc (by simpa using hc)
  rw [hf] at this
  exact Bool.false_ne_true this

/-- The loop of `render_samples` on a device whose `synchronize` never fails: the high-water
mark stays sound and the host counters are level with the device when the loop ends. -/
theorem render_loop_level (K : DeviceKernelEnum) (E : Environment W)
    (max_num_paths : Int) (occupied : W → Nat → Bool) (free_list : W → List Nat)
    (hdev : PoolDevice K E max_num_paths occupied free_list) (hcap : 0 ≤ max_num_paths)
    (hnn : E.NonnegTiles) (hsync : ∀ w, (E.synchronize w).1 = true) (tile_fuel : Nat)
    (uninit : Nat → Bool) :
    ∀ (fuel : Nat) (st st' : PathTraceWorkGPU W), PoolSound occupied st →
      PoolIdle K occupied st →
      render_loop K E max_num_paths tile_fuel uninit fuel st = some st' →
      PoolSound occupied st' ∧ PoolIdle K occupied st' := by
  intro fuel
  induction fuel with
  | zero => intro st st' _ _ h; simp [render_loop] at h
  | succ fuel ih =>
    intro st st' hs hidle h
    unfold render_loop at h
    rcases hr : enqueue_work_tiles K E max_num_paths tile_fuel st (uninit fuel) with _ | r
    · rw [hr] at h; simp at h
    rw [hr] at h
    simp only [] at h
    obtain ⟨hrs, hri⟩ := enqueue_work_tiles_sound K E max_num_paths occupied free_list hdev
      hcap hnn tile_fuel st _ r hs hidle hr
    have hsound : ∀ s : PathTraceWorkGPU W, PoolSound occupied s →
        PoolSound occupied (queue_synchronize E s).2 :=
      fun s hs' => ⟨hs'.1, fun i hi => by
        show occupied (E.synchronize s.world).2 i = false
        rw [hdev.synchronize]; exact hs'.2 i hi⟩
    have hok : ∀ s : PathTraceWorkGPU W, (queue_synchronize E s).1 = true :=
      fun s => hsync s.world
    have hcopy : ∀ s : PathTraceWorkGPU W, PoolSound occupied s →
        PoolSound occupied (copy_stats E s) := fun s hs' => hs'
    obtain ⟨s1, hs1⟩ : ∃ s1, s1 = (if r.enqueued = true then queue_synchronize E r.st
      else (true, r.st)) := ⟨_, rfl⟩
    rw [← hs1] at h
    have hs1' : PoolSound occupied s1.2 := by
      rw [hs1]; split_ifs
      · exact hsound _ hrs
      · exact hrs
    have hs1t : s1.1 = true := by
      rw [hs1]; split_ifs
      · exact hok _
      · rfl
    obtain ⟨st2, hst2⟩ : ∃ st2, st2 = (if r.enqueued = true then copy_stats E s1.2 else s1.2) :=
      ⟨_, rfl⟩
    rw [← hst2] at h
    have hst2' : PoolSound occupied st2 ∧ PoolIdle K occupied st2 := by
      rw [hst2]
      by_cases he : r.enqueued = true
      · rw [if_pos he]
        exact ⟨hcopy _ hs1', copy_stats_idle K E max_num_paths occupied free_list hdev _⟩
      · rw [if_neg he]
        refine ⟨hs1', ?_⟩
        rw [hs1, if_neg he]
        exact hri (by simpa using he)
    have hp : PoolSound occupied (enqueue_path_iteration K E max_num_paths st2).2 ∧
        PoolIdle K occupied (enqueue_path_iteration K E max_num_paths st2).2 := by
      have hocc := enqueue_path_iteration_occupied K E max_num_paths occupied free_list hdev st2
      obtain ⟨-, hmax, hq⟩ := enqueue_path_iteration_eq K E max_num_paths st2
      have hnone : ∀ i, occupied st2.world i = false →
          occupied (enqueue_path_iteration K E max_num_paths st2).2.world i = false := by
        intro i hf
        by_contra hc
        have := hocc i (by simpa using hc)
        rw [hf] at this
        exact Bool.false_ne_true this
      refine ⟨⟨by rw [hmax]; exact hst2'.1.1, fun i hi => ?_⟩, fun hz i => ?_⟩
      · rw [hmax] at hi
        exact hnone i (hst2'.1.2 i hi)
      · apply hnone i
        apply hst2'.2 _ i
        unfold get_num_active_paths at hz ⊢
        rw [hq] at hz
        exact hz
    generalize enqueue_path_iteration K E max_num_paths st2 = p at h hp
    split_ifs at h with h1 h2 h3 h4 h5
    · rw [hs1t] at h1; exact absurd h1 (by decide)
    · cases h; exact hst2'
    · cases h; exact hp
    · rw [hok] at h5; exact absurd h5 (by decide)
    · exact ih _ _ (hcopy _ (hsound _ hp.1))
        (copy_stats_idle K E max_num_paths occupied free_list hdev _) h
    · exact ih _ _ hp.1 hp.2 h

/-- A call of `render_samples` on a device whose `synchronize` never fails keeps the high-water
mark sound and leaves the host counters level with the device. -/
theorem render_samples_level (K : DeviceKernelEnum) (E : Environment W)
    (max_num_paths : Int) (occupied : W → Nat → Bool) (free_list : W → List Nat)
    (hdev : PoolDevice K E max_num_paths occupied free_list) (hcap : 0 ≤ max_num_paths)
    (hnn : E.NonnegTiles) (hsync : ∀ w, (E.synchronize w).1 = true) (tile_fuel : Nat)
    (uninit : Nat → Bool) (fuel : Nat) (st st' : PathTraceWorkGPU W)
    (start_sample samples_num : Int) (hs : PoolSound occupied st)
    (hi : PoolIdle K occupied st)
    (hr : render_samples K E max_num_paths tile_fuel uninit fuel st start_sample samples_num =
      some st') :
    PoolSound occupied st' ∧ PoolIdle K occupied st' := by
  refine render_loop_level K E max_num_paths occupied free_list hdev hcap hnn hsync tile_fuel
    uninit fuel
    { st with
      world := E.reset st.world start_sample samples_num,
      trace := st.trace ++ [Event.scheduler_reset start_sample samples_num] } st' ?_ ?_ hr
  · exact ⟨hs.1, fun i hi' => by
      show occupied (E.reset st.world start_sample samples_num) i = false
      rw [hdev.scheduler_reset]; exact hs.2 i hi'⟩
  · intro hz i
    show occupied (E.reset st.world start_sample samples_num) i = false
    rw [hdev.scheduler_reset]
    exact hi hz i

/-- Calls of `render_samples`, one after the other, on a device whose `synchronize` never fails
keep the high-water mark sound and the host counters level with the device. -/
theorem render_samples_calls_level (K : DeviceKernelEnum) (E : Environment W)
    (max_num_paths : Int) (occupied : W → Nat → Bool) (free_list : W → List Nat)
    (hdev : PoolDevice K E max_num_paths occupied free_list) (hcap : 0 ≤ max_num_paths)
    (hnn : E.NonnegTiles) (hsync : ∀ w, (E.synchronize w).1 = true) :
    ∀ (calls : List RenderCall) (st st' : PathTraceWorkGPU W), PoolSound occupied st →
      PoolIdle K occupied st →
      render_samples_calls K E max_num_paths st calls = some st' →
      PoolSound occupied st' ∧ PoolIdle K occupied st' := by
  intro calls
  induction calls with
  | nil =>
    intro st st' hs hi h
    simp only [render_samples_calls, Option.some.injEq] at h
    subst h
    exact ⟨hs, hi⟩
  | cons c cs ih =>
    intro st st' hs hi h
    unfold render_samples_calls at h
    rcases hr : render_samples K E max_num_paths c.tile_fuel c.uninit c.fuel st c.start_sample
        c.samples_num with _ | st1
    · rw [hr] at h; simp at h
    · rw [hr] at h
      obtain ⟨hs1, hi1⟩ := render_samples_level K E max_num_paths occupied free_list hdev hcap
        hnn hsync _ _ _ _ _ _ _ hs hi hr
      exact ih st1 st' hs1 hi1 h

/-- The object as constructed, over an empty pool: the high-water mark is sound and the host
counters are level with the device. -/
theorem init_sound (K : DeviceKernelEnum) (occupied : W → Nat → Bool) (world : W)
    (hfree : ∀ i, occupied world i = false) :
    PoolSound occupied (init world) ∧ PoolIdle K occupied (init world) :=
  ⟨⟨le_rfl, fun i _ => hfree i⟩, fun _ i => hfree i⟩

/-- C23 (amended): for a device on which the counters count the occupied slots, the
terminated-paths compaction lists the free slots in ascending order and tile initialization
starts the k-th new path in the k-th listed slot (in slot k when the list is null), and for
tiles of non-negative volume. Every step of the scheduler leads from a state in which no slot at
or above `max_active_path_index_` holds a path to a state in which none does;
`enqueue_work_tiles(finished)` and `render_samples` need the host counters level with the
device on entry, which holds for the object as constructed over an empty pool, again after
every `copy_from_device`, and is kept by `enqueue_path_iteration()` and by an
`enqueue_work_tiles(finished)` that enqueues nothing. When in addition `synchronize` never
fails, `render_samples` leaves the counters level, so that in every state reached from the
constructed object through calls of `render_samples` no slot at or above
`max_active_path_index_` holds a path. -/
theorem max_active_path_index_sound (K : DeviceKernelEnum) (E : Environment W)
    (max_num_paths : Int) (occupied : W → Nat → Bool) (free_list : W → List Nat)
    (hdev : PoolDevice K E max_num_paths occupied free_list) (hcap : 0 ≤ max_num_paths)
    (hnn : E.NonnegTiles) :
    (∀ st kernel queued_kernel, PoolSound occupied st →
      PoolSound occupied (compute_queued_paths K E max_num_paths st kernel queued_kernel)) ∧
    (∀ st kernel, PoolSound occupied st →
      PoolSound occupied (enqueue_path_iteration_kernel K E max_num_paths st kernel)) ∧
    (∀ st, PoolSound occupied st →
      PoolSound occupied (enqueue_path_iteration K E max_num_paths st).2 ∧
        (PoolIdle K occupied st →
          PoolIdle K occupied (enqueue_path_iteration K E max_num_paths st).2)) ∧
    (∀ st kernel (tiles : List KernelWorkTile), PoolSound occupied st →
      (∀ t ∈ tiles, 0 ≤ KernelWorkTile.volume t) →
      PoolSound occupied
        (enqueue_work_tiles_kernel K E max_num_paths st kernel tiles tiles.length)) ∧
    (∀ fuel st finished r, PoolSound occupied st → PoolIdle K occupied st →
      enqueue_work_tiles K E max_num_paths fuel st finished = some r →
      PoolSound occupied r.st ∧ (r.enqueued = false → PoolIdle K occupied r.st)) ∧
    (∀ st, PoolSound occupied st →
      PoolSound occupied (copy_stats E (queue_synchronize E st).2) ∧
        PoolIdle K occupied (copy_stats E (queue_synchronize E st).2)) ∧
    (∀ tile_fuel uninit fuel st start_sample samples_num st', PoolSound occupied st →
      PoolIdle K occupied st →
      render_samples K E max_num_paths tile_fuel uninit fuel st start_sample samples_num =
        some st' →
      PoolSound occupied st' ∧
        ((∀ w, (E.synchronize w).1 = true) → PoolIdle K occupied st')) ∧
    (∀ world, (∀ i, occupied world i = false) →
      PoolSound occupied (init world) ∧ PoolIdle K occupied (init world)) ∧
    ((∀ w, (E.synchronize w).1 = true) → ∀ world, (∀ i, occupied world i = false) →
      ∀ calls st', render_samples_calls K E max_num_paths (init world) calls = some st' →
        PoolSound occupied st' ∧ PoolIdle K occupied st') := by
  have hfalse : ∀ (w w' : W), (∀ i, occupied w' i = true → occupied w i = true) →
      ∀ i, occupied w i = false → occupied w' i = false := by
    intro w w' hww i hf
    by_contra hc
    have := hww i (by simpa using hc)
    rw [hf] at this
    exact Bool.false_ne_true this
  refine ⟨fun st kernel qk hs => ?_, fun st kernel hs => ?_, fun st hs => ?_,
    fun st kernel tiles hs ht =>
      enqueue_work_tiles_kernel_sound K E max_num_paths occupied free_list hdev hcap st kernel
        tiles ht hs,
    fun fuel st fin r hs hi hr =>
      enqueue_work_tiles_sound K E max_num_paths occupied free_list hdev hcap hnn fuel st fin r
        hs hi hr,
    fun st hs => ⟨?_, copy_stats_idle K E max_num_paths occupied free_list hdev _⟩,
    fun tf uninit fuel st a b st' hs hi hr => ⟨?_, fun hsync =>
      (render_samples_level K E max_num_paths occupied free_list hdev hcap hnn hsync tf uninit
        fuel st st' a b hs hi hr).2⟩,
    fun world hfree => init_sound K occupied world hfree,
    fun hsync world hfree calls st' h =>
      render_samples_calls_level K E max_num_paths occupied free_list hdev hcap hnn hsync calls
        (init world) st' (init_sound K occupied world hfree).1
        (init_sound K occupied world hfree).2 h⟩
  · refine ⟨by rw [(compute_queued_paths_frame K E max_num_paths st kernel qk).1]; exact hs.1,
      fun i hi => ?_⟩
    rw [(compute_queued_paths_frame K E max_num_paths st kernel qk).1] at hi
    rw [compute_queued_paths_world]
    exact hfalse _ _ (fun j => hdev.compaction _ _ _ _ _ j) i (hs.2 i hi)
  · have hmax := (enqueue_path_iteration_kernel_eq K E max_num_paths st kernel).2.1
    refine ⟨by rw [hmax]; exact hs.1, fun i hi => ?_⟩
    rw [hmax] at hi
    exact hfalse _ _ (fun j => enqueue_path_iteration_kernel_occupied K E max_num_paths occupied
      free_list hdev st kernel j) i (hs.2 i hi)
  · refine ⟨⟨by rw [(enqueue_path_iteration_eq K E max_num_paths st).2.1]; exact hs.1,
      fun i hi => ?_⟩,
      enqueue_path_iteration_idle K E max_num_paths occupied free_list hdev st⟩
    rw [(enqueue_path_iteration_eq K E max_num_paths st).2.1] at hi
    exact hfalse _ _ (fun j => enqueue_path_iteration_occupied K E max_num_paths occupied
      free_list hdev st j) i (hs.2 i hi)
  · exact ⟨hs.1, fun i hi => by
      show occupied (E.synchronize st.world).2 i = false
      rw [hdev.synchronize]; exact hs.2 i hi⟩
  · refine render_loop_sound K E max_num_paths occupied free_list hdev hcap hnn tf uninit fuel
      { st with
        world := E.reset st.world a b,
        trace := st.trace ++ [Event.scheduler_reset a b] } st' ?_ ?_ hr
    · exact ⟨hs.1, fun i hi => by
        show occupied (E.reset st.world a b) i = false
        rw [hdev.scheduler_reset]; exact hs.2 i hi⟩
    · intro hz i
      show occupied (E.reset st.world a b) i = false
      rw [hdev.scheduler_reset]
      exact hi hz i


end PathTraceWorkGPU


namespace PathTraceWorkGPU

/-! ### A device that keeps the contract of the pool -/

theorem poolPlace_getD (indices : List Nat) :
    ∀ (slots : List Bool) (j : Nat), (poolPlace indices slots).getD j false = true →
      slots.getD j false = true ∨ j ∈ indices := by
  induction indices with
  | nil => intro slots j h; exact Or.inl h
  | cons i l ih =>
    intro slots j h
    unfold poolPlace at h
    rw [List.foldl_cons] at h
    rcases ih (slots.set i true) j h with h' | h'
    · by_cases hij : i = j
      · exact Or.inr (by simp [hij])
      · left
        simpa [List.getD_eq_getElem?_getD, List.getElem?_set, hij] using h'
    · exact Or.inr (List.mem_cons_of_mem _ h')

theorem poolEnvironment_get_work (K : DeviceKernelEnum) (capacity : Nat) (w : PoolWorld)
    (n : Int) (t : KernelWorkTile) (w' : PoolWorld)
    (h : (poolEnvironment K capacity).get_work w n = (some t, w')) :
    1 ≤ t.volume ∧ t.volume ≤ n := by
  unfold poolEnvironment at h
  simp only at h
  split at h
  · simp at h
  · split_ifs at h with hc
    · simp only [Prod.mk.injEq, Option.some.injEq] at h
      rw [← h.1]; exact hc
    · simp at h

theorem poolEnvironment_nonnegTiles (K : DeviceKernelEnum) (capacity : Nat) :
    (poolEnvironment K capacity).NonnegTiles :=
  fun w n t w' h => by have := (poolEnvironment_get_work K capacity w n t w' h).1; omega

/-- The sample device with a pool keeps the contract `PoolDevice`. -/
theorem poolEnvironment_device (K : DeviceKernelEnum) (capacity : Nat)
    (hIC : K.INTEGRATOR_INTERSECT_CLOSEST < K.INTEGRATOR_NUM) :
    PoolDevice K (poolEnvironment K capacity) (capacity : Int) (poolOccupied capacity)
      PoolWorld.queued_paths where
  pool_size w i h := by
    simp only [poolOccupied, Bool.and_eq_true, decide_eq_true_eq] at h
    exact_mod_cast h.1
  counters_exact w := by
    simp only [poolEnvironment, Int.toNat_ofNat]
    rw [Finset.sum_ite_eq' (Finset.range K.INTEGRATOR_NUM)]
    rw [if_pos (Finset.mem_range.2 hIC)]
  scheduler_reset w a b i := rfl
  get_work w n i := by
    simp only [poolEnvironment, poolOccupied]
    split
    · rfl
    · split_ifs <;> rfl
  synchronize w i := rfl
  compaction w kernel ws size qk i h := h
  intersect w kernel ws d size i h := by
    simp [poolEnvironment, poolOccupied, List.getD_eq_getElem?_getD] at h
  shade w kernel ws d size i h := by
    simp [poolEnvironment, poolOccupied, List.getD_eq_getElem?_getD] at h
  terminated_paths w ws := by
    simp [poolEnvironment]
  init_keeps_list w kernel ws d dw wt tws np := rfl
  init_null w kernel ws dw wt tws np i h := by
    simp only [poolEnvironment, poolOccupied, Bool.and_eq_true, decide_eq_true_eq] at h
    rcases poolPlace_getD _ _ _ h.2 with h' | h'
    · left
      show (decide (i < capacity) && w.slots.getD i false) = true
      rw [h', decide_eq_true h.1]
      rfl
    · right
      simp only [poolIndices, List.mem_filterMap, List.mem_range] at h'
      obtain ⟨g, hg, hgi⟩ := h'
      split_ifs at hgi with h0
      simp only [Option.some.injEq] at hgi
      omega
  init_list w kernel ws p dw wt tws np i h := by
    simp only [poolEnvironment, poolOccupied, Bool.and_eq_true, decide_eq_true_eq] at h
    rcases poolPlace_getD _ _ _ h.2 with h' | h'
    · left
      show (decide (i < capacity) && w.slots.getD i false) = true
      rw [h', decide_eq_true h.1]
      rfl
    · right
      simp only [poolIndices, List.mem_filterMap, List.mem_range] at h'
      obtain ⟨g, hg, hgi⟩ := h'
      split_ifs at hgi with h0
      exact ⟨(p + g).toNat, by omega, by omega, hgi⟩

end PathTraceWorkGPU


namespace PathTraceWorkGPU

theorem samplePoolState_sound : PoolSound (poolOccupied 10) samplePoolState := by
  refine ⟨by decide, fun i hi => ?_⟩
  have h3 : 3 ≤ i := by
    have : (3 : Int) ≤ (i : Int) := hi
    omega
  unfold poolOccupied
  by_cases h : i < 10
  · interval_cases i <;> rfl
  · simp [h]

theorem samplePoolState_idle : PoolIdle sampleKernels (poolOccupied 10) samplePoolState :=
  fun h => absurd h (by decide)

/-- The faulty device keeps the contract `PoolDevice`: the contract does not say that
`synchronize` succeeds. -/
theorem faultyPoolEnvironment_device (K : DeviceKernelEnum) (capacity : Nat)
    (hIC : K.INTEGRATOR_INTERSECT_CLOSEST < K.INTEGRATOR_NUM) :
    PoolDevice K (faultyPoolEnvironment K capacity) (capacity : Int) (poolOccupied capacity)
      PoolWorld.queued_paths where
  pool_size := (poolEnvironment_device K capacity hIC).pool_size
  counters_exact := (poolEnvironment_device K capacity hIC).counters_exact
  scheduler_reset := (poolEnvironment_device K capacity hIC).scheduler_reset
  get_work := (poolEnvironment_device K capacity hIC).get_work
  synchronize _ _ := rfl
  compaction := (poolEnvironment_device K capacity hIC).compaction
  intersect := (poolEnvironment_device K capacity hIC).intersect
  shade := (poolEnvironment_device K capacity hIC).shade
  terminated_paths := (poolEnvironment_device K capacity hIC).terminated_paths
  init_keeps_list := (poolEnvironment_device K capacity hIC).init_keeps_list
  init_null := (poolEnvironment_device K capacity hIC).init_null
  init_list := (poolEnvironment_device K capacity hIC).init_list

theorem emptyPool_free (tiles : List KernelWorkTile) (i : Nat) :
    poolOccupied 10 (emptyPool tiles) i = false := by
  unfold poolOccupied
  by_cases h : i < 10
  · interval_cases i <;> rfl
  · simp [h]

set_option maxHeartbeats 1000000 in
/-- C23, as stated, fails: a device with a pool of 10 slots keeps the three premises of the
claim, but its `synchronize` reports an error. The first call of `render_samples` on the
constructed object starts six paths in slots 0 to 5 and ends at the failed `synchronize`, before
the counters are read back; the second call finds the host counters at zero, resets
`max_active_path_index_` to 0 and ends, the scheduler having no tile left. Slot 0 holds a path
and is not below the high-water mark. -/
theorem max_active_path_index_sound_counterexample :
    PoolDevice sampleKernels (faultyPoolEnvironment sampleKernels 10) 10 (poolOccupied 10)
      PoolWorld.queued_paths ∧
    (∀ i, poolOccupied 10 (emptyPool (sampleTiles.take 1)) i = false) ∧
    (render_samples_calls sampleKernels (faultyPoolEnvironment sampleKernels 10) 10
        (init (emptyPool (sampleTiles.take 1))) [sampleCall]).map
      (fun st => (st.max_active_path_index_, st.world.slots)) =
      some (6, [true, true, true, true, true, true, false, false, false, false]) ∧
    ∃ st, render_samples_calls sampleKernels (faultyPoolEnvironment sampleKernels 10) 10
        (init (emptyPool (sampleTiles.take 1))) [sampleCall, sampleCall] = some st ∧
      st.max_active_path_index_ = 0 ∧
      poolOccupied 10 st.world 0 = true ∧
      ¬ PoolSound (poolOccupied 10) st :=
  ⟨faultyPoolEnvironment_device sampleKernels 10 (by decide), emptyPool_free _, by decide,
    _, rfl, by decide, by decide, fun h => absurd (h.2 0 (by decide)) (by decide)⟩

set_option maxHeartbeats 1000000 in
/-- Witness of C23: a pool of 10 slots with paths in slots 0 and 2 and 3 slots in use. A call of
`enqueue_work_tiles(finished)` gets the tile of volume 6 and starts its paths in the first six
free slots; the high-water mark moves to 9 and no slot from 9 on holds a path. And two calls of
`render_samples` on the constructed object over an empty pool end with a sound high-water
mark. -/
theorem max_active_path_index_sound_witness :
    (∃ r, enqueue_work_tiles sampleKernels (poolEnvironment sampleKernels 10) 10 10
        samplePoolState false = some r ∧
      r.st.max_active_path_index_ = 9 ∧
      r.st.world.slots = [true, true, true, true, true, true, true, true, false, false] ∧
      PoolSound (poolOccupied 10) r.st) ∧
    ∃ st, render_samples_calls sampleKernels (poolEnvironment sampleKernels 10) 10
        (init (emptyPool sampleTiles)) [sampleCall, sampleCall] = some st ∧
      PoolSound (poolOccupied 10) st ∧ PoolIdle sampleKernels (poolOccupied 10) st :=
  ⟨⟨_, rfl, by decide, by decide,
    ((max_active_path_index_sound sampleKernels (poolEnvironment sampleKernels 10) 10
      (poolOccupied 10) PoolWorld.queued_paths
      (poolEnvironment_device sampleKernels 10 (by decide)) (by decide)
      (poolEnvironment_nonnegTiles sampleKernels 10)).2.2.2.2.1 10 samplePoolState false _
      samplePoolState_sound samplePoolState_idle rfl).1⟩,
   ⟨_, rfl,
    (max_active_path_index_sound sampleKernels (poolEnvironment sampleKernels 10) 10
      (poolOccupied 10) PoolWorld.queued_paths
      (poolEnvironment_device sampleKernels 10 (by decide)) (by decide)
      (poolEnvironment_nonnegTiles sampleKernels 10)).2.2.2.2.2.2.2.2 (fun _ => rfl)
      (emptyPool sampleTiles) (emptyPool_free _) [sampleCall, sampleCall] _ rfl⟩⟩

end PathTraceWorkGPU

end Cycles
